import Mathlib

/-!
# alifecore: game transactions and game-state snapshots

A shallow embedding of `src/game/state.h` and `src/game/tx.cpp`, with
`GetHuntercoinMinFee` of `src/policy/policy.cpp` and the selection of the
chain parameters of `src/chainparams.cpp`.

Conventions of the embedding.

* `std::string` and `valtype` (`std::vector<unsigned char>`) are byte
  sequences, `List Nat`; `std::string::operator<` is the lexicographic
  order of the bytes, which is the order of `List Nat`.
* `int`, `int64_t` and `CAmount` values are `Int`.  Most of the code
  embedded here only copies and compares them; where it computes (`nAmount +=`
  in `Collect`, the subtractions and `std::abs` of `distLInf`) the result is
  reduced to the width of the type (`toInt64`, `toInt32`).
* `std::set<K>` and `std::map<K, V>` are lists in iteration order (strictly
  increasing keys); the killed-by map is a list in iteration order (by
  victim, then by reason, equivalent entries in insertion order).
* A failing `assert` is an outcome of its own (`Flow.assertFailed`, `none`
  for `CreateGameTransactions`, `SerError.assertFailed` for a
  serialisation), different from `return false`.
* A `SerializationOp` body is embedded once, as the list of its statements,
  and run for writing (`writeOps`) and for reading (`readOps`).
-/

namespace AlifeCore

/-! ## Basic types (`game/common.h`, `amount.h`) -/

/-- The type `valtype` of `script/script.h`: a byte vector. -/
abbrev valtype := List Nat

/-- The type `PlayerID` (`std::string`), as its byte sequence. -/
abbrev PlayerID := List Nat

/-- The type `CAmount` (`int64_t`). -/
abbrev CAmount := Int

/-- The function `ValtypeFromString`: the bytes of the string. -/
def ValtypeFromString (s : PlayerID) : valtype := s

/-- The struct `CharacterID`: player name and character index. -/
structure CharacterID where
  player : PlayerID
  index : Int
deriving DecidableEq, Repr

/-- The type `PlayerSet`, a `std::set<PlayerID>`, in iteration order. -/
abbrev PlayerSet := List PlayerID

/-- The method `std::set::insert`: the element is placed at its position in
the order, and nothing happens when it is already present. -/
def PlayerSet.insert : PlayerSet → PlayerID → PlayerSet
  | [], p => [p]
  | x :: xs, p =>
    if p < x then p :: x :: xs
    else if x < p then x :: PlayerSet.insert xs p
    else x :: xs

/-! ## Loot (`game/state.h`, lines 146-238) -/

/-- The struct `LootInfo`. -/
structure LootInfo where
  nAmount : CAmount
  firstBlock : Int
  lastBlock : Int
deriving DecidableEq, Repr

/-- The constructor `LootInfo()`. -/
def LootInfo.new : LootInfo := ⟨0, -1, -1⟩

/-- The struct `CollectedLootInfo : public LootInfo`. -/
structure CollectedLootInfo extends LootInfo where
  collectedFirstBlock : Int
  collectedLastBlock : Int
deriving DecidableEq, Repr

/-- The constructor `CollectedLootInfo()`. -/
def CollectedLootInfo.new : CollectedLootInfo :=
  { toLootInfo := LootInfo.new, collectedFirstBlock := -1, collectedLastBlock := -1 }

/-- The method `CollectedLootInfo::IsRefund`. -/
def CollectedLootInfo.IsRefund (c : CollectedLootInfo) : Bool :=
  decide (c.nAmount > 0) && decide (c.collectedFirstBlock = -1)

/-- The method `CollectedLootInfo::GetRefundHeight`; `none` when
`assert (IsRefund ())` fails. -/
def CollectedLootInfo.GetRefundHeight (c : CollectedLootInfo) : Option Int :=
  if c.IsRefund then some c.collectedLastBlock else none

/-! ## Step results (`game/state.h`, lines 931-1070) -/

/-- The struct `CollectedBounty`. -/
structure CollectedBounty where
  character : CharacterID
  loot : CollectedLootInfo
  address : List Nat
deriving DecidableEq, Repr

/-- The enum `KilledByInfo::Reason`. -/
inductive Reason where
  | KILLED_DESTRUCT
  | KILLED_SPAWN
  | KILLED_POISON
deriving DecidableEq, Repr

/-- The numeric value of a `Reason` enumerator. -/
def Reason.toInt : Reason → Int
  | .KILLED_DESTRUCT => 1
  | .KILLED_SPAWN => 2
  | .KILLED_POISON => 3

/-- The struct `KilledByInfo`. -/
structure KilledByInfo where
  reason : Reason
  killer : CharacterID
deriving DecidableEq, Repr

/-- The constructor `KilledByInfo (Reason why)`; `none` when
`assert (why != KILLED_DESTRUCT)` fails.  The killer is left
default-constructed; `dflt` is `CharacterID ()`, whose definition is in
`game/common.h`. -/
def KilledByInfo.ofReason (dflt : CharacterID) (why : Reason) : Option KilledByInfo :=
  if why = .KILLED_DESTRUCT then none else some ⟨why, dflt⟩

/-- The constructor `KilledByInfo (const CharacterID& ch)`. -/
def KilledByInfo.ofKiller (ch : CharacterID) : KilledByInfo :=
  ⟨.KILLED_DESTRUCT, ch⟩

/-- Modelled from the spec: the typedef `KilledByMap` is in `game/common.h`,
which is not among the sources.  The spec (section 3) calls it a "multimap
of killed-player → `KilledByInfo` ordered by `Reason`
(`KILLED_DESTRUCT < KILLED_SPAWN < KILLED_POISON`)", and (section 9) "a
sorted container keyed by `(victim, Reason)` where `Reason` is an enum with
numeric order `DESTRUCT < SPAWN < POISON`"; the comments of the code say the
same (`tx.cpp`, lines 92-96: "the ordering inside of KilledByMap", which "is
determined by the enum values for KILLED_*"; `state.h`, lines 961-963).  The
code uses the container through `insert (std::make_pair (victim, killer))`,
`equal_range (victim)` and `it->second.reason`.  The list holds the entries
in iteration order: by victim, then by reason, and entries with the same
victim and reason in the order of their insertion. -/
abbrev KilledByMap := List (PlayerID × KilledByInfo)

/-- Modelled from the spec: the order of the entries of a `KilledByMap`, by
the victim and then by the numeric value of the reason. -/
def KilledByMap.less (a b : PlayerID × KilledByInfo) : Bool :=
  decide (a.1 < b.1) || (decide (a.1 = b.1) && decide (a.2.reason.toInt < b.2.reason.toInt))

/-- Modelled from the spec: the method `insert` of the container.  The new
entry goes to its place in the order, behind the entries that are equivalent
to it (same victim, same reason), as in the multi-containers of the standard
library. -/
def KilledByMap.insert : KilledByMap → PlayerID × KilledByInfo → KilledByMap
  | [], e => [e]
  | x :: xs, e =>
    if KilledByMap.less e x then e :: x :: xs
    else x :: KilledByMap.insert xs e

/-- The representation invariant of a `KilledByMap`: the entries are in the
order of the container, by victim and then by reason. -/
def KilledByMap.Ordered (m : KilledByMap) : Prop :=
  m.Pairwise (fun a b => a.1 < b.1 ∨ (a.1 = b.1 ∧ a.2.reason.toInt ≤ b.2.reason.toInt))

/-- The method `equal_range (victim)`: the entries from the first one whose
victim is not less than `victim` up to the first one whose victim is greater
than `victim`. -/
def KilledByMap.equal_range (m : KilledByMap) (victim : PlayerID) : List (PlayerID × KilledByInfo) :=
  (m.dropWhile (fun e => decide (e.1 < victim))).takeWhile (fun e => !decide (victim < e.1))

/-- The class `StepResult`. -/
structure StepResult where
  killedPlayers : PlayerSet
  killedBy : KilledByMap
  bounties : List CollectedBounty
  nTaxAmount : CAmount
deriving DecidableEq, Repr

/-- The constructor `StepResult()`. -/
def StepResult.new : StepResult :=
  { killedPlayers := [], killedBy := [], bounties := [], nTaxAmount := 0 }

/-- The method `StepResult::KillPlayer`. -/
def StepResult.KillPlayer (r : StepResult) (victim : PlayerID) (killer : KilledByInfo) :
    StepResult :=
  { r with
    killedBy := KilledByMap.insert r.killedBy (victim, killer)
    killedPlayers := PlayerSet.insert r.killedPlayers victim }

/-- The method `StepResult::GetKilledPlayers`. -/
def StepResult.GetKilledPlayers (r : StepResult) : PlayerSet := r.killedPlayers

/-- The method `StepResult::GetKilledBy`. -/
def StepResult.GetKilledBy (r : StepResult) : KilledByMap := r.killedBy

/-- A sequence of `KillPlayer` calls, applied in order. -/
def StepResult.killAll (r : StepResult) (calls : List (PlayerID × KilledByInfo)) : StepResult :=
  calls.foldl (fun acc c => acc.KillPlayer c.1 c.2) r

/-! ## Transactions and scripts (interface of `primitives/transaction.h`,
`script/script.h`, `names/common.h`, `coins.h`, `base58.h`) -/

/-- One `operator<<` on a `CScript`: a pushed byte vector or a pushed
number.  A script is the sequence of what was pushed into it; the byte
encoding of a push is that of `script/script.h`. -/
inductive ScriptElem where
  | data (v : valtype)
  | num (n : Int)
deriving DecidableEq, Repr

/-- The class `CScript`, as the sequence of its pushes. -/
abbrev CScript := List ScriptElem

/-- The class `COutPoint`. -/
structure COutPoint where
  hash : Nat
  n : Nat
deriving DecidableEq, Repr

/-- The constructor `COutPoint()`: the null outpoint. -/
def COutPoint.null : COutPoint := ⟨0, 4294967295⟩

/-- The class `CTxIn`: the previous output and the signature script. -/
structure CTxIn where
  prevout : COutPoint
  scriptSig : CScript
deriving DecidableEq, Repr

/-- The class `CTxOut`. -/
structure CTxOut where
  nValue : CAmount
  scriptPubKey : CScript
deriving DecidableEq, Repr

/-- The classes `CMutableTransaction` and `CTransaction`; `gameTx` is what
`SetGameTx ()` sets and `IsGameTx ()` reads. -/
structure CTransaction where
  gameTx : Bool
  vin : List CTxIn
  vout : List CTxOut
deriving DecidableEq, Repr

/-- The class `CNameData`, with what `getUpdateOutpoint ()` and
`getAddress ()` return. -/
structure CNameData where
  getUpdateOutpoint : COutPoint
  getAddress : CScript
deriving DecidableEq, Repr

/-- The class `CCoinsView`, reduced to `GetName`: `none` when the call
returns false. -/
structure CCoinsView where
  GetName : valtype → Option CNameData

/-- Functions of other translation units that `CreateGameTransactions`
calls: `CharacterID::ToString` (`game/common.h`),
`CBitcoinAddress (addr).IsValid ()` (`base58.h`) and
`GetScriptForDestination (CBitcoinAddress (addr).Get ())`
(`script/standard.h`). -/
structure Host where
  ToString : CharacterID → PlayerID
  IsValid : List Nat → Bool
  GetScriptForDestination : List Nat → CScript

/-! ## The game-transaction builder (`game/tx.cpp`) -/

/-- The opcode `GAMEOP_KILLED_BY`. -/
def GAMEOP_KILLED_BY : Int := 1
/-- The opcode `GAMEOP_COLLECTED_BOUNTY`. -/
def GAMEOP_COLLECTED_BOUNTY : Int := 2
/-- The opcode `GAMEOP_KILLED_POISON`. -/
def GAMEOP_KILLED_POISON : Int := 3
/-- The opcode `GAMEOP_REFUND`. -/
def GAMEOP_REFUND : Int := 4

/-- How a piece of C++ code ends: a failing `assert`, a `return error (...)`
(which returns false), or normal completion with a value. -/
inductive Flow (α : Type) where
  | assertFailed
  | returnedFalse
  | value (a : α)
deriving DecidableEq, Repr

/-- The loop of the `KILLED_DESTRUCT` case (`tx.cpp`, lines 121-130) over
the entries from `it` to `iters.second`; `atFirst` says whether
`it == iters.first`.  The result is what the loop pushes, `none` when
`assert (it != iters.first)` fails. -/
def destructKillers (env : Host) : Bool → List (PlayerID × KilledByInfo) → Option CScript
  | _, [] => some []
  | atFirst, e :: es =>
    if e.2.reason ≠ .KILLED_DESTRUCT then
      (if atFirst then none else some [])
    else
      (destructKillers env false es).map
        (fun s => ScriptElem.data (ValtypeFromString (env.ToString e.2.killer)) :: s)

/-- The body of the loop over the killed players (`tx.cpp`, lines 80-146):
the input that is pushed to `txKills.vin` for `victim`. -/
def killInput (env : Host) (view : CCoinsView) (killedBy : KilledByMap)
    (victim : PlayerID) : Flow CTxIn :=
  let vchName := ValtypeFromString victim
  match view.GetName vchName with
  | none => .returnedFalse
  | some data =>
    match killedBy.equal_range victim with
    | [] => .returnedFalse
    | first :: rest =>
      let reason := first.2.reason
      let sameAsSecond : Bool :=
        match rest with
        | [] => false
        | second :: _ => decide (reason = second.2.reason)
      if reason ≠ .KILLED_DESTRUCT ∧ sameAsSecond = true then .returnedFalse
      else
        match reason with
        | .KILLED_DESTRUCT =>
          match destructKillers env true (first :: rest) with
          | none => .assertFailed
          | some killers =>
            .value ⟨data.getUpdateOutpoint,
              [.data vchName, .num GAMEOP_KILLED_BY] ++ killers⟩
        | .KILLED_SPAWN =>
          .value ⟨data.getUpdateOutpoint, [.data vchName, .num GAMEOP_KILLED_BY]⟩
        | .KILLED_POISON =>
          .value ⟨data.getUpdateOutpoint, [.data vchName, .num GAMEOP_KILLED_POISON]⟩

/-- The loop `BOOST_FOREACH (const PlayerID &victim, killedPlayers)`: the
content of `txKills.vin` after it, unless an iteration returns or fails an
assertion. -/
def killInputs (env : Host) (view : CCoinsView) (killedBy : KilledByMap) :
    List PlayerID → Flow (List CTxIn)
  | [] => .value []
  | victim :: victims =>
    match killInput env view killedBy victim with
    | .assertFailed => .assertFailed
    | .returnedFalse => .returnedFalse
    | .value txin =>
      match killInputs env view killedBy victims with
      | .assertFailed => .assertFailed
      | .returnedFalse => .returnedFalse
      | .value vin => .value (txin :: vin)

/-- The body of the loop over the bounties (`tx.cpp`, lines 165-202): the
output pushed to `txBounties.vout` and the input pushed to
`txBounties.vin`. -/
def bountyPair (env : Host) (view : CCoinsView) (bounty : CollectedBounty) :
    Flow (CTxIn × CTxOut) :=
  let vchName := ValtypeFromString bounty.character.player
  match view.GetName vchName with
  | none => .returnedFalse
  | some data =>
    let nValue := bounty.loot.nAmount
    let scriptPubKey : Option CScript :=
      if bounty.address ≠ [] then
        (if env.IsValid bounty.address then some (env.GetScriptForDestination bounty.address)
         else none)
      else some data.getAddress
    match scriptPubKey with
    | none => .returnedFalse
    | some spk =>
      let txout : CTxOut := ⟨nValue, spk⟩
      if bounty.loot.IsRefund then
        match bounty.loot.GetRefundHeight with
        | none => .assertFailed
        | some height =>
          .value (⟨COutPoint.null,
            [.data vchName, .num GAMEOP_REFUND, .num bounty.character.index, .num height]⟩,
            txout)
      else
        .value (⟨COutPoint.null,
          [.data vchName, .num GAMEOP_COLLECTED_BOUNTY, .num bounty.character.index,
           .num bounty.loot.firstBlock, .num bounty.loot.lastBlock,
           .num bounty.loot.collectedFirstBlock, .num bounty.loot.collectedLastBlock]⟩,
          txout)

/-- The loop `BOOST_FOREACH (const CollectedBounty& bounty, stepResult.bounties)`:
the input/output pairs pushed to `txBounties`. -/
def bountyPairs (env : Host) (view : CCoinsView) :
    List CollectedBounty → Flow (List (CTxIn × CTxOut))
  | [] => .value []
  | bounty :: bounties =>
    match bountyPair env view bounty with
    | .assertFailed => .assertFailed
    | .returnedFalse => .returnedFalse
    | .value p =>
      match bountyPairs env view bounties with
      | .assertFailed => .assertFailed
      | .returnedFalse => .returnedFalse
      | .value ps => .value (p :: ps)

/-- The method `std::vector::clear`. -/
def vectorClear {α : Type} (_ : List α) : List α := []

/-- The function `CreateGameTransactions`.  The last argument is the content
of `vGameTx` at the call; the result is `none` when an assertion fails, and
otherwise the returned flag with the content of `vGameTx` at the return. -/
def CreateGameTransactions (env : Host) (view : CCoinsView) (stepResult : StepResult)
    (vGameTx : List CTransaction) : Option (Bool × List CTransaction) :=
  let vGameTx : List CTransaction := vectorClear vGameTx
  match killInputs env view stepResult.GetKilledBy stepResult.GetKilledPlayers with
  | .assertFailed => none
  | .returnedFalse => some (false, vGameTx)
  | .value vin =>
    let txKills : CTransaction := { gameTx := true, vin := vin, vout := [] }
    let vGameTx := if txKills.vin ≠ [] then vGameTx ++ [txKills] else vGameTx
    match bountyPairs env view stepResult.bounties with
    | .assertFailed => none
    | .returnedFalse => some (false, vGameTx)
    | .value ps =>
      let txBounties : CTransaction :=
        { gameTx := true, vin := ps.map Prod.fst, vout := ps.map Prod.snd }
      let vGameTx := if txBounties.vout ≠ [] then vGameTx ++ [txBounties] else vGameTx
      some (true, vGameTx)

/-! ## Serialisation (`serialize.h`) -/

/-- Modelled from the spec: `serialize.h` is not among the sources.  A
stream is the sequence of the primitive values written to it: one item for
each integer, string or hash that a `READWRITE` reaches, and one `size` item
for the element count in front of the elements of a container. -/
inductive Item where
  | u8 (v : Nat)
  | i32 (v : Int)
  | u32 (v : Nat)
  | i64 (v : Int)
  | u64 (v : Nat)
  | u256 (v : Nat)
  | str (v : List Nat)
  | size (n : Nat)
deriving DecidableEq, Repr

/-- A data stream. -/
abbrev Stream := List Item

/-- How (un)serialising fails: by a failing `assert`, or by the exception of
a read that does not find its item. -/
inductive SerError where
  | assertFailed
  | endOfData
deriving DecidableEq, Repr

/-- The functions `Serialize` and `Unserialize` of a type, with the value
the type's default constructor gives.  `unser` reads into an existing
object, as `Unserialize (is, obj)` does. -/
structure Codec (α : Type) where
  dflt : α
  ser : α → Except SerError Stream
  unser : α → Stream → Except SerError (α × Stream)

/-- The codec of `unsigned char`. -/
def Codec.u8 : Codec Nat where
  dflt := 0
  ser := fun v => .ok [.u8 v]
  unser := fun _ st =>
    match st with
    | .u8 v :: rest => .ok (v, rest)
    | _ => .error .endOfData

/-- The codec of `int`. -/
def Codec.i32 : Codec Int where
  dflt := 0
  ser := fun v => .ok [.i32 v]
  unser := fun _ st =>
    match st with
    | .i32 v :: rest => .ok (v, rest)
    | _ => .error .endOfData

/-- The codec of `unsigned`. -/
def Codec.u32 : Codec Nat where
  dflt := 0
  ser := fun v => .ok [.u32 v]
  unser := fun _ st =>
    match st with
    | .u32 v :: rest => .ok (v, rest)
    | _ => .error .endOfData

/-- The codec of `int64_t` and `CAmount`. -/
def Codec.i64 : Codec Int where
  dflt := 0
  ser := fun v => .ok [.i64 v]
  unser := fun _ st =>
    match st with
    | .i64 v :: rest => .ok (v, rest)
    | _ => .error .endOfData

/-- The codec of `uint64_t`. -/
def Codec.u64 : Codec Nat where
  dflt := 0
  ser := fun v => .ok [.u64 v]
  unser := fun _ st =>
    match st with
    | .u64 v :: rest => .ok (v, rest)
    | _ => .error .endOfData

/-- The codec of `uint256`. -/
def Codec.u256 : Codec Nat where
  dflt := 0
  ser := fun v => .ok [.u256 v]
  unser := fun _ st =>
    match st with
    | .u256 v :: rest => .ok (v, rest)
    | _ => .error .endOfData

/-- The codec of `std::string`. -/
def Codec.str : Codec (List Nat) where
  dflt := []
  ser := fun v => .ok [.str v]
  unser := fun _ st =>
    match st with
    | .str v :: rest => .ok (v, rest)
    | _ => .error .endOfData

/-- The codec of `std::pair<K, V>`: the key, then the value. -/
def Codec.pair {κ ν : Type} (ck : Codec κ) (cv : Codec ν) : Codec (κ × ν) where
  dflt := (ck.dflt, cv.dflt)
  ser := fun p =>
    match ck.ser p.1 with
    | .error e => .error e
    | .ok a =>
      match cv.ser p.2 with
      | .error e => .error e
      | .ok b => .ok (a ++ b)
  unser := fun p st =>
    match ck.unser p.1 st with
    | .error e => .error e
    | .ok (k, st1) =>
      match cv.unser p.2 st1 with
      | .error e => .error e
      | .ok (v, st2) => .ok ((k, v), st2)

/-- The elements of a container, written one after the other. -/
def serElems {α : Type} (c : Codec α) : List α → Except SerError Stream
  | [] => .ok []
  | x :: xs =>
    match c.ser x with
    | .error e => .error e
    | .ok a =>
      match serElems c xs with
      | .error e => .error e
      | .ok b => .ok (a ++ b)

/-- The loop that reads `n` elements, each into a default-constructed
object. -/
def unserElems {α : Type} (c : Codec α) : Nat → Stream → Except SerError (List α × Stream)
  | 0, st => .ok ([], st)
  | n + 1, st =>
    match c.unser c.dflt st with
    | .error e => .error e
    | .ok (x, st1) =>
      match unserElems c n st1 with
      | .error e => .error e
      | .ok (xs, st2) => .ok (x :: xs, st2)

/-- The element count and the elements of a container. -/
def serContainer {α : Type} (c : Codec α) (l : List α) : Except SerError Stream :=
  match serElems c l with
  | .error e => .error e
  | .ok b => .ok (.size l.length :: b)

/-- The codec of `std::vector<T>`: the vector is cleared and the elements
are read in order. -/
def Codec.vector {α : Type} (c : Codec α) : Codec (List α) where
  dflt := []
  ser := serContainer c
  unser := fun _ st =>
    match st with
    | .size n :: rest => unserElems c n rest
    | _ => .error .endOfData

/-- The method `std::map::insert` for a map with the key order `less`: the
entry goes to its place in the order, and nothing happens when the key is
already present. -/
def mapInsert {κ ν : Type} (less : κ → κ → Bool) : List (κ × ν) → κ × ν → List (κ × ν)
  | [], e => [e]
  | x :: xs, e =>
    if less e.1 x.1 then e :: x :: xs
    else if less x.1 e.1 then x :: mapInsert less xs e
    else x :: xs

/-- The codec of `std::map<K, V>` with the key order `less`: the map is
cleared and the entries read are inserted one after the other. -/
def Codec.map {κ ν : Type} (less : κ → κ → Bool) (ck : Codec κ) (cv : Codec ν) :
    Codec (List (κ × ν)) where
  dflt := []
  ser := serContainer (Codec.pair ck cv)
  unser := fun _ st =>
    match st with
    | .size n :: rest =>
      match unserElems (Codec.pair ck cv) n rest with
      | .error e => .error e
      | .ok (l, st1) => .ok (l.foldl (mapInsert less) [], st1)
    | _ => .error .endOfData

/-- The method `std::set::insert` for a set with the order `less`. -/
def setInsert {κ : Type} (less : κ → κ → Bool) : List κ → κ → List κ
  | [], e => [e]
  | x :: xs, e =>
    if less e x then e :: x :: xs
    else if less x e then x :: setInsert less xs e
    else x :: xs

/-- The codec of `std::set<K>` with the order `less`. -/
def Codec.set {κ : Type} (less : κ → κ → Bool) (ck : Codec κ) : Codec (List κ) where
  dflt := []
  ser := serContainer ck
  unser := fun _ st =>
    match st with
    | .size n :: rest =>
      match unserElems ck n rest with
      | .error e => .error e
      | .ok (l, st1) => .ok (l.foldl (setInsert less) [], st1)
    | _ => .error .endOfData

/-- One statement of a `SerializationOp` body.  The body is one piece of
code for writing and for reading, so it is embedded once and run in both
directions (`Op.write`, `Op.read`):
`READWRITE (field)`, `if (cond) statement`, and `assert (cond)`. -/
inductive Op (σ : Type) : Type 1 where
  | readwrite {α : Type} (get : σ → α) (set : σ → α → σ) (c : Codec α)
  | guard (cond : σ → Bool) (body : Op σ)
  | assert (cond : σ → Bool)

/-- A statement run with `CSerActionSerialize`. -/
def Op.write {σ : Type} : Op σ → σ → Except SerError Stream
  | .readwrite get _ c, s => c.ser (get s)
  | .guard cond body, s => if cond s then body.write s else .ok []
  | .assert cond, s => if cond s then .ok [] else .error .assertFailed

/-- A statement run with `CSerActionUnserialize`, on the object `t` that
is being filled. -/
def Op.read {σ : Type} : Op σ → σ → Stream → Except SerError (σ × Stream)
  | .readwrite get set c, t, st =>
    match c.unser (get t) st with
    | .error e => .error e
    | .ok (v, rest) => .ok (set t v, rest)
  | .guard cond body, t, st => if cond t then body.read t st else .ok (t, st)
  | .assert cond, t, st => if cond t then .ok (t, st) else .error .assertFailed

/-- A `SerializationOp` body run with `CSerActionSerialize`. -/
def writeOps {σ : Type} : List (Op σ) → σ → Except SerError Stream
  | [], _ => .ok []
  | op :: ops, s =>
    match op.write s with
    | .error e => .error e
    | .ok a =>
      match writeOps ops s with
      | .error e => .error e
      | .ok b => .ok (a ++ b)

/-- A `SerializationOp` body run with `CSerActionUnserialize`. -/
def readOps {σ : Type} : List (Op σ) → σ → Stream → Except SerError (σ × Stream)
  | [], t, st => .ok (t, st)
  | op :: ops, t, st =>
    match op.read t st with
    | .error e => .error e
    | .ok (t1, st1) => readOps ops t1 st1

/-- The codec of a class with `ADD_SERIALIZE_METHODS`. -/
def Codec.ofOps {σ : Type} (dflt : σ) (ops : List (Op σ)) : Codec σ where
  dflt := dflt
  ser := writeOps ops
  unser := readOps ops

/-- The flag `SER_DISK` of `serialize.h`, `(1 << 1)`. -/
def SER_DISK : Nat := 2

/-- Modelled from the spec: the struct `Coord` is in `game/common.h`, which
is not among the sources; a coordinate is a signed integer pair `(x, y)`. -/
structure Coord where
  x : Int
  y : Int
deriving DecidableEq, Repr

/-- Modelled from the spec: the order of coordinates, lexicographic in
`(x, y)` (spec, section 4.4). -/
def Coord.less (a b : Coord) : Bool :=
  decide (a.x < b.x) || (decide (a.x = b.x) && decide (a.y < b.y))

/-- Modelled from the spec: the serialisation of a `Coord`, `x` then
`y`. -/
def Coord.SerializationOp : List (Op Coord) :=
  [ .readwrite (fun s => s.x) (fun s v => { s with x := v }) Codec.i32,
    .readwrite (fun s => s.y) (fun s v => { s with y := v }) Codec.i32 ]

/-- The serialisation of a `Coord`; `Coord ()` is the origin. -/
def Coord.codec : Codec Coord :=
  Codec.ofOps ⟨0, 0⟩ Coord.SerializationOp

/-- The order `std::less<int>`. -/
def intLess (a b : Int) : Bool := decide (a < b)

/-- The order `std::less<std::string>`. -/
def stringLess (a b : List Nat) : Bool := decide (a < b)

/-- The method `LootInfo::SerializationOp` (`state.h`, lines 161-168). -/
def LootInfo.SerializationOp : List (Op LootInfo) :=
  [ .readwrite (fun s => s.nAmount) (fun s v => { s with nAmount := v }) Codec.i64,
    .readwrite (fun s => s.firstBlock) (fun s v => { s with firstBlock := v }) Codec.i32,
    .readwrite (fun s => s.lastBlock) (fun s v => { s with lastBlock := v }) Codec.i32 ]

/-- The serialisation of a `LootInfo`. -/
def LootInfo.codec : Codec LootInfo :=
  Codec.ofOps LootInfo.new LootInfo.SerializationOp

/-- The method `CollectedLootInfo::SerializationOp` (`state.h`, lines
182-190). -/
def CollectedLootInfo.SerializationOp : List (Op CollectedLootInfo) :=
  [ .readwrite (fun s => s.toLootInfo) (fun s v => { s with toLootInfo := v }) LootInfo.codec,
    .readwrite (fun s => s.collectedFirstBlock) (fun s v => { s with collectedFirstBlock := v })
      Codec.i32,
    .readwrite (fun s => s.collectedLastBlock) (fun s v => { s with collectedLastBlock := v })
      Codec.i32,
    .assert (fun s => !s.IsRefund) ]

/-- The serialisation of a `CollectedLootInfo`. -/
def CollectedLootInfo.codec : Codec CollectedLootInfo :=
  Codec.ofOps CollectedLootInfo.new CollectedLootInfo.SerializationOp


/-- The struct `CharacterState` (`state.h`, lines 262-327). -/
structure CharacterState where
  coord : Coord
  dir : Nat
  from_ : Coord
  waypoints : List Coord
  loot : CollectedLootInfo
  stay_in_spawn_area : Nat
  ai_npc_role : Nat
  ai_reason : Nat
  rpg_slot_armor : Nat
  rpg_slot_spell : Nat
  rpg_slot_cooldown : Nat
  ai_slot_amulet : Nat
  ai_slot_ring : Nat
  ai_poi : Nat
  ai_fav_harvest_poi : Nat
  ai_queued_harvest_poi : Nat
  ai_duty_harvest_poi : Nat
  ai_marked_harvest_poi : Nat
  ai_state : Nat
  ai_state2 : Nat
  ai_state3 : Nat
  ai_chat : Nat
  ai_idle_time : Nat
  ai_mapitem_count : Nat
  ai_foe_count : Nat
  ai_foe_dist : Nat
  ai_retreat : Nat
  rpg_survival_points : Int
  rpg_rations : Int
  rpg_range_for_display : Int
  ai_recall_timer : Int
  ai_regen_timer : Int
  ai_order_time : Int
  aux_age_active : Int
  ai_reserve64_2 : Int
  aux_storage_s1 : Int
  aux_storage_s2 : Int
  aux_storage_u1 : Nat
  aux_storage_u2 : Nat
  aux_spawn_block : Int
  aux_last_sale_block : Int
  aux_stasis_block : Int
  aux_gather_block : Int
  ch_reserve_uc1 : Nat
  ch_reserve_uc2 : Nat
  ch_reserve_uc3 : Nat
  ch_reserve_uc4 : Nat
  ch_reserve_uc5 : Nat
  ch_reserve_ll1 : Int
  ch_reserve_ll2 : Int
  ch_reserve_ll3 : Int
  ch_reserve_ll4 : Int
  ch_reserve_ll5 : Int
  ch_reserve1 : Int
  ch_reserve2 : Int
  ch_reserve3 : Int
  ch_reserve4 : Int
  ch_reserve5 : Int

/-- The constructor `CharacterState ()` (`state.h`, lines 329-389). -/
def CharacterState.new : CharacterState where
  coord := ⟨0, 0⟩
  dir := 0
  from_ := ⟨0, 0⟩
  waypoints := []
  loot := CollectedLootInfo.new
  stay_in_spawn_area := 0
  ai_npc_role := 0
  ai_reason := 0
  rpg_slot_armor := 0
  rpg_slot_spell := 0
  rpg_slot_cooldown := 0
  ai_slot_amulet := 0
  ai_slot_ring := 0
  ai_poi := 0
  ai_fav_harvest_poi := 0
  ai_queued_harvest_poi := 0
  ai_duty_harvest_poi := 0
  ai_marked_harvest_poi := 0
  ai_state := 0
  ai_state2 := 0
  ai_state3 := 0
  ai_chat := 0
  ai_idle_time := 0
  ai_mapitem_count := 0
  ai_foe_count := 0
  ai_foe_dist := 0
  ai_retreat := 0
  rpg_survival_points := 0
  rpg_rations := 0
  rpg_range_for_display := 0
  ai_recall_timer := 0
  ai_regen_timer := 0
  ai_order_time := 0
  aux_age_active := 0
  ai_reserve64_2 := 0
  aux_storage_s1 := 0
  aux_storage_s2 := 0
  aux_storage_u1 := 0
  aux_storage_u2 := 0
  aux_spawn_block := 0
  aux_last_sale_block := 0
  aux_stasis_block := 0
  aux_gather_block := 0
  ch_reserve_uc1 := 0
  ch_reserve_uc2 := 0
  ch_reserve_uc3 := 0
  ch_reserve_uc4 := 0
  ch_reserve_uc5 := 0
  ch_reserve_ll1 := 0
  ch_reserve_ll2 := 0
  ch_reserve_ll3 := 0
  ch_reserve_ll4 := 0
  ch_reserve_ll5 := 0
  ch_reserve1 := 0
  ch_reserve2 := 0
  ch_reserve3 := 0
  ch_reserve4 := 0
  ch_reserve5 := 0

/-- The method `CharacterState::SerializationOp` (`state.h`, lines 393-460). -/
def CharacterState.SerializationOp : List (Op CharacterState) :=
  [ .readwrite (fun s => s.coord) (fun s v => { s with coord := v }) Coord.codec,
    .readwrite (fun s => s.dir) (fun s v => { s with dir := v }) Codec.u8,
    .readwrite (fun s => s.from_) (fun s v => { s with from_ := v }) Coord.codec,
    .readwrite (fun s => s.waypoints) (fun s v => { s with waypoints := v })
      (Codec.vector Coord.codec),
    .readwrite (fun s => s.loot) (fun s v => { s with loot := v }) CollectedLootInfo.codec,
    .readwrite (fun s => s.stay_in_spawn_area) (fun s v => { s with stay_in_spawn_area := v }) Codec.u8,
    .readwrite (fun s => s.ai_npc_role) (fun s v => { s with ai_npc_role := v }) Codec.u8,
    .readwrite (fun s => s.ai_reason) (fun s v => { s with ai_reason := v }) Codec.u8,
    .readwrite (fun s => s.rpg_slot_armor) (fun s v => { s with rpg_slot_armor := v }) Codec.u8,
    .readwrite (fun s => s.rpg_slot_spell) (fun s v => { s with rpg_slot_spell := v }) Codec.u8,
    .readwrite (fun s => s.rpg_slot_cooldown) (fun s v => { s with rpg_slot_cooldown := v }) Codec.u8,
    .readwrite (fun s => s.ai_slot_amulet) (fun s v => { s with ai_slot_amulet := v }) Codec.u8,
    .readwrite (fun s => s.ai_slot_ring) (fun s v => { s with ai_slot_ring := v }) Codec.u8,
    .readwrite (fun s => s.ai_poi) (fun s v => { s with ai_poi := v }) Codec.u8,
    .readwrite (fun s => s.ai_fav_harvest_poi) (fun s v => { s with ai_fav_harvest_poi := v }) Codec.u8,
    .readwrite (fun s => s.ai_queued_harvest_poi) (fun s v => { s with ai_queued_harvest_poi := v }) Codec.u8,
    .readwrite (fun s => s.ai_duty_harvest_poi) (fun s v => { s with ai_duty_harvest_poi := v }) Codec.u8,
    .readwrite (fun s => s.ai_marked_harvest_poi) (fun s v => { s with ai_marked_harvest_poi := v }) Codec.u8,
    .readwrite (fun s => s.ai_state) (fun s v => { s with ai_state := v }) Codec.u8,
    .readwrite (fun s => s.ai_state2) (fun s v => { s with ai_state2 := v }) Codec.u8,
    .readwrite (fun s => s.ai_state3) (fun s v => { s with ai_state3 := v }) Codec.u8,
    .readwrite (fun s => s.ai_chat) (fun s v => { s with ai_chat := v }) Codec.u8,
    .readwrite (fun s => s.ai_idle_time) (fun s v => { s with ai_idle_time := v }) Codec.u8,
    .readwrite (fun s => s.ai_mapitem_count) (fun s v => { s with ai_mapitem_count := v }) Codec.u8,
    .readwrite (fun s => s.ai_foe_count) (fun s v => { s with ai_foe_count := v }) Codec.u8,
    .readwrite (fun s => s.ai_foe_dist) (fun s v => { s with ai_foe_dist := v }) Codec.u8,
    .readwrite (fun s => s.ai_retreat) (fun s v => { s with ai_retreat := v }) Codec.u8,
    .readwrite (fun s => s.rpg_survival_points) (fun s v => { s with rpg_survival_points := v }) Codec.i32,
    .readwrite (fun s => s.rpg_rations) (fun s v => { s with rpg_rations := v }) Codec.i32,
    .readwrite (fun s => s.rpg_range_for_display) (fun s v => { s with rpg_range_for_display := v }) Codec.i32,
    .readwrite (fun s => s.ai_recall_timer) (fun s v => { s with ai_recall_timer := v }) Codec.i32,
    .readwrite (fun s => s.ai_regen_timer) (fun s v => { s with ai_regen_timer := v }) Codec.i32,
    .readwrite (fun s => s.ai_order_time) (fun s v => { s with ai_order_time := v }) Codec.i32,
    .readwrite (fun s => s.aux_age_active) (fun s v => { s with aux_age_active := v }) Codec.i64,
    .readwrite (fun s => s.ai_reserve64_2) (fun s v => { s with ai_reserve64_2 := v }) Codec.i64,
    .readwrite (fun s => s.aux_storage_s1) (fun s v => { s with aux_storage_s1 := v }) Codec.i64,
    .readwrite (fun s => s.aux_storage_s2) (fun s v => { s with aux_storage_s2 := v }) Codec.i64,
    .readwrite (fun s => s.aux_storage_u1) (fun s v => { s with aux_storage_u1 := v }) Codec.u64,
    .readwrite (fun s => s.aux_storage_u2) (fun s v => { s with aux_storage_u2 := v }) Codec.u64,
    .readwrite (fun s => s.aux_spawn_block) (fun s v => { s with aux_spawn_block := v }) Codec.i32,
    .readwrite (fun s => s.aux_last_sale_block) (fun s v => { s with aux_last_sale_block := v }) Codec.i32,
    .readwrite (fun s => s.aux_stasis_block) (fun s v => { s with aux_stasis_block := v }) Codec.i32,
    .readwrite (fun s => s.aux_gather_block) (fun s v => { s with aux_gather_block := v }) Codec.i32,
    .readwrite (fun s => s.ch_reserve_uc1) (fun s v => { s with ch_reserve_uc1 := v }) Codec.u8,
    .readwrite (fun s => s.ch_reserve_uc2) (fun s v => { s with ch_reserve_uc2 := v }) Codec.u8,
    .readwrite (fun s => s.ch_reserve_uc3) (fun s v => { s with ch_reserve_uc3 := v }) Codec.u8,
    .readwrite (fun s => s.ch_reserve_uc4) (fun s v => { s with ch_reserve_uc4 := v }) Codec.u8,
    .readwrite (fun s => s.ch_reserve_uc5) (fun s v => { s with ch_reserve_uc5 := v }) Codec.u8,
    .readwrite (fun s => s.ch_reserve_ll1) (fun s v => { s with ch_reserve_ll1 := v }) Codec.i64,
    .readwrite (fun s => s.ch_reserve_ll2) (fun s v => { s with ch_reserve_ll2 := v }) Codec.i64,
    .readwrite (fun s => s.ch_reserve_ll3) (fun s v => { s with ch_reserve_ll3 := v }) Codec.i64,
    .readwrite (fun s => s.ch_reserve_ll4) (fun s v => { s with ch_reserve_ll4 := v }) Codec.i64,
    .readwrite (fun s => s.ch_reserve_ll5) (fun s v => { s with ch_reserve_ll5 := v }) Codec.i64,
    .readwrite (fun s => s.ch_reserve1) (fun s v => { s with ch_reserve1 := v }) Codec.i32,
    .readwrite (fun s => s.ch_reserve2) (fun s v => { s with ch_reserve2 := v }) Codec.i32,
    .readwrite (fun s => s.ch_reserve3) (fun s v => { s with ch_reserve3 := v }) Codec.i32,
    .readwrite (fun s => s.ch_reserve4) (fun s v => { s with ch_reserve4 := v }) Codec.i32,
    .readwrite (fun s => s.ch_reserve5) (fun s v => { s with ch_reserve5 := v }) Codec.i32 ]

/-- The serialisation of a `CharacterState`. -/
def CharacterState.codec : Codec CharacterState :=
  Codec.ofOps CharacterState.new CharacterState.SerializationOp

/-- The struct `PlayerState` (`state.h`, lines 494-572). -/
structure PlayerState where
  color : Nat
  lockedCoins : CAmount
  value : CAmount
  characters : List (Int × CharacterState)
  next_character_index : Int
  remainingLife : Int
  message : List Nat
  message_block : Int
  address : List Nat
  addressLock : List Nat
  msg_token : List Nat
  msg_vote : List Nat
  msg_vote_block : Int
  msg_request : List Nat
  msg_request_block : Int
  msg_fee : List Nat
  msg_comment : List Nat
  coins_vote : Int
  coins_request : Int
  coins_fee : Int
  gw_name : List Nat
  msg_dlevel : List Nat
  msg_dlevel_block : Int
  gw_addr_other : List Nat
  gw_amount_coins : Int
  gw_amount_other : Int
  gw_amount_auto : Int
  msg_area : List Nat
  msg_area_block : Int
  msg_merchant : List Nat
  msg_merchant_block : Int
  pl_reserve_s1 : List Nat
  pl_reserve_s2 : List Nat
  pl_reserve_s3 : List Nat
  pl_reserve_s4 : List Nat
  pl_reserve_s5 : List Nat
  pl_reserve_s6 : List Nat
  pl_reserve_s7 : List Nat
  pl_reserve_s8 : List Nat
  pl_reserve_s9 : List Nat
  pl_reserve_ll1 : Int
  pl_reserve_ll2 : Int
  pl_reserve_ll3 : Int
  pl_reserve_ll4 : Int
  pl_reserve_ll5 : Int
  pl_reserve_ll6 : Int
  pl_reserve_ll7 : Int
  pl_reserve_ll8 : Int
  pl_reserve_ll9 : Int
  dlevel : Int
  pl_reserve2 : Int
  pl_reserve3 : Int
  pl_reserve4 : Int
  pl_reserve5 : Int
  pl_reserve6 : Int
  pl_reserve7 : Int
  pl_reserve8 : Int
  pl_reserve9 : Int

/-- The constructor `PlayerState ()` (`state.h`, lines 649-664). -/
def PlayerState.new : PlayerState where
  color := 255
  lockedCoins := 0
  value := -1
  characters := []
  next_character_index := 0
  remainingLife := -1
  message := []
  message_block := 0
  address := []
  addressLock := []
  msg_token := []
  msg_vote := []
  msg_vote_block := 0
  msg_request := []
  msg_request_block := 0
  msg_fee := []
  msg_comment := []
  coins_vote := 0
  coins_request := 0
  coins_fee := 0
  gw_name := []
  msg_dlevel := []
  msg_dlevel_block := 0
  gw_addr_other := []
  gw_amount_coins := 0
  gw_amount_other := 0
  gw_amount_auto := 0
  msg_area := []
  msg_area_block := 0
  msg_merchant := []
  msg_merchant_block := 0
  pl_reserve_s1 := []
  pl_reserve_s2 := []
  pl_reserve_s3 := []
  pl_reserve_s4 := []
  pl_reserve_s5 := []
  pl_reserve_s6 := []
  pl_reserve_s7 := []
  pl_reserve_s8 := []
  pl_reserve_s9 := []
  pl_reserve_ll1 := 0
  pl_reserve_ll2 := 0
  pl_reserve_ll3 := 0
  pl_reserve_ll4 := 0
  pl_reserve_ll5 := 0
  pl_reserve_ll6 := 0
  pl_reserve_ll7 := 0
  pl_reserve_ll8 := 0
  pl_reserve_ll9 := 0
  dlevel := 0
  pl_reserve2 := 0
  pl_reserve3 := 0
  pl_reserve4 := 0
  pl_reserve5 := 0
  pl_reserve6 := 0
  pl_reserve7 := 0
  pl_reserve8 := 0
  pl_reserve9 := 0

/-- The method `PlayerState::SerializationOp` (`state.h`, lines 576-647). -/
def PlayerState.SerializationOp : List (Op PlayerState) :=
  [ .readwrite (fun s => s.color) (fun s v => { s with color := v }) Codec.u8,
    .readwrite (fun s => s.characters) (fun s v => { s with characters := v })
      (Codec.map intLess Codec.i32 CharacterState.codec),
    .readwrite (fun s => s.next_character_index) (fun s v => { s with next_character_index := v }) Codec.i32,
    .readwrite (fun s => s.remainingLife) (fun s v => { s with remainingLife := v }) Codec.i32,
    .readwrite (fun s => s.message) (fun s v => { s with message := v }) Codec.str,
    .readwrite (fun s => s.message_block) (fun s v => { s with message_block := v }) Codec.i32,
    .readwrite (fun s => s.address) (fun s v => { s with address := v }) Codec.str,
    .readwrite (fun s => s.addressLock) (fun s v => { s with addressLock := v }) Codec.str,
    .readwrite (fun s => s.msg_token) (fun s v => { s with msg_token := v }) Codec.str,
    .readwrite (fun s => s.msg_vote) (fun s v => { s with msg_vote := v }) Codec.str,
    .readwrite (fun s => s.msg_vote_block) (fun s v => { s with msg_vote_block := v }) Codec.i32,
    .readwrite (fun s => s.msg_request) (fun s v => { s with msg_request := v }) Codec.str,
    .readwrite (fun s => s.msg_request_block) (fun s v => { s with msg_request_block := v }) Codec.i32,
    .readwrite (fun s => s.msg_fee) (fun s v => { s with msg_fee := v }) Codec.str,
    .readwrite (fun s => s.msg_comment) (fun s v => { s with msg_comment := v }) Codec.str,
    .readwrite (fun s => s.coins_vote) (fun s v => { s with coins_vote := v }) Codec.i64,
    .readwrite (fun s => s.coins_request) (fun s v => { s with coins_request := v }) Codec.i64,
    .readwrite (fun s => s.coins_fee) (fun s v => { s with coins_fee := v }) Codec.i64,
    .readwrite (fun s => s.gw_name) (fun s v => { s with gw_name := v }) Codec.str,
    .readwrite (fun s => s.msg_dlevel) (fun s v => { s with msg_dlevel := v }) Codec.str,
    .readwrite (fun s => s.msg_dlevel_block) (fun s v => { s with msg_dlevel_block := v }) Codec.i32,
    .readwrite (fun s => s.gw_addr_other) (fun s v => { s with gw_addr_other := v }) Codec.str,
    .readwrite (fun s => s.gw_amount_coins) (fun s v => { s with gw_amount_coins := v }) Codec.i64,
    .readwrite (fun s => s.gw_amount_other) (fun s v => { s with gw_amount_other := v }) Codec.i64,
    .readwrite (fun s => s.gw_amount_auto) (fun s v => { s with gw_amount_auto := v }) Codec.i64,
    .readwrite (fun s => s.msg_area) (fun s v => { s with msg_area := v }) Codec.str,
    .readwrite (fun s => s.msg_area_block) (fun s v => { s with msg_area_block := v }) Codec.i32,
    .readwrite (fun s => s.msg_merchant) (fun s v => { s with msg_merchant := v }) Codec.str,
    .readwrite (fun s => s.msg_merchant_block) (fun s v => { s with msg_merchant_block := v }) Codec.i32,
    .readwrite (fun s => s.pl_reserve_s1) (fun s v => { s with pl_reserve_s1 := v }) Codec.str,
    .readwrite (fun s => s.pl_reserve_s2) (fun s v => { s with pl_reserve_s2 := v }) Codec.str,
    .readwrite (fun s => s.pl_reserve_s3) (fun s v => { s with pl_reserve_s3 := v }) Codec.str,
    .readwrite (fun s => s.pl_reserve_s4) (fun s v => { s with pl_reserve_s4 := v }) Codec.str,
    .readwrite (fun s => s.pl_reserve_s5) (fun s v => { s with pl_reserve_s5 := v }) Codec.str,
    .readwrite (fun s => s.pl_reserve_s6) (fun s v => { s with pl_reserve_s6 := v }) Codec.str,
    .readwrite (fun s => s.pl_reserve_s7) (fun s v => { s with pl_reserve_s7 := v }) Codec.str,
    .readwrite (fun s => s.pl_reserve_s8) (fun s v => { s with pl_reserve_s8 := v }) Codec.str,
    .readwrite (fun s => s.pl_reserve_s9) (fun s v => { s with pl_reserve_s9 := v }) Codec.str,
    .readwrite (fun s => s.pl_reserve_ll1) (fun s v => { s with pl_reserve_ll1 := v }) Codec.i64,
    .readwrite (fun s => s.pl_reserve_ll2) (fun s v => { s with pl_reserve_ll2 := v }) Codec.i64,
    .readwrite (fun s => s.pl_reserve_ll3) (fun s v => { s with pl_reserve_ll3 := v }) Codec.i64,
    .readwrite (fun s => s.pl_reserve_ll4) (fun s v => { s with pl_reserve_ll4 := v }) Codec.i64,
    .readwrite (fun s => s.pl_reserve_ll5) (fun s v => { s with pl_reserve_ll5 := v }) Codec.i64,
    .readwrite (fun s => s.pl_reserve_ll6) (fun s v => { s with pl_reserve_ll6 := v }) Codec.i64,
    .readwrite (fun s => s.pl_reserve_ll7) (fun s v => { s with pl_reserve_ll7 := v }) Codec.i64,
    .readwrite (fun s => s.pl_reserve_ll8) (fun s v => { s with pl_reserve_ll8 := v }) Codec.i64,
    .readwrite (fun s => s.pl_reserve_ll9) (fun s v => { s with pl_reserve_ll9 := v }) Codec.i64,
    .readwrite (fun s => s.dlevel) (fun s v => { s with dlevel := v }) Codec.i32,
    .readwrite (fun s => s.pl_reserve2) (fun s v => { s with pl_reserve2 := v }) Codec.i32,
    .readwrite (fun s => s.pl_reserve3) (fun s v => { s with pl_reserve3 := v }) Codec.i32,
    .readwrite (fun s => s.pl_reserve4) (fun s v => { s with pl_reserve4 := v }) Codec.i32,
    .readwrite (fun s => s.pl_reserve5) (fun s v => { s with pl_reserve5 := v }) Codec.i32,
    .readwrite (fun s => s.pl_reserve6) (fun s v => { s with pl_reserve6 := v }) Codec.i32,
    .readwrite (fun s => s.pl_reserve7) (fun s v => { s with pl_reserve7 := v }) Codec.i32,
    .readwrite (fun s => s.pl_reserve8) (fun s v => { s with pl_reserve8 := v }) Codec.i32,
    .readwrite (fun s => s.pl_reserve9) (fun s v => { s with pl_reserve9 := v }) Codec.i32,
    .readwrite (fun s => s.lockedCoins) (fun s v => { s with lockedCoins := v }) Codec.i64,
    .readwrite (fun s => s.value) (fun s v => { s with value := v }) Codec.i64 ]

/-- The serialisation of a `PlayerState`. -/
def PlayerState.codec : Codec PlayerState :=
  Codec.ofOps PlayerState.new PlayerState.SerializationOp

/-- The struct `GameState` (`state.h`, lines 671-767), without the pointer `param` to the
consensus parameters, which is not serialised. -/
structure GameState where
  players : List (PlayerID × PlayerState)
  dead_players_chat : List (PlayerID × PlayerState)
  loot : List (Coord × LootInfo)
  hearts : List Coord
  banks : List (Coord × Nat)
  crownPos : Coord
  crownHolder : CharacterID
  gameFund : CAmount
  nHeight : Int
  nDisasterHeight : Int
  hashBlock : Nat
  dao_BestFee : Int
  dao_BestFeeFinal : Int
  dao_BestRequest : Int
  dao_BestRequestFinal : Int
  dao_BestName : List Nat
  dao_BestNameFinal : List Nat
  dao_BestComment : List Nat
  dao_BestCommentFinal : List Nat
  dao_BountyPreviousWeek : Int
  dao_NamePreviousWeek : List Nat
  dao_CommentPreviousWeek : List Nat
  dao_AdjustUpkeep : Int
  dao_AdjustPopulationLimit : Int
  dao_MinVersion : Int
  dcpoint_height1 : Int
  dcpoint_height2 : Int
  dcpoint_hash1 : Nat
  dcpoint_hash2 : Nat
  dao_DlevelMax : Int
  dao_IntervalMonsterApocalypse : Int
  gs_reserve_s1 : List Nat
  gs_reserve_s2 : List Nat
  gs_reserve_s3 : List Nat
  gs_reserve_s4 : List Nat
  gs_reserve_s5 : List Nat
  gs_reserve_s6 : List Nat
  gs_reserve_s7 : List Nat
  gs_reserve_s8 : List Nat
  gs_reserve_s9 : List Nat
  gs_reserve_ll1 : Int
  gs_reserve_ll2 : Int
  gs_reserve_ll3 : Int
  gs_reserve_ll4 : Int
  gs_reserve_ll5 : Int
  gs_reserve_ll6 : Int
  gs_reserve_ll7 : Int
  gs_reserve_ll8 : Int
  gs_reserve_ll9 : Int
  gs_reserve1 : Int
  gs_reserve2 : Int
  gs_reserve3 : Int
  gs_reserve4 : Int
  gs_reserve5 : Int
  gs_reserve6 : Int
  gs_reserve7 : Int
  gs_reserve8 : Int
  gs_reserve9 : Int

/-- The method `GameState::SerializationOp` (`state.h`, lines 771-844) for the
serialisation type `nType`. -/
def GameState.SerializationOp (nType : Nat) : List (Op GameState) :=
  [ .assert (fun _ => decide (nType &&& SER_DISK ≠ 0)),
    .readwrite (fun s => s.players) (fun s v => { s with players := v })
      (Codec.map stringLess Codec.str PlayerState.codec),
    .readwrite (fun s => s.dead_players_chat) (fun s v => { s with dead_players_chat := v })
      (Codec.map stringLess Codec.str PlayerState.codec),
    .readwrite (fun s => s.loot) (fun s v => { s with loot := v })
      (Codec.map Coord.less Coord.codec LootInfo.codec),
    .readwrite (fun s => s.hearts) (fun s v => { s with hearts := v })
      (Codec.set Coord.less Coord.codec),
    .readwrite (fun s => s.banks) (fun s v => { s with banks := v })
      (Codec.map Coord.less Coord.codec Codec.u32),
    .readwrite (fun s => s.crownPos) (fun s v => { s with crownPos := v }) Coord.codec,
    .readwrite (fun s => s.crownHolder.player)
      (fun s v => { s with crownHolder := { s.crownHolder with player := v } }) Codec.str,
    .guard (fun s => !s.crownHolder.player.isEmpty)
      (.readwrite (fun s => s.crownHolder.index)
        (fun s v => { s with crownHolder := { s.crownHolder with index := v } }) Codec.i32),
    .readwrite (fun s => s.gameFund) (fun s v => { s with gameFund := v }) Codec.i64,
    .readwrite (fun s => s.nHeight) (fun s v => { s with nHeight := v }) Codec.i32,
    .readwrite (fun s => s.nDisasterHeight) (fun s v => { s with nDisasterHeight := v }) Codec.i32,
    .readwrite (fun s => s.hashBlock) (fun s v => { s with hashBlock := v }) Codec.u256,
    .readwrite (fun s => s.dao_BestFee) (fun s v => { s with dao_BestFee := v }) Codec.i64,
    .readwrite (fun s => s.dao_BestFeeFinal) (fun s v => { s with dao_BestFeeFinal := v }) Codec.i64,
    .readwrite (fun s => s.dao_BestRequest) (fun s v => { s with dao_BestRequest := v }) Codec.i64,
    .readwrite (fun s => s.dao_BestRequestFinal) (fun s v => { s with dao_BestRequestFinal := v }) Codec.i64,
    .readwrite (fun s => s.dao_BestName) (fun s v => { s with dao_BestName := v }) Codec.str,
    .readwrite (fun s => s.dao_BestNameFinal) (fun s v => { s with dao_BestNameFinal := v }) Codec.str,
    .readwrite (fun s => s.dao_BestComment) (fun s v => { s with dao_BestComment := v }) Codec.str,
    .readwrite (fun s => s.dao_BestCommentFinal) (fun s v => { s with dao_BestCommentFinal := v }) Codec.str,
    .readwrite (fun s => s.dao_BountyPreviousWeek) (fun s v => { s with dao_BountyPreviousWeek := v }) Codec.i64,
    .readwrite (fun s => s.dao_NamePreviousWeek) (fun s v => { s with dao_NamePreviousWeek := v }) Codec.str,
    .readwrite (fun s => s.dao_CommentPreviousWeek) (fun s v => { s with dao_CommentPreviousWeek := v }) Codec.str,
    .readwrite (fun s => s.dao_AdjustUpkeep) (fun s v => { s with dao_AdjustUpkeep := v }) Codec.i64,
    .readwrite (fun s => s.dao_AdjustPopulationLimit) (fun s v => { s with dao_AdjustPopulationLimit := v }) Codec.i32,
    .readwrite (fun s => s.dao_MinVersion) (fun s v => { s with dao_MinVersion := v }) Codec.i32,
    .readwrite (fun s => s.dcpoint_height1) (fun s v => { s with dcpoint_height1 := v }) Codec.i32,
    .readwrite (fun s => s.dcpoint_height2) (fun s v => { s with dcpoint_height2 := v }) Codec.i32,
    .readwrite (fun s => s.dcpoint_hash1) (fun s v => { s with dcpoint_hash1 := v }) Codec.u256,
    .readwrite (fun s => s.dcpoint_hash2) (fun s v => { s with dcpoint_hash2 := v }) Codec.u256,
    .readwrite (fun s => s.dao_DlevelMax) (fun s v => { s with dao_DlevelMax := v }) Codec.i32,
    .readwrite (fun s => s.dao_IntervalMonsterApocalypse) (fun s v => { s with dao_IntervalMonsterApocalypse := v }) Codec.i32,
    .readwrite (fun s => s.gs_reserve_s1) (fun s v => { s with gs_reserve_s1 := v }) Codec.str,
    .readwrite (fun s => s.gs_reserve_s2) (fun s v => { s with gs_reserve_s2 := v }) Codec.str,
    .readwrite (fun s => s.gs_reserve_s3) (fun s v => { s with gs_reserve_s3 := v }) Codec.str,
    .readwrite (fun s => s.gs_reserve_s4) (fun s v => { s with gs_reserve_s4 := v }) Codec.str,
    .readwrite (fun s => s.gs_reserve_s5) (fun s v => { s with gs_reserve_s5 := v }) Codec.str,
    .readwrite (fun s => s.gs_reserve_s6) (fun s v => { s with gs_reserve_s6 := v }) Codec.str,
    .readwrite (fun s => s.gs_reserve_s7) (fun s v => { s with gs_reserve_s7 := v }) Codec.str,
    .readwrite (fun s => s.gs_reserve_s8) (fun s v => { s with gs_reserve_s8 := v }) Codec.str,
    .readwrite (fun s => s.gs_reserve_s9) (fun s v => { s with gs_reserve_s9 := v }) Codec.str,
    .readwrite (fun s => s.gs_reserve_ll1) (fun s v => { s with gs_reserve_ll1 := v }) Codec.i64,
    .readwrite (fun s => s.gs_reserve_ll2) (fun s v => { s with gs_reserve_ll2 := v }) Codec.i64,
    .readwrite (fun s => s.gs_reserve_ll3) (fun s v => { s with gs_reserve_ll3 := v }) Codec.i64,
    .readwrite (fun s => s.gs_reserve_ll4) (fun s v => { s with gs_reserve_ll4 := v }) Codec.i64,
    .readwrite (fun s => s.gs_reserve_ll5) (fun s v => { s with gs_reserve_ll5 := v }) Codec.i64,
    .readwrite (fun s => s.gs_reserve_ll6) (fun s v => { s with gs_reserve_ll6 := v }) Codec.i64,
    .readwrite (fun s => s.gs_reserve_ll7) (fun s v => { s with gs_reserve_ll7 := v }) Codec.i64,
    .readwrite (fun s => s.gs_reserve_ll8) (fun s v => { s with gs_reserve_ll8 := v }) Codec.i64,
    .readwrite (fun s => s.gs_reserve_ll9) (fun s v => { s with gs_reserve_ll9 := v }) Codec.i64,
    .readwrite (fun s => s.gs_reserve1) (fun s v => { s with gs_reserve1 := v }) Codec.i32,
    .readwrite (fun s => s.gs_reserve2) (fun s v => { s with gs_reserve2 := v }) Codec.i32,
    .readwrite (fun s => s.gs_reserve3) (fun s v => { s with gs_reserve3 := v }) Codec.i32,
    .readwrite (fun s => s.gs_reserve4) (fun s v => { s with gs_reserve4 := v }) Codec.i32,
    .readwrite (fun s => s.gs_reserve5) (fun s v => { s with gs_reserve5 := v }) Codec.i32,
    .readwrite (fun s => s.gs_reserve6) (fun s v => { s with gs_reserve6 := v }) Codec.i32,
    .readwrite (fun s => s.gs_reserve7) (fun s v => { s with gs_reserve7 := v }) Codec.i32,
    .readwrite (fun s => s.gs_reserve8) (fun s v => { s with gs_reserve8 := v }) Codec.i32,
    .readwrite (fun s => s.gs_reserve9) (fun s v => { s with gs_reserve9 := v }) Codec.i32 ]


/-- The function `Serialize` for a `GameState`: the stream written, or the
failure. -/
def GameState.Serialize (nType : Nat) (s : GameState) : Except SerError Stream :=
  writeOps (GameState.SerializationOp nType) s

/-- The function `Unserialize` for a `GameState`: the stream is read into
the object `t`; the result is the object after the read and the rest of the
stream. -/
def GameState.Unserialize (nType : Nat) (t : GameState) (st : Stream) :
    Except SerError (GameState × Stream) :=
  readOps (GameState.SerializationOp nType) t st

/-- The keys of a `std::map` are strictly increasing in its iteration
order. -/
def sortedKeys {κ ν : Type} (less : κ → κ → Bool) (m : List (κ × ν)) : Prop :=
  m.Pairwise (fun a b => less a.1 b.1 = true)

/-- The representation invariant of a `PlayerState`: `characters` is a
`std::map`. -/
def PlayerState.WellFormed (p : PlayerState) : Prop :=
  sortedKeys intLess p.characters

/-- The representation invariant of a `GameState`: its maps and its set are
in key order, and so are the maps of its players. -/
def GameState.WellFormed (s : GameState) : Prop :=
  sortedKeys stringLess s.players ∧ (∀ e ∈ s.players, e.2.WellFormed) ∧
  sortedKeys stringLess s.dead_players_chat ∧ (∀ e ∈ s.dead_players_chat, e.2.WellFormed) ∧
  sortedKeys Coord.less s.loot ∧
  s.hearts.Pairwise (fun a b => Coord.less a b = true) ∧
  sortedKeys Coord.less s.banks


/-! ## Definitions for the round-trip proofs -/


/-- What `unser` returns on a stream that starts with what `ser` wrote for
`v`: the value `v` and the rest of the stream, whatever the object read
into. -/
def Codec.RoundTrips {α : Type} (c : Codec α) (v : α) : Prop :=
  ∀ (w : α) (bytes rest : Stream), c.ser v = .ok bytes → c.unser w (bytes ++ rest) = .ok (v, rest)

/-- The object `t` after a statement has read what it wrote for `s`. -/
def Op.copy {σ : Type} : Op σ → σ → σ → σ
  | .readwrite get set _, s, t => set t (get s)
  | .guard cond body, s, t => if cond t then body.copy s t else t
  | .assert _, _, t => t

/-- The statement reads into `t` what it wrote for `s`: the field codec
round-trips, and conditions come out on `t` as they did on `s`. -/
def Op.Agrees {σ : Type} : Op σ → σ → σ → Prop
  | .readwrite get _ c, s, _ => c.RoundTrips (get s)
  | .guard cond body, s, t => cond t = cond s ∧ body.Agrees s t
  | .assert cond, s, t => cond s = true → cond t = true

/-- The object `t` after a body has read what it wrote for `s`. -/
def fill {σ : Type} : List (Op σ) → σ → σ → σ
  | [], _, t => t
  | op :: ops, s, t => fill ops s (op.copy s t)

/-- Each statement of a body agrees on the object as it is when the
statement is reached. -/
def AgreesAll {σ : Type} : List (Op σ) → σ → σ → Prop
  | [], _, _ => True
  | op :: ops, s, t => op.Agrees s t ∧ AgreesAll ops s (op.copy s t)

/-- The statement is a `READWRITE` whose codec round-trips at the field of `s`. -/
def Op.AgreesRW {σ : Type} : Op σ → σ → Prop
  | .readwrite get _ c, s => c.RoundTrips (get s)
  | .guard _ _, _ => False
  | .assert _, _ => False

/-- The serialisation of `v` succeeds. -/
def Codec.Writes {α : Type} (c : Codec α) (v : α) : Prop :=
  ∃ bytes, c.ser v = .ok bytes

/-- The statement succeeds when it is run to write `s`. -/
def Op.Succeeds {σ : Type} : Op σ → σ → Prop
  | .readwrite get _ c, s => c.Writes (get s)
  | .guard cond body, s => cond s = true → body.Succeeds s
  | .assert cond, s => cond s = true

/-- The state that `Unserialize` leaves in the object `t` when it reads the
serialisation of `s`: the state `s`, except that `crownHolder.index` is the
one of `t` when `s.crownHolder.player` is empty. -/
def GameState.restored (s t : GameState) : GameState :=
  { s with
    crownHolder :=
      { s.crownHolder with
        index := if s.crownHolder.player.isEmpty then t.crownHolder.index
                 else s.crownHolder.index } }

/-- No character of a player carries a refund. -/
def PlayerState.NoRefund (p : PlayerState) : Prop :=
  ∀ c ∈ p.characters, c.2.loot.IsRefund = false

/-- No character in the state carries a refund. -/
def GameState.NoRefund (s : GameState) : Prop :=
  (∀ e ∈ s.players, e.2.NoRefund) ∧ (∀ e ∈ s.dead_players_chat, e.2.NoRefund)

/-! ## Machine integers -/

/-- The value of an `int` after an operation whose exact result is `x`: the
result reduced to 32 bits in two's complement.  (Signed overflow is
undefined in C++; the compilers of this code wrap.) -/
def toInt32 (x : Int) : Int := (x + 2147483648) % 4294967296 - 2147483648

/-- The value of an `int64_t` (or `CAmount`) after an operation whose exact
result is `x`: the result reduced to 64 bits in two's complement. -/
def toInt64 (x : Int) : Int :=
  (x + 9223372036854775808) % 18446744073709551616 - 9223372036854775808

/-- The conversion of an `int` to `unsigned`: the value modulo `2^32`. -/
def toUInt32 (x : Int) : Nat := (x % 4294967296).toNat

/-- The value `x` is an `int`. -/
def IsInt32 (x : Int) : Prop := -2147483648 ≤ x ∧ x ≤ 2147483647

/-- The value `x` is an `int64_t`. -/
def IsInt64 (x : Int) : Prop := -9223372036854775808 ≤ x ∧ x ≤ 9223372036854775807

/-! ## Collecting and refunding loot (`game/state.h`, lines 192-222) -/

/-- The method `CollectedLootInfo::Collect`; `none` when
`assert (!IsRefund ())` fails. -/
def CollectedLootInfo.Collect (c : CollectedLootInfo) (loot : LootInfo) (nHeight : Int) :
    Option CollectedLootInfo :=
  if c.IsRefund then none
  else if loot.nAmount ≤ 0 then some c
  else
    let nAmount := toInt64 (c.nAmount + loot.nAmount)
    let firstBlock :=
      if c.firstBlock < 0 ∨ loot.firstBlock < c.firstBlock then loot.firstBlock
      else c.firstBlock
    let lastBlock := if loot.lastBlock > c.lastBlock then loot.lastBlock else c.lastBlock
    let collectedFirstBlock :=
      if c.collectedFirstBlock < 0 then nHeight else c.collectedFirstBlock
    some { nAmount := nAmount, firstBlock := firstBlock, lastBlock := lastBlock,
           collectedFirstBlock := collectedFirstBlock, collectedLastBlock := nHeight }

/-- The method `CollectedLootInfo::SetRefund`; `none` when one of its two
assertions fails. -/
def CollectedLootInfo.SetRefund (c : CollectedLootInfo) (refundAmount : CAmount)
    (nHeight : Int) : Option CollectedLootInfo :=
  if c.nAmount ≠ 0 then none
  else if ¬ (c.collectedFirstBlock = -1 ∧ c.collectedLastBlock = -1) then none
  else some { c with nAmount := refundAmount, collectedLastBlock := nHeight }

/-- A sequence of `Collect` calls on one object, each with its loot and
height; `none` when a call fails its assertion. -/
def CollectedLootInfo.collectAll (c : CollectedLootInfo) :
    List (LootInfo × Int) → Option CollectedLootInfo
  | [] => some c
  | (loot, nHeight) :: calls =>
    match c.Collect loot nHeight with
    | none => none
    | some c1 => c1.collectAll calls

/-! ## Distance (`game/state.h`, lines 139-144) -/

/-- The function `std::abs` on `int`. -/
def absInt32 (v : Int) : Int := toInt32 (if v < 0 then -v else v)

/-- The function `distLInf`: the subtractions and `std::abs` are `int`
operations, `std::max` compares two `int`s, and the result is converted to
`unsigned`. -/
def distLInf (c1 c2 : Coord) : Nat :=
  toUInt32 (max (absInt32 (toInt32 (c1.x - c2.x))) (absInt32 (toInt32 (c1.y - c2.y))))

/-! ## Order of killed-by infos (`game/state.h`, lines 996-1026) -/

/-- The operator `==` of `KilledByInfo`; `charEq` is the operator `==` of
`CharacterID` (`game/common.h`). -/
def KilledByInfo.eq (charEq : CharacterID → CharacterID → Bool) (a b : KilledByInfo) : Bool :=
  if a.reason ≠ b.reason then false
  else
    match a.reason with
    | .KILLED_DESTRUCT => charEq a.killer b.killer
    | _ => true

/-- The operator `<` of `KilledByInfo`; `charLess` is the operator `<` of
`CharacterID` (`game/common.h`). -/
def KilledByInfo.lt (charLess : CharacterID → CharacterID → Bool) (a b : KilledByInfo) : Bool :=
  if a.reason ≠ b.reason then decide (a.reason.toInt < b.reason.toInt)
  else
    match a.reason with
    | .KILLED_DESTRUCT => charLess a.killer b.killer
    | _ => false

/-! ## Minimum fee of name updates (`policy/policy.cpp`) -/

/-- The constant `COIN` of `amount.h`. -/
def COIN : CAmount := 100000000

/-- The constant `NAME_UPDATE_MIN_FEE` (`policy.cpp`, line 22). -/
def NAME_UPDATE_MIN_FEE : CAmount := COIN / 100

/-- The constant `NAME_UPDATE_LEN_FEE` (`policy.cpp`, line 26). -/
def NAME_UPDATE_LEN_FEE : CAmount := COIN / 500

/-- What `GetHuntercoinMinFee` uses of other translation units:
`CTransaction::IsNamecoin` (`primitives/transaction.h`), the class
`CNameScript` (`script/names.h`) as the function `nameOp`, which is `none`
for a script with `isNameOp ()` false and otherwise gives `getNameOp ()` and
`getOpValue ()`, and the opcode `OP_NAME_UPDATE`. -/
structure NameScripts where
  IsNamecoin : CTransaction → Bool
  nameOp : CScript → Option (Nat × valtype)
  OP_NAME_UPDATE : Nat

/-- The fee `cur` of one name update with the value `value` (`policy.cpp`,
lines 195-196).  The product and the sum are formed in 64 bits; they are
below `2^63` for every value shorter than `4 * 10^15` bytes, so the exact
result is the result of the code for every value that a transaction can
hold. -/
def nameUpdateFee (value : valtype) : CAmount :=
  NAME_UPDATE_MIN_FEE + NAME_UPDATE_LEN_FEE * ((value.length / 100 : Nat) : Int)

/-- The body of the loop of `GetHuntercoinMinFee` for one output; `res` is
the value of the variable before it. -/
def minFeeStep (names : NameScripts) (res : CAmount) (txout : CTxOut) : CAmount :=
  match names.nameOp txout.scriptPubKey with
  | none => res
  | some (op, value) =>
    if op = names.OP_NAME_UPDATE then max res (nameUpdateFee value) else res

/-- The function `GetHuntercoinMinFee`. -/
def GetHuntercoinMinFee (names : NameScripts) (tx : CTransaction) : CAmount :=
  if !names.IsNamecoin tx then 0
  else tx.vout.foldl (minFeeStep names) 0

/-- The values of the name updates among the outputs of a transaction, in
the order of the outputs. -/
def nameUpdateValues (names : NameScripts) (tx : CTransaction) : List valtype :=
  tx.vout.filterMap (fun txout =>
    match names.nameOp txout.scriptPubKey with
    | none => none
    | some (op, value) => if op = names.OP_NAME_UPDATE then some value else none)

/-! ## Selection of the chain parameters (`chainparams.cpp`, lines 404-427) -/

/-- The three static objects `mainParams`, `testNetParams` and
`regTestParams`. -/
inductive ChainParamsObject where
  | mainParams
  | testNetParams
  | regTestParams
deriving DecidableEq, Repr

/-- The member `strNetworkID` that the constructors of the three classes set
(`chainparams.cpp`, lines 102, 194 and 306): `main`, `test` and `regtest`. -/
def ChainParamsObject.strNetworkID : ChainParamsObject → List Nat
  | .mainParams => [109, 97, 105, 110]
  | .testNetParams => [116, 101, 115, 116]
  | .regTestParams => [114, 101, 103, 116, 101, 115, 116]

/-- What `chainparams.cpp` uses of `chainparamsbase.h`: the chain names
`CBaseChainParams::MAIN`, `TESTNET` and `REGTEST`, and the function
`SelectBaseParams`, as the set of names for which it returns (for the others
it throws). -/
structure CBaseChainParams where
  MAIN : List Nat
  TESTNET : List Nat
  REGTEST : List Nat
  SelectBaseParams : List Nat → Bool

/-- How a call ends that does not return: a failing `assert`, or the
exception `std::runtime_error`. -/
inductive ChainError where
  | assertFailed
  | runtime_error
deriving DecidableEq, Repr

/-- The function `Params ()`; the argument is the value of the static
pointer `pCurrentParams`, `none` for the null pointer. -/
def Params (pCurrentParams : Option ChainParamsObject) : Except ChainError ChainParamsObject :=
  match pCurrentParams with
  | none => .error .assertFailed
  | some p => .ok p

/-- The function `Params (const std::string& chain)`. -/
def ParamsChain (base : CBaseChainParams) (chain : List Nat) :
    Except ChainError ChainParamsObject :=
  if chain = base.MAIN then .ok .mainParams
  else if chain = base.TESTNET then .ok .testNetParams
  else if chain = base.REGTEST then .ok .regTestParams
  else .error .runtime_error

/-- The function `SelectParams`: the new value of `pCurrentParams`, or the
exception that leaves the call. -/
def SelectParams (base : CBaseChainParams) (network : List Nat) :
    Except ChainError (Option ChainParamsObject) :=
  if base.SelectBaseParams network then
    match ParamsChain base network with
    | .error e => .error e
    | .ok p => .ok (some p)
  else .error .runtime_error

/-! ## The items of the reserved fields (`game/state.h`, lines 445-459 and 616-646) -/

/-- The items that `CharacterState::SerializationOp` writes for the reserved
fields, the last 15 statements of its body. -/
def CharacterState.reservedItems (c : CharacterState) : Stream :=
  [
    .u8 c.ch_reserve_uc1, .u8 c.ch_reserve_uc2, .u8 c.ch_reserve_uc3, .u8 c.ch_reserve_uc4,
    .u8 c.ch_reserve_uc5, .i64 c.ch_reserve_ll1, .i64 c.ch_reserve_ll2, .i64 c.ch_reserve_ll3,
    .i64 c.ch_reserve_ll4, .i64 c.ch_reserve_ll5, .i32 c.ch_reserve1, .i32 c.ch_reserve2,
    .i32 c.ch_reserve3, .i32 c.ch_reserve4, .i32 c.ch_reserve5 ]

/-- The items that `PlayerState::SerializationOp` writes from
`pl_reserve_s1` on: the reserved strings and integers (with `dlevel`, which
stands where `pl_reserve1` would), then `lockedCoins` and `value`. -/
def PlayerState.reservedItems (p : PlayerState) : Stream :=
  [
    .str p.pl_reserve_s1, .str p.pl_reserve_s2, .str p.pl_reserve_s3, .str p.pl_reserve_s4,
    .str p.pl_reserve_s5, .str p.pl_reserve_s6, .str p.pl_reserve_s7, .str p.pl_reserve_s8,
    .str p.pl_reserve_s9, .i64 p.pl_reserve_ll1, .i64 p.pl_reserve_ll2, .i64 p.pl_reserve_ll3,
    .i64 p.pl_reserve_ll4, .i64 p.pl_reserve_ll5, .i64 p.pl_reserve_ll6, .i64 p.pl_reserve_ll7,
    .i64 p.pl_reserve_ll8, .i64 p.pl_reserve_ll9, .i32 p.dlevel, .i32 p.pl_reserve2,
    .i32 p.pl_reserve3, .i32 p.pl_reserve4, .i32 p.pl_reserve5, .i32 p.pl_reserve6,
    .i32 p.pl_reserve7, .i32 p.pl_reserve8, .i32 p.pl_reserve9, .i64 p.lockedCoins, .i64 p.value ]


/-! ## Definitions for the proofs on failing and partial snapshots -/

/-- The serialisation with `c` fails by a failing `assert` only. -/
def Codec.AssertsOnly {α : Type} (c : Codec α) : Prop :=
  ∀ v e, c.ser v = .error e → e = .assertFailed

/-- The statement, run to write, fails by a failing `assert` only. -/
def Op.AssertsOnly {σ : Type} : Op σ → Prop
  | .readwrite _ _ c => c.AssertsOnly
  | .guard _ body => body.AssertsOnly
  | .assert _ => True

/-- Every value that `unser` returns has the property `P`. -/
def Codec.Yields {α : Type} (c : Codec α) (P : α → Prop) : Prop :=
  ∀ t st v rest, c.unser t st = .ok (v, rest) → P v

/-- The statement, run to read, leaves the part `proj` of the object as it
is. -/
def Op.Keeps {σ β : Type} (proj : σ → β) : Op σ → Prop
  | .readwrite _ set _ => ∀ s v, proj (set s v) = proj s
  | .guard _ body => body.Keeps proj
  | .assert _ => True

/-- The differences of the coordinates of `a` and `b`, each taken in both
directions (as `distLInf (a, b)` and `distLInf (b, a)` compute them), are
`int`s. -/
def Coord.DiffsFit (a b : Coord) : Prop :=
  IsInt32 (a.x - b.x) ∧ IsInt32 (b.x - a.x) ∧ IsInt32 (a.y - b.y) ∧ IsInt32 (b.y - a.y)

/-! ## Sample data -/

/-- A host whose character names are the player name followed by the index
(for an index other than 0), and whose valid addresses are the ones of
length 2. -/
def sampleHost : Host where
  ToString := fun ch => if ch.index = 0 then ch.player else ch.player ++ [46, ch.index.toNat]
  IsValid := fun a => decide (a.length = 2)
  GetScriptForDestination := fun a => [.data a]

/-- A name view that knows the names `[97]` and `[98]`. -/
def sampleView : CCoinsView where
  GetName := fun n =>
    if n = [97] then some ⟨⟨11, 0⟩, [.data [1]]⟩
    else if n = [98] then some ⟨⟨12, 1⟩, [.data [2]]⟩
    else none

/-- A banked bounty of 7 for `[97]`, paid to the name address. -/
def sampleBounty : CollectedBounty :=
  { character := ⟨[97], 0⟩
    loot := { nAmount := 7, firstBlock := 3, lastBlock := 4,
              collectedFirstBlock := 5, collectedLastBlock := 6 }
    address := [] }

/-- A refund of 20 for `[98]` at height 9, paid to the address `[5, 5]`. -/
def sampleRefund : CollectedBounty :=
  { character := ⟨[98], 0⟩
    loot := { nAmount := 20, firstBlock := -1, lastBlock := -1,
              collectedFirstBlock := -1, collectedLastBlock := 9 }
    address := [5, 5] }

/-- A step in which `[98]` is killed for staying in the spawn area and
`[97]` is destructed by `[98]` and by character 1 of `[99]`, with two
bounties. -/
def sampleStep : StepResult :=
  { (StepResult.new.killAll
      [([98], ⟨.KILLED_SPAWN, ⟨[], 0⟩⟩),
       ([97], KilledByInfo.ofKiller ⟨[98], 0⟩),
       ([97], KilledByInfo.ofKiller ⟨[99], 1⟩)]) with
    bounties := [sampleBounty, sampleRefund] }

/-- The game transactions of `sampleStep` under `sampleView`: the kill
transaction with the inputs of `[97]` and `[98]`, then the bounty
transaction. -/
def sampleGameTx : List CTransaction :=
  [ { gameTx := true
      vin := [ ⟨⟨11, 0⟩, [.data [97], .num 1, .data [98], .data [99, 46, 1]]⟩,
               ⟨⟨12, 1⟩, [.data [98], .num 1]⟩ ]
      vout := [] },
    { gameTx := true
      vin := [ ⟨COutPoint.null, [.data [97], .num 2, .num 0, .num 3, .num 4, .num 5, .num 6]⟩,
               ⟨COutPoint.null, [.data [98], .num 4, .num 0, .num 9]⟩ ]
      vout := [ ⟨7, [.data [1]]⟩, ⟨20, [.data [5, 5]]⟩ ] } ]

/-- A step with one bounty, for the player `[99]`, who is not in
`sampleView`. -/
def sampleStepUnknown : StepResult :=
  { StepResult.new with bounties := [{ sampleBounty with character := ⟨[99], 0⟩ }] }

/-- A step with one bounty whose address `[5]` is not valid for
`sampleHost`. -/
def sampleStepBadAddress : StepResult :=
  { StepResult.new with bounties := [{ sampleBounty with address := [5] }] }

/-- The calls `KillPlayer ([97], KILLED_POISON)` and then
`KillPlayer ([97], KILLED_SPAWN)` on a fresh step result. -/
def sampleStepPoisonSpawn : StepResult :=
  StepResult.new.killAll
    [([97], ⟨.KILLED_POISON, ⟨[], 0⟩⟩), ([97], ⟨.KILLED_SPAWN, ⟨[], 0⟩⟩)]

/-- The calls `KillPlayer ([97], [98])`, `KillPlayer ([97], KILLED_SPAWN)` and
then `KillPlayer ([97], [99].1)` on a fresh step result. -/
def sampleStepInterleaved : StepResult :=
  StepResult.new.killAll
    [([97], KilledByInfo.ofKiller ⟨[98], 0⟩), ([97], ⟨.KILLED_SPAWN, ⟨[], 0⟩⟩),
     ([97], KilledByInfo.ofKiller ⟨[99], 1⟩)]

/-- A player with one character at `(3, 4)` that carries a loot of 7. -/
def samplePlayer : PlayerState :=
  { PlayerState.new with
    color := 1
    lockedCoins := 200
    value := 100
    next_character_index := 1
    characters :=
      [(0, { CharacterState.new with
              coord := ⟨3, 4⟩
              from_ := ⟨3, 4⟩
              loot := { nAmount := 7, firstBlock := 1, lastBlock := 2,
                        collectedFirstBlock := 3, collectedLastBlock := 3 } })] }

/-- A game state at height 10 with the player `[97]`, who holds the crown. -/
def sampleState : GameState where
  players := [([97], samplePlayer)]
  dead_players_chat := []
  loot := [(⟨1, 2⟩, ⟨5, 3, 4⟩)]
  hearts := [⟨0, 1⟩, ⟨2, 0⟩]
  banks := [(⟨9, 9⟩, 30)]
  crownPos := ⟨3, 4⟩
  crownHolder := ⟨[97], 0⟩
  gameFund := 11
  nHeight := 10
  nDisasterHeight := -1
  hashBlock := 12345
  dao_BestFee := 0
  dao_BestFeeFinal := 0
  dao_BestRequest := 0
  dao_BestRequestFinal := 0
  dao_BestName := []
  dao_BestNameFinal := []
  dao_BestComment := []
  dao_BestCommentFinal := []
  dao_BountyPreviousWeek := 0
  dao_NamePreviousWeek := []
  dao_CommentPreviousWeek := []
  dao_AdjustUpkeep := 0
  dao_AdjustPopulationLimit := 0
  dao_MinVersion := 0
  dcpoint_height1 := 0
  dcpoint_height2 := 0
  dcpoint_hash1 := 0
  dcpoint_hash2 := 0
  dao_DlevelMax := 0
  dao_IntervalMonsterApocalypse := 0
  gs_reserve_s1 := []
  gs_reserve_s2 := []
  gs_reserve_s3 := []
  gs_reserve_s4 := []
  gs_reserve_s5 := []
  gs_reserve_s6 := []
  gs_reserve_s7 := []
  gs_reserve_s8 := []
  gs_reserve_s9 := []
  gs_reserve_ll1 := 0
  gs_reserve_ll2 := 0
  gs_reserve_ll3 := 0
  gs_reserve_ll4 := 0
  gs_reserve_ll5 := 0
  gs_reserve_ll6 := 0
  gs_reserve_ll7 := 0
  gs_reserve_ll8 := 0
  gs_reserve_ll9 := 0
  gs_reserve1 := 0
  gs_reserve2 := 0
  gs_reserve3 := 0
  gs_reserve4 := 0
  gs_reserve5 := 0
  gs_reserve6 := 0
  gs_reserve7 := 0
  gs_reserve8 := 0
  gs_reserve9 := 0

/-- The state `sampleState` with nobody holding the crown, and the index 7
left in `crownHolder.index`. -/
def sampleStateNoCrown : GameState :=
  { sampleState with crownHolder := ⟨[], 7⟩ }

/-- An object to read a state into: no players, `crownHolder.index` 0. -/
def sampleTarget : GameState :=
  { sampleState with players := [], loot := [], hearts := [], banks := [], crownHolder := ⟨[], 0⟩,
                     gameFund := 0, nHeight := -1, hashBlock := 0 }

/-- The stream that `Serialize` writes for `sampleState` with `SER_DISK`. -/
def sampleStream : Stream :=
  match GameState.Serialize SER_DISK sampleState with
  | .ok bytes => bytes
  | .error _ => []

/-- The stream that `Serialize` writes for `sampleStateNoCrown` with
`SER_DISK`. -/
def sampleStreamNoCrown : Stream :=
  match GameState.Serialize SER_DISK sampleStateNoCrown with
  | .ok bytes => bytes
  | .error _ => []

/-- A loot of 5 that accumulated in the blocks 3 to 4. -/
def sampleLoot : LootInfo := ⟨5, 3, 4⟩

/-- A carried loot: 7 coins from the blocks 1 to 2, collected in block 3. -/
def sampleCollected : CollectedLootInfo :=
  { nAmount := 7, firstBlock := 1, lastBlock := 2,
    collectedFirstBlock := 3, collectedLastBlock := 3 }

/-- The chain names of `chainparamsbase.cpp`: `main`, `test` and `regtest`;
`SelectBaseParams` returns for these three. -/
def sampleBase : CBaseChainParams where
  MAIN := [109, 97, 105, 110]
  TESTNET := [116, 101, 115, 116]
  REGTEST := [114, 101, 103, 116, 101, 115, 116]
  SelectBaseParams := fun n =>
    decide (n = [109, 97, 105, 110] ∨ n = [116, 101, 115, 116] ∨
      n = [114, 101, 103, 116, 101, 115, 116])

/-- Name scripts: a script `[num op, data value]` is a name operation `op`
with the value `value`; `OP_NAME_UPDATE` is 83; every transaction that is
not a game transaction counts as a Namecoin transaction. -/
def sampleNames : NameScripts where
  IsNamecoin := fun tx => !tx.gameTx
  nameOp := fun script =>
    match script with
    | [.num op, .data value] => some (op.toNat, value)
    | _ => none
  OP_NAME_UPDATE := 83

/-- A transaction with two name updates, of value lengths 3 and 250, and an
output that is no name operation. -/
def sampleNameTx : CTransaction where
  gameTx := false
  vin := []
  vout := [⟨1, [.num 83, .data [1, 2, 3]]⟩, ⟨2, [.num 83, .data (List.replicate 250 0)]⟩,
           ⟨3, [.data [9]]⟩]

/-- A character with values in three reserved fields. -/
def sampleReservedCharacter : CharacterState :=
  { CharacterState.new with ch_reserve_uc1 := 1, ch_reserve_ll2 := -2, ch_reserve5 := 5 }

/-- The player `samplePlayer` with values in three reserved fields. -/
def sampleReservedPlayer : PlayerState :=
  { samplePlayer with pl_reserve_s1 := [1], pl_reserve_ll9 := 9, pl_reserve2 := 2 }

/-- The stream that is written for `sampleReservedCharacter`. -/
def sampleCharacterStream : Stream :=
  match CharacterState.codec.ser sampleReservedCharacter with
  | .ok bytes => bytes
  | .error _ => []

/-- The stream that is written for `sampleReservedPlayer`. -/
def samplePlayerStream : Stream :=
  match PlayerState.codec.ser sampleReservedPlayer with
  | .ok bytes => bytes
  | .error _ => []

/-- The calls `KillPlayer ([97], KILLED_SPAWN)`, `KillPlayer ([97],
KILLED_POISON)` and again `KillPlayer ([97], KILLED_SPAWN)` on a fresh step
result. -/
def sampleStepSpawnTwice : StepResult :=
  StepResult.new.killAll
    [([97], ⟨.KILLED_SPAWN, ⟨[], 0⟩⟩), ([97], ⟨.KILLED_POISON, ⟨[], 0⟩⟩),
     ([97], ⟨.KILLED_SPAWN, ⟨[], 0⟩⟩)]

/-- A step in which the unknown player `[99]` is killed, with the bounties of
`sampleStep`. -/
def sampleStepUnknownVictim : StepResult :=
  { (StepResult.new.killAll [([99], ⟨.KILLED_POISON, ⟨[], 0⟩⟩)]) with
    bounties := [sampleBounty, sampleRefund] }

/-- The step `sampleStep` with a third bounty, for the unknown player
`[99]`. -/
def sampleStepUnknownBounty : StepResult :=
  { sampleStep with
    bounties := [sampleBounty, sampleRefund, { sampleBounty with character := ⟨[99], 0⟩ }] }


/-- A character that carries the refund of `sampleRefund` as its loot. -/
def sampleRefundCharacter : CharacterState :=
  { CharacterState.new with loot := sampleRefund.loot }

/-- The state `sampleState` with a second player, `[98]`, whose character
carries a refund. -/
def sampleRefundState : GameState :=
  { sampleState with
    players := [([97], samplePlayer),
                ([98], { samplePlayer with characters := [(0, sampleRefundCharacter)] })] }

/-! ## Lemmas on the builder -/

theorem destructKillers_false_ne_none (env : Host) (l : List (PlayerID × KilledByInfo)) :
    destructKillers env false l ≠ none := by
  induction l with
  | nil => simp [destructKillers]
  | cons e es ih =>
    unfold destructKillers
    split
    · simp
    · simpa using ih

theorem destructKillers_true_ne_none (env : Host) (e : PlayerID × KilledByInfo)
    (es : List (PlayerID × KilledByInfo)) (he : e.2.reason = .KILLED_DESTRUCT) :
    destructKillers env true (e :: es) ≠ none := by
  unfold destructKillers
  simp only [he, ne_eq, not_true_eq_false, if_false]
  simpa using destructKillers_false_ne_none env es

theorem killInput_ne_assertFailed (env : Host) (view : CCoinsView) (killedBy : KilledByMap)
    (victim : PlayerID) : killInput env view killedBy victim ≠ .assertFailed := by
  unfold killInput
  simp only
  split
  · simp
  · split
    · simp
    · rename_i first rest _
      split
      · simp
      · split
        · rename_i hreason
          have h := destructKillers_true_ne_none env first rest hreason
          split
          · rename_i hd
            exact absurd hd h
          · simp
        · simp
        · simp

theorem killInputs_ne_assertFailed (env : Host) (view : CCoinsView) (killedBy : KilledByMap)
    (victims : List PlayerID) : killInputs env view killedBy victims ≠ .assertFailed := by
  induction victims with
  | nil => simp [killInputs]
  | cons v vs ih =>
    unfold killInputs
    have h := killInput_ne_assertFailed env view killedBy v
    cases hk : killInput env view killedBy v with
    | assertFailed => exact absurd hk h
    | returnedFalse => simp
    | value txin =>
      cases hks : killInputs env view killedBy vs with
      | assertFailed => exact absurd hks ih
      | returnedFalse => simp
      | value vin => simp

theorem bountyPair_ne_assertFailed (env : Host) (view : CCoinsView) (bounty : CollectedBounty) :
    bountyPair env view bounty ≠ .assertFailed := by
  unfold bountyPair
  simp only
  split
  · simp
  · split
    · simp
    · split
      · rename_i href
        simp [CollectedLootInfo.GetRefundHeight, href]
      · simp

theorem bountyPairs_ne_assertFailed (env : Host) (view : CCoinsView)
    (bounties : List CollectedBounty) : bountyPairs env view bounties ≠ .assertFailed := by
  induction bounties with
  | nil => simp [bountyPairs]
  | cons b bs ih =>
    unfold bountyPairs
    have h := bountyPair_ne_assertFailed env view b
    cases hk : bountyPair env view b with
    | assertFailed => exact absurd hk h
    | returnedFalse => simp
    | value p =>
      cases hks : bountyPairs env view bs with
      | assertFailed => exact absurd hks ih
      | returnedFalse => simp
      | value ps => simp

theorem killInputs_value_iff (env : Host) (view : CCoinsView) (killedBy : KilledByMap)
    (victims : List PlayerID) (vin : List CTxIn) :
    killInputs env view killedBy victims = .value vin ↔
      List.Forall₂ (fun v txin => killInput env view killedBy v = .value txin) victims vin := by
  induction victims generalizing vin with
  | nil =>
    cases vin <;> simp [killInputs]
  | cons v vs ih =>
    unfold killInputs
    cases hk : killInput env view killedBy v with
    | assertFailed => cases vin <;> simp [hk]
    | returnedFalse => cases vin <;> simp [hk]
    | value txin =>
      cases hks : killInputs env view killedBy vs with
      | assertFailed =>
        cases vin with
        | nil => simp
        | cons i is => simp [hk, ← ih, hks]
      | returnedFalse =>
        cases vin with
        | nil => simp
        | cons i is => simp [hk, ← ih, hks]
      | value vin' =>
        cases vin with
        | nil => simp
        | cons i is =>
          simp only [Flow.value.injEq, List.cons.injEq, List.forall₂_cons, hk, ← ih, hks]

theorem bountyPairs_value_iff (env : Host) (view : CCoinsView)
    (bounties : List CollectedBounty) (ps : List (CTxIn × CTxOut)) :
    bountyPairs env view bounties = .value ps ↔
      List.Forall₂ (fun b p => bountyPair env view b = .value p) bounties ps := by
  induction bounties generalizing ps with
  | nil =>
    cases ps <;> simp [bountyPairs]
  | cons b bs ih =>
    unfold bountyPairs
    cases hk : bountyPair env view b with
    | assertFailed => cases ps <;> simp [hk]
    | returnedFalse => cases ps <;> simp [hk]
    | value p =>
      cases hks : bountyPairs env view bs with
      | assertFailed =>
        cases ps with
        | nil => simp
        | cons i is => simp [hk, ← ih, hks]
      | returnedFalse =>
        cases ps with
        | nil => simp
        | cons i is => simp [hk, ← ih, hks]
      | value ps' =>
        cases ps with
        | nil => simp
        | cons i is =>
          simp only [Flow.value.injEq, List.cons.injEq, List.forall₂_cons, hk, ← ih, hks]

/-- The builder never fails an assertion. -/
theorem CreateGameTransactions_ne_none (env : Host) (view : CCoinsView)
    (stepResult : StepResult) (vGameTx : List CTransaction) :
    CreateGameTransactions env view stepResult vGameTx ≠ none := by
  unfold CreateGameTransactions
  have h1 := killInputs_ne_assertFailed env view stepResult.GetKilledBy stepResult.GetKilledPlayers
  cases hk : killInputs env view stepResult.GetKilledBy stepResult.GetKilledPlayers with
  | assertFailed => exact absurd hk h1
  | returnedFalse => simp
  | value vin =>
    have h2 := bountyPairs_ne_assertFailed env view stepResult.bounties
    cases hb : bountyPairs env view stepResult.bounties with
    | assertFailed => exact absurd hb h2
    | returnedFalse => simp
    | value ps => simp

/-- What a successful run of the builder went through: both loops ran to
their end, and the list holds the kill transaction when it has an input,
then the bounty transaction when it has an output. -/
theorem CreateGameTransactions_true_iff (env : Host) (view : CCoinsView)
    (stepResult : StepResult) (vGameTx txs : List CTransaction) :
    CreateGameTransactions env view stepResult vGameTx = some (true, txs) ↔
      ∃ vin ps,
        killInputs env view stepResult.GetKilledBy stepResult.GetKilledPlayers = .value vin ∧
        bountyPairs env view stepResult.bounties = .value ps ∧
        txs = (if vin = [] then [] else [⟨true, vin, []⟩]) ++
              (if ps = [] then [] else [⟨true, ps.map Prod.fst, ps.map Prod.snd⟩]) := by
  unfold CreateGameTransactions
  cases hk : killInputs env view stepResult.GetKilledBy stepResult.GetKilledPlayers with
  | assertFailed => simp
  | returnedFalse => simp
  | value vin =>
    cases hb : bountyPairs env view stepResult.bounties with
    | assertFailed => simp
    | returnedFalse => simp
    | value ps =>
      simp only [vectorClear, Flow.value.injEq, Option.some.injEq, Prod.mk.injEq, true_and]
      constructor
      · intro h
        refine ⟨vin, ps, rfl, rfl, ?_⟩
        rw [← h]
        by_cases hv : vin = [] <;> by_cases hp : ps = [] <;> simp [hv, hp]
      · rintro ⟨vin1, ps1, rfl, rfl, h⟩
        rw [h]
        by_cases hv : vin = [] <;> by_cases hp : ps = [] <;> simp [hv, hp]

theorem killInput_value (env : Host) (view : CCoinsView) (killedBy : KilledByMap)
    (victim : PlayerID) (txin : CTxIn)
    (h : killInput env view killedBy victim = .value txin) :
    ∃ data, view.GetName (ValtypeFromString victim) = some data ∧
      txin.prevout = data.getUpdateOutpoint := by
  unfold killInput at h
  simp only at h
  split at h
  · simp at h
  · rename_i data hdata
    refine ⟨data, hdata, ?_⟩
    split at h
    · simp at h
    · split at h
      · simp at h
      · split at h
        · split at h
          · simp at h
          · simp only [Flow.value.injEq] at h
            rw [← h]
        · simp only [Flow.value.injEq] at h
          rw [← h]
        · simp only [Flow.value.injEq] at h
          rw [← h]

theorem bountyPair_value (env : Host) (view : CCoinsView) (bounty : CollectedBounty)
    (p : CTxIn × CTxOut) (h : bountyPair env view bounty = .value p) :
    ∃ data, view.GetName (ValtypeFromString bounty.character.player) = some data ∧
      (bounty.address ≠ [] → env.IsValid bounty.address = true) ∧
      p.2 = ⟨bounty.loot.nAmount,
        if bounty.address ≠ [] then env.GetScriptForDestination bounty.address
        else data.getAddress⟩ ∧
      p.1 = ⟨COutPoint.null,
        if bounty.loot.IsRefund then
          [.data (ValtypeFromString bounty.character.player), .num GAMEOP_REFUND,
           .num bounty.character.index, .num bounty.loot.collectedLastBlock]
        else
          [.data (ValtypeFromString bounty.character.player), .num GAMEOP_COLLECTED_BOUNTY,
           .num bounty.character.index, .num bounty.loot.firstBlock,
           .num bounty.loot.lastBlock, .num bounty.loot.collectedFirstBlock,
           .num bounty.loot.collectedLastBlock]⟩ := by
  unfold bountyPair at h
  simp only at h
  split at h
  · simp at h
  · rename_i data hdata
    refine ⟨data, hdata, ?_⟩
    by_cases haddr : bounty.address = []
    · by_cases href : bounty.loot.IsRefund = true
      · simp [haddr, href, CollectedLootInfo.GetRefundHeight] at h
        rw [← h]
        simp [haddr, href]
      · simp [haddr, href] at h
        rw [← h]
        simp [haddr, href]
    · by_cases hvalid : env.IsValid bounty.address = true
      · by_cases href : bounty.loot.IsRefund = true
        · simp [haddr, hvalid, href, CollectedLootInfo.GetRefundHeight] at h
          rw [← h]
          simp [haddr, href, hvalid]
        · simp [haddr, hvalid, href] at h
          rw [← h]
          simp [haddr, href, hvalid]
      · simp [haddr, hvalid] at h

theorem killInputs_value_nil_iff (env : Host) (view : CCoinsView) (killedBy : KilledByMap)
    (victims : List PlayerID) (vin : List CTxIn)
    (h : killInputs env view killedBy victims = .value vin) :
    vin.length = victims.length ∧ (vin = [] ↔ victims = []) := by
  have hlen := ((killInputs_value_iff env view killedBy victims vin).1 h).length_eq
  refine ⟨hlen.symm, ?_⟩
  cases vin <;> cases victims <;> simp at hlen ⊢

theorem bountyPairs_value_nil_iff (env : Host) (view : CCoinsView)
    (bounties : List CollectedBounty) (ps : List (CTxIn × CTxOut))
    (h : bountyPairs env view bounties = .value ps) :
    ps.length = bounties.length ∧ (ps = [] ↔ bounties = []) := by
  have hlen := ((bountyPairs_value_iff env view bounties ps).1 h).length_eq
  refine ⟨hlen.symm, ?_⟩
  cases ps <;> cases bounties <;> simp at hlen ⊢

theorem killInputs_prevouts (env : Host) (view : CCoinsView) (killedBy : KilledByMap)
    (victims : List PlayerID) (vin : List CTxIn)
    (h : killInputs env view killedBy victims = .value vin) :
    vin.map (fun txin => some txin.prevout) =
      victims.map (fun victim =>
        (view.GetName (ValtypeFromString victim)).map CNameData.getUpdateOutpoint) := by
  have hall := (killInputs_value_iff env view killedBy victims vin).1 h
  clear h
  induction hall with
  | nil => rfl
  | cons hhead _ ih =>
    obtain ⟨data, hdata, hprev⟩ := killInput_value env view _ _ _ hhead
    simp only [List.map_cons, ih, hdata, hprev, Option.map_some']

theorem forall₂_map_eq {α β γ : Type} (R : α → β → Prop) (f : β → γ) (g : α → γ)
    (hR : ∀ a b, R a b → f b = g a) (l1 : List α) (l2 : List β)
    (h : List.Forall₂ R l1 l2) : l2.map f = l1.map g := by
  induction h with
  | nil => rfl
  | cons hhead _ ih => simp only [List.map_cons, ih, hR _ _ hhead]

theorem forall₂_left_exists {α β : Type} (R : α → β → Prop) (l1 : List α) (l2 : List β)
    (h : List.Forall₂ R l1 l2) : ∀ a ∈ l1, ∃ b, R a b := by
  induction h with
  | nil => simp
  | cons hhead _ ih =>
    intro a ha
    rcases List.mem_cons.1 ha with rfl | ha
    · exact ⟨_, hhead⟩
    · exact ih a ha

/-- The script that the bounty loop pushes into the input of a bounty
(`tx.cpp`, lines 189-200). -/
theorem bountyPairs_maps (env : Host) (view : CCoinsView)
    (bounties : List CollectedBounty) (ps : List (CTxIn × CTxOut))
    (h : bountyPairs env view bounties = .value ps) :
    (ps.map Prod.snd).map CTxOut.nValue = bounties.map (fun b => b.loot.nAmount) ∧
    (ps.map Prod.fst).map CTxIn.scriptSig = bounties.map (fun b =>
      if b.loot.IsRefund then
        [.data (ValtypeFromString b.character.player), .num GAMEOP_REFUND,
         .num b.character.index, .num b.loot.collectedLastBlock]
      else
        [.data (ValtypeFromString b.character.player), .num GAMEOP_COLLECTED_BOUNTY,
         .num b.character.index, .num b.loot.firstBlock, .num b.loot.lastBlock,
         .num b.loot.collectedFirstBlock, .num b.loot.collectedLastBlock]) ∧
    (ps.map Prod.snd).map (fun txout => some txout.scriptPubKey) = bounties.map (fun b =>
      if b.address ≠ [] then some (env.GetScriptForDestination b.address)
      else (view.GetName (ValtypeFromString b.character.player)).map CNameData.getAddress) ∧
    (ps.map Prod.fst).map CTxIn.prevout = bounties.map (fun _ => COutPoint.null) := by
  have hall := (bountyPairs_value_iff env view bounties ps).1 h
  refine ⟨?_, ?_, ?_, ?_⟩
  · rw [List.map_map]
    refine forall₂_map_eq _ _ _ ?_ _ _ hall
    intro b p hp
    obtain ⟨data, _, _, h2, _⟩ := bountyPair_value env view b p hp
    simp [h2]
  · rw [List.map_map]
    refine forall₂_map_eq _ _ _ ?_ _ _ hall
    intro b p hp
    obtain ⟨data, _, _, _, h1⟩ := bountyPair_value env view b p hp
    simp [h1]
  · rw [List.map_map]
    refine forall₂_map_eq _ _ _ ?_ _ _ hall
    intro b p hp
    obtain ⟨data, hdata, _, h2, _⟩ := bountyPair_value env view b p hp
    by_cases haddr : b.address = [] <;> simp [h2, hdata, haddr]
  · rw [List.map_map]
    refine forall₂_map_eq _ _ _ ?_ _ _ hall
    intro b p hp
    obtain ⟨data, _, _, _, h1⟩ := bountyPair_value env view b p hp
    simp [h1]

/-- On success the bounty transaction is the last one of the list. -/
theorem CreateGameTransactions_last (env : Host) (view : CCoinsView)
    (stepResult : StepResult) (vGameTx txs : List CTransaction)
    (h : CreateGameTransactions env view stepResult vGameTx = some (true, txs))
    (hn : stepResult.bounties ≠ []) :
    ∃ ps, bountyPairs env view stepResult.bounties = .value ps ∧
      txs.getLast? = some ⟨true, ps.map Prod.fst, ps.map Prod.snd⟩ := by
  obtain ⟨vin, ps, _, hb, htxs⟩ :=
    (CreateGameTransactions_true_iff env view stepResult vGameTx txs).1 h
  obtain ⟨_, hbnil⟩ := bountyPairs_value_nil_iff env view _ ps hb
  have hp : ps ≠ [] := fun hp => hn (hbnil.1 hp)
  refine ⟨ps, hb, ?_⟩
  rw [htxs]
  by_cases hv : vin = [] <;> simp [hv, hp]

/-- A run that meets a name missing from the view, or a non-empty address
that is not valid, does not return true. -/
theorem CreateGameTransactions_true_lookups (env : Host) (view : CCoinsView)
    (stepResult : StepResult) (vGameTx txs : List CTransaction)
    (h : CreateGameTransactions env view stepResult vGameTx = some (true, txs)) :
    (∀ v ∈ stepResult.GetKilledPlayers, view.GetName (ValtypeFromString v) ≠ none) ∧
    (∀ b ∈ stepResult.bounties,
      view.GetName (ValtypeFromString b.character.player) ≠ none ∧
      (b.address ≠ [] → env.IsValid b.address = true)) := by
  obtain ⟨vin, ps, hk, hb, _⟩ :=
    (CreateGameTransactions_true_iff env view stepResult vGameTx txs).1 h
  constructor
  · intro v hv
    obtain ⟨txin, htxin⟩ :=
      forall₂_left_exists _ _ _ ((killInputs_value_iff env view _ _ vin).1 hk) v hv
    obtain ⟨data, hdata, _⟩ := killInput_value env view _ _ _ htxin
    simp [hdata]
  · intro b hbm
    obtain ⟨p, hp⟩ :=
      forall₂_left_exists _ _ _ ((bountyPairs_value_iff env view _ ps).1 hb) b hbm
    obtain ⟨data, hdata, hvalid, _, _⟩ := bountyPair_value env view b p hp
    exact ⟨by simp [hdata], hvalid⟩

/-- A run that does not return true returns false. -/
theorem CreateGameTransactions_false_of_not_true (env : Host) (view : CCoinsView)
    (stepResult : StepResult) (vGameTx : List CTransaction)
    (h : ∀ txs, CreateGameTransactions env view stepResult vGameTx ≠ some (true, txs)) :
    ∃ txs, CreateGameTransactions env view stepResult vGameTx = some (false, txs) := by
  have hne := CreateGameTransactions_ne_none env view stepResult vGameTx
  cases hr : CreateGameTransactions env view stepResult vGameTx with
  | none => exact absurd hr hne
  | some r =>
    obtain ⟨ok, txs⟩ := r
    cases ok with
    | false => exact ⟨txs, rfl⟩
    | true => exact absurd hr (h txs)

theorem destructKillers_false_eq (env : Host) (l : List (PlayerID × KilledByInfo)) :
    destructKillers env false l =
      some ((l.takeWhile (fun e => decide (e.2.reason = .KILLED_DESTRUCT))).map
        (fun e => ScriptElem.data (ValtypeFromString (env.ToString e.2.killer)))) := by
  induction l with
  | nil => rfl
  | cons e es ih =>
    unfold destructKillers
    by_cases he : e.2.reason = .KILLED_DESTRUCT
    · simp [he, ih, List.takeWhile_cons]
    · simp [he, List.takeWhile_cons]

theorem destructKillers_true_eq (env : Host) (e : PlayerID × KilledByInfo)
    (es : List (PlayerID × KilledByInfo)) (he : e.2.reason = .KILLED_DESTRUCT) :
    destructKillers env true (e :: es) =
      some (((e :: es).takeWhile (fun e => decide (e.2.reason = .KILLED_DESTRUCT))).map
        (fun e => ScriptElem.data (ValtypeFromString (env.ToString e.2.killer)))) := by
  unfold destructKillers
  simp [he, destructKillers_false_eq, List.takeWhile_cons]

/-- The script of a kill input: it is built for the reason of the first
entry of the victim in the killed-by map, and in the destruct case lists the
killers of the entries up to the first one that is not a destruct entry. -/
theorem killInput_scriptSig (env : Host) (view : CCoinsView) (killedBy : KilledByMap)
    (victim : PlayerID) (txin : CTxIn)
    (h : killInput env view killedBy victim = .value txin) :
    ∃ first rest, killedBy.equal_range victim = first :: rest ∧
      txin.scriptSig =
        match first.2.reason with
        | .KILLED_DESTRUCT =>
          [.data (ValtypeFromString victim), .num GAMEOP_KILLED_BY] ++
            ((first :: rest).takeWhile (fun e => decide (e.2.reason = .KILLED_DESTRUCT))).map
              (fun e => ScriptElem.data (ValtypeFromString (env.ToString e.2.killer)))
        | .KILLED_SPAWN => [.data (ValtypeFromString victim), .num GAMEOP_KILLED_BY]
        | .KILLED_POISON => [.data (ValtypeFromString victim), .num GAMEOP_KILLED_POISON] := by
  unfold killInput at h
  simp only at h
  split at h
  · simp at h
  · split at h
    · simp at h
    · rename_i first rest hrange
      refine ⟨first, rest, hrange, ?_⟩
      split at h
      · simp at h
      · split at h
        · rename_i hreason
          rw [destructKillers_true_eq env first rest hreason] at h
          simp only [Flow.value.injEq] at h
          rw [← h]
        · rename_i hreason
          simp only [Flow.value.injEq] at h
          rw [← h]
        · rename_i hreason
          simp only [Flow.value.injEq] at h
          rw [← h]

/-! ## Lemmas on the killed-player set -/

theorem PlayerSet.mem_insert (s : PlayerSet) (p q : PlayerID) :
    q ∈ PlayerSet.insert s p ↔ q = p ∨ q ∈ s := by
  induction s with
  | nil => simp [PlayerSet.insert]
  | cons x xs ih =>
    unfold PlayerSet.insert
    by_cases h1 : p < x
    · simp [h1]
    · by_cases h2 : x < p
      · simp only [h1, h2, if_false, if_true, List.mem_cons, ih]
        tauto
      · have hpx : p = x := le_antisymm (not_lt.1 h2) (not_lt.1 h1)
        subst hpx
        simp only [h1, if_false, List.mem_cons]
        tauto

theorem PlayerSet.insert_sorted (s : PlayerSet) (p : PlayerID)
    (hs : s.Pairwise (fun a b => a < b)) :
    (PlayerSet.insert s p).Pairwise (fun a b => a < b) := by
  induction s with
  | nil => simp [PlayerSet.insert]
  | cons x xs ih =>
    rw [List.pairwise_cons] at hs
    unfold PlayerSet.insert
    by_cases h1 : p < x
    · simp only [h1, if_true, List.pairwise_cons, List.mem_cons]
      refine ⟨?_, hs.1, hs.2⟩
      rintro a (rfl | ha)
      · exact h1
      · exact lt_trans h1 (hs.1 a ha)
    · by_cases h2 : x < p
      · simp only [h1, h2, if_false, if_true, List.pairwise_cons]
        refine ⟨?_, ih hs.2⟩
        intro a ha
        rcases (PlayerSet.mem_insert xs p a).1 ha with rfl | ha
        · exact h2
        · exact hs.1 a ha
      · simp only [h1, h2, if_false, List.pairwise_cons]
        exact hs

theorem StepResult.killAll_killedPlayers (r : StepResult)
    (calls : List (PlayerID × KilledByInfo))
    (hs : r.killedPlayers.Pairwise (fun a b => a < b)) :
    (r.killAll calls).killedPlayers.Pairwise (fun a b => a < b) ∧
    ∀ v, v ∈ (r.killAll calls).killedPlayers ↔ v ∈ r.killedPlayers ∨ v ∈ calls.map Prod.fst := by
  induction calls generalizing r with
  | nil => simp [StepResult.killAll, hs]
  | cons c cs ih =>
    have hstep : (r.KillPlayer c.1 c.2).killedPlayers.Pairwise (fun a b => a < b) :=
      PlayerSet.insert_sorted r.killedPlayers c.1 hs
    obtain ⟨h1, h2⟩ := ih (r.KillPlayer c.1 c.2) hstep
    have hfold : r.killAll (c :: cs) = (r.KillPlayer c.1 c.2).killAll cs := rfl
    rw [hfold]
    refine ⟨h1, ?_⟩
    intro v
    rw [h2 v]
    simp only [StepResult.KillPlayer, PlayerSet.mem_insert, List.map_cons, List.mem_cons]
    tauto

theorem StepResult.killAll_distinct (calls : List (PlayerID × KilledByInfo)) :
    (StepResult.new.killAll calls).GetKilledPlayers.Nodup ∧
    (∀ v, v ∈ (StepResult.new.killAll calls).GetKilledPlayers ↔ v ∈ calls.map Prod.fst) ∧
    (StepResult.new.killAll calls).GetKilledPlayers.length
      = (calls.map Prod.fst).dedup.length := by
  obtain ⟨h1, h2⟩ := StepResult.killAll_killedPlayers StepResult.new calls
    (by simp [StepResult.new])
  have hnodup : (StepResult.new.killAll calls).killedPlayers.Nodup :=
    h1.imp (fun hab => ne_of_lt hab)
  have hmem : ∀ v, v ∈ (StepResult.new.killAll calls).killedPlayers ↔ v ∈ calls.map Prod.fst := by
    intro v
    rw [h2 v]
    simp [StepResult.new]
  refine ⟨hnodup, hmem, ?_⟩
  apply List.Perm.length_eq
  show List.Perm (StepResult.new.killAll calls).killedPlayers (calls.map Prod.fst).dedup
  rw [List.perm_ext_iff_of_nodup hnodup (List.nodup_dedup _)]
  intro v
  rw [List.mem_dedup]
  exact hmem v

/-! ## The claims on `CreateGameTransactions` -/

/-- C1: when `CreateGameTransactions` returns true, `vGameTx` holds at most
two transactions: the kill transaction (one input per killed player, no
output), present exactly when the killed-player set is non-empty, followed
by the bounty transaction (one input and one output per bounty), present
exactly when `stepResult.bounties` is non-empty; an empty step result gives
the empty list, and every transaction in the list is a game transaction. -/
theorem C1_game_tx_list (env : Host) (view : CCoinsView) (stepResult : StepResult)
    (vGameTx txs : List CTransaction)
    (h : CreateGameTransactions env view stepResult vGameTx = some (true, txs)) :
    txs.length ≤ 2 ∧
    (∃ txKills txBounties : CTransaction,
      txs = (if stepResult.GetKilledPlayers = [] then [] else [txKills]) ++
            (if stepResult.bounties = [] then [] else [txBounties]) ∧
      txKills.vin.length = stepResult.GetKilledPlayers.length ∧
      txKills.vout = [] ∧
      txBounties.vin.length = stepResult.bounties.length ∧
      txBounties.vout.length = stepResult.bounties.length) ∧
    (stepResult.GetKilledPlayers = [] ∧ stepResult.bounties = [] → txs = []) ∧
    ∀ tx ∈ txs, tx.gameTx = true := by
  obtain ⟨vin, ps, hk, hb, htxs⟩ :=
    (CreateGameTransactions_true_iff env view stepResult vGameTx txs).1 h
  obtain ⟨hklen, hknil⟩ := killInputs_value_nil_iff env view _ _ vin hk
  obtain ⟨hblen, hbnil⟩ := bountyPairs_value_nil_iff env view _ ps hb
  refine ⟨?_, ⟨⟨true, vin, []⟩, ⟨true, ps.map Prod.fst, ps.map Prod.snd⟩, ?_, hklen, rfl,
    by simpa using hblen, by simpa using hblen⟩, ?_, ?_⟩
  · rw [htxs]
    by_cases hv : vin = [] <;> by_cases hp : ps = [] <;> simp [hv, hp]
  · rw [htxs]
    by_cases hv : vin = [] <;> by_cases hp : ps = [] <;>
      simp [hv, hp, hknil.1, hbnil.1, mt hknil.2, mt hbnil.2]
  · rintro ⟨h1, h2⟩
    rw [htxs]
    simp [hknil.2 h1, hbnil.2 h2]
  · intro tx htx
    rw [htxs] at htx
    by_cases hv : vin = [] <;> by_cases hp : ps = [] <;> simp [hv, hp] at htx
    · rw [htx]
    · rw [htx]
    · rcases htx with htx | htx <;> rw [htx]

/-- C1 at `sampleStep`: two players killed and two bounties give the kill
transaction followed by the bounty transaction. -/
theorem C1_game_tx_list_witness :
    CreateGameTransactions sampleHost sampleView sampleStep [] = some (true, sampleGameTx) ∧
    sampleGameTx.length ≤ 2 ∧
    (∃ txKills txBounties : CTransaction,
      sampleGameTx = (if sampleStep.GetKilledPlayers = [] then [] else [txKills]) ++
            (if sampleStep.bounties = [] then [] else [txBounties]) ∧
      txKills.vin.length = sampleStep.GetKilledPlayers.length ∧
      txKills.vout = [] ∧
      txBounties.vin.length = sampleStep.bounties.length ∧
      txBounties.vout.length = sampleStep.bounties.length) ∧
    (sampleStep.GetKilledPlayers = [] ∧ sampleStep.bounties = [] → sampleGameTx = []) ∧
    ∀ tx ∈ sampleGameTx, tx.gameTx = true :=
  ⟨by decide, C1_game_tx_list sampleHost sampleView sampleStep [] sampleGameTx (by decide)⟩

/-- C2: when `CreateGameTransactions` returns true and the killed-player set
is non-empty, the first transaction of `vGameTx` is the kill transaction: it
has no outputs and one input per member of the killed-player set, in the
set's iteration order, input `i` spending the update outpoint that
`view.GetName` returns for victim `i`.  The set built by `KillPlayer` calls
has one member per distinct victim, whatever the number of calls for the
victim. -/
theorem C2_kill_inputs (env : Host) (view : CCoinsView) (stepResult : StepResult)
    (vGameTx txs : List CTransaction)
    (h : CreateGameTransactions env view stepResult vGameTx = some (true, txs))
    (hk : stepResult.GetKilledPlayers ≠ []) :
    (∃ txKills rest, txs = txKills :: rest ∧ txKills.vout = [] ∧
      txKills.vin.length = stepResult.GetKilledPlayers.length ∧
      txKills.vin.map (fun txin => some txin.prevout) =
        stepResult.GetKilledPlayers.map (fun victim =>
          (view.GetName (ValtypeFromString victim)).map CNameData.getUpdateOutpoint)) ∧
    (∀ calls : List (PlayerID × KilledByInfo),
      (StepResult.new.killAll calls).GetKilledPlayers.Nodup ∧
      (∀ v, v ∈ (StepResult.new.killAll calls).GetKilledPlayers ↔ v ∈ calls.map Prod.fst) ∧
      (StepResult.new.killAll calls).GetKilledPlayers.length
        = (calls.map Prod.fst).dedup.length) := by
  refine ⟨?_, StepResult.killAll_distinct⟩
  obtain ⟨vin, ps, hki, hb, htxs⟩ :=
    (CreateGameTransactions_true_iff env view stepResult vGameTx txs).1 h
  obtain ⟨hklen, hknil⟩ := killInputs_value_nil_iff env view _ _ vin hki
  have hv : vin ≠ [] := fun hv => hk (hknil.1 hv)
  refine ⟨⟨true, vin, []⟩, if ps = [] then [] else [⟨true, ps.map Prod.fst, ps.map Prod.snd⟩],
    ?_, rfl, hklen, ?_⟩
  · rw [htxs]
    simp [hv]
  · exact killInputs_prevouts env view _ _ vin hki

/-- C2 at `sampleStep`: the kill transaction spends the outpoints of `[97]`
and `[98]`, though `[97]` has two killed-by entries. -/
theorem C2_kill_inputs_witness :
    CreateGameTransactions sampleHost sampleView sampleStep [] = some (true, sampleGameTx) ∧
    sampleStep.GetKilledPlayers ≠ [] ∧
    (∃ txKills rest, sampleGameTx = txKills :: rest ∧ txKills.vout = [] ∧
      txKills.vin.length = sampleStep.GetKilledPlayers.length ∧
      txKills.vin.map (fun txin => some txin.prevout) =
        sampleStep.GetKilledPlayers.map (fun victim =>
          (sampleView.GetName (ValtypeFromString victim)).map CNameData.getUpdateOutpoint)) :=
  ⟨by decide, by decide,
    (C2_kill_inputs sampleHost sampleView sampleStep [] sampleGameTx (by decide) (by decide)).1⟩

/-- C3: when `CreateGameTransactions` returns true and there are `n > 0`
bounties, the last transaction of `vGameTx` is the bounty transaction: it
has `n` inputs and `n` outputs in the order of `stepResult.bounties` (input
`i` starts with the name of the player of bounty `i`), the value of output
`i` is `bounties[i].loot.nAmount`, and the output values sum up to the sum
of the bounty amounts. -/
theorem C3_bounty_outputs (env : Host) (view : CCoinsView) (stepResult : StepResult)
    (vGameTx txs : List CTransaction)
    (h : CreateGameTransactions env view stepResult vGameTx = some (true, txs))
    (hn : stepResult.bounties ≠ []) :
    ∃ txBounties, txs.getLast? = some txBounties ∧
      txBounties.vin.length = stepResult.bounties.length ∧
      txBounties.vout.length = stepResult.bounties.length ∧
      txBounties.vout.map CTxOut.nValue = stepResult.bounties.map (fun b => b.loot.nAmount) ∧
      txBounties.vin.map (fun txin => txin.scriptSig.head?) =
        stepResult.bounties.map
          (fun b => some (ScriptElem.data (ValtypeFromString b.character.player))) ∧
      (txBounties.vout.map CTxOut.nValue).sum =
        (stepResult.bounties.map (fun b => b.loot.nAmount)).sum := by
  obtain ⟨ps, hb, hlast⟩ := CreateGameTransactions_last env view stepResult vGameTx txs h hn
  obtain ⟨hblen, _⟩ := bountyPairs_value_nil_iff env view _ ps hb
  obtain ⟨hval, hsig, _, _⟩ := bountyPairs_maps env view _ ps hb
  refine ⟨_, hlast, by simpa using hblen, by simpa using hblen, hval, ?_, by rw [hval]⟩
  have hmap := congrArg (List.map List.head?) hsig
  simp only [List.map_map] at hmap ⊢
  rw [show ((fun txin : CTxIn => txin.scriptSig.head?) ∘ Prod.fst)
      = (List.head? ∘ CTxIn.scriptSig ∘ Prod.fst) from rfl, hmap]
  apply List.map_congr_left
  intro b _
  by_cases href : b.loot.IsRefund = true <;> simp [href]

/-- C3 at `sampleStep`: outputs of 7 and 20 for the two bounties. -/
theorem C3_bounty_outputs_witness :
    CreateGameTransactions sampleHost sampleView sampleStep [] = some (true, sampleGameTx) ∧
    sampleStep.bounties ≠ [] ∧
    ∃ txBounties, sampleGameTx.getLast? = some txBounties ∧
      txBounties.vin.length = sampleStep.bounties.length ∧
      txBounties.vout.length = sampleStep.bounties.length ∧
      txBounties.vout.map CTxOut.nValue = sampleStep.bounties.map (fun b => b.loot.nAmount) ∧
      txBounties.vin.map (fun txin => txin.scriptSig.head?) =
        sampleStep.bounties.map
          (fun b => some (ScriptElem.data (ValtypeFromString b.character.player))) ∧
      (txBounties.vout.map CTxOut.nValue).sum =
        (sampleStep.bounties.map (fun b => b.loot.nAmount)).sum :=
  ⟨by decide, by decide,
    C3_bounty_outputs sampleHost sampleView sampleStep [] sampleGameTx (by decide) (by decide)⟩

/-- C4: if a killed player, or the player of a bounty, has no entry in the
name view, `CreateGameTransactions` returns false. -/
theorem C4_missing_name_fails (env : Host) (view : CCoinsView) (stepResult : StepResult)
    (vGameTx : List CTransaction)
    (hmiss : (∃ v ∈ stepResult.GetKilledPlayers, view.GetName (ValtypeFromString v) = none) ∨
      (∃ b ∈ stepResult.bounties,
        view.GetName (ValtypeFromString b.character.player) = none)) :
    ∃ txs, CreateGameTransactions env view stepResult vGameTx = some (false, txs) := by
  apply CreateGameTransactions_false_of_not_true
  intro txs htrue
  obtain ⟨h1, h2⟩ := CreateGameTransactions_true_lookups env view stepResult vGameTx txs htrue
  rcases hmiss with ⟨v, hv, hnone⟩ | ⟨b, hb, hnone⟩
  · exact h1 v hv hnone
  · exact (h2 b hb).1 hnone

/-- C4 at a bounty for the unknown player `[99]`. -/
theorem C4_missing_name_fails_witness :
    (∃ b ∈ sampleStepUnknown.bounties,
      sampleView.GetName (ValtypeFromString b.character.player) = none) ∧
    ∃ txs, CreateGameTransactions sampleHost sampleView sampleStepUnknown [] = some (false, txs) :=
  ⟨by decide,
    C4_missing_name_fails sampleHost sampleView sampleStepUnknown [] (Or.inr (by decide))⟩

/-- C7: when `CreateGameTransactions` returns true (with at least one
bounty), the scriptSig of input `i` of the bounty transaction is, for a
refund, the player name, `GAMEOP_REFUND`, the character index and
`loot.collectedLastBlock`, and otherwise the player name,
`GAMEOP_COLLECTED_BOUNTY`, the character index, `firstBlock`, `lastBlock`,
`collectedFirstBlock` and `collectedLastBlock`; the refund height is what
`GetRefundHeight` returns. -/
theorem C7_bounty_scriptSig (env : Host) (view : CCoinsView) (stepResult : StepResult)
    (vGameTx txs : List CTransaction)
    (h : CreateGameTransactions env view stepResult vGameTx = some (true, txs))
    (hn : stepResult.bounties ≠ []) :
    (∃ txBounties, txs.getLast? = some txBounties ∧
      txBounties.vin.map CTxIn.scriptSig = stepResult.bounties.map (fun b =>
        if b.loot.IsRefund then
          [.data (ValtypeFromString b.character.player), .num 4,
           .num b.character.index, .num b.loot.collectedLastBlock]
        else
          [.data (ValtypeFromString b.character.player), .num 2,
           .num b.character.index, .num b.loot.firstBlock, .num b.loot.lastBlock,
           .num b.loot.collectedFirstBlock, .num b.loot.collectedLastBlock])) ∧
    (GAMEOP_REFUND = 4 ∧ GAMEOP_COLLECTED_BOUNTY = 2) ∧
    (∀ b ∈ stepResult.bounties, b.loot.IsRefund = true →
      b.loot.GetRefundHeight = some b.loot.collectedLastBlock) := by
  obtain ⟨ps, hb, hlast⟩ := CreateGameTransactions_last env view stepResult vGameTx txs h hn
  obtain ⟨_, hsig, _, _⟩ := bountyPairs_maps env view _ ps hb
  refine ⟨⟨_, hlast, hsig⟩, ⟨rfl, rfl⟩, ?_⟩
  intro b _ href
  simp [CollectedLootInfo.GetRefundHeight, href]

/-- C7 at `sampleStep`: a collected bounty and a refund. -/
theorem C7_bounty_scriptSig_witness :
    CreateGameTransactions sampleHost sampleView sampleStep [] = some (true, sampleGameTx) ∧
    sampleStep.bounties ≠ [] ∧
    ∃ txBounties, sampleGameTx.getLast? = some txBounties ∧
      txBounties.vin.map CTxIn.scriptSig =
        [[.data [97], .num 2, .num 0, .num 3, .num 4, .num 5, .num 6],
         [.data [98], .num 4, .num 0, .num 9]] :=
  ⟨by decide, by decide,
    (C7_bounty_scriptSig sampleHost sampleView sampleStep [] sampleGameTx
      (by decide) (by decide)).1⟩

/-- C8: when `CreateGameTransactions` returns true (with at least one
bounty), the scriptPubKey of output `i` of the bounty transaction is the
destination script of `bounties[i].address` when that address is non-empty,
and the address stored in the name view for the bounty's player when it is
empty; and a bounty whose non-empty address is not valid makes
`CreateGameTransactions` return false. -/
theorem C8_bounty_scriptPubKey (env : Host) (view : CCoinsView) (stepResult : StepResult)
    (vGameTx : List CTransaction) :
    (∀ txs, CreateGameTransactions env view stepResult vGameTx = some (true, txs) →
      stepResult.bounties ≠ [] →
      ∃ txBounties, txs.getLast? = some txBounties ∧
        txBounties.vout.map (fun txout => some txout.scriptPubKey) =
          stepResult.bounties.map (fun b =>
            if b.address ≠ [] then some (env.GetScriptForDestination b.address)
            else (view.GetName (ValtypeFromString b.character.player)).map
              CNameData.getAddress)) ∧
    ((∃ b ∈ stepResult.bounties, b.address ≠ [] ∧ env.IsValid b.address = false) →
      ∃ txs, CreateGameTransactions env view stepResult vGameTx = some (false, txs)) := by
  constructor
  · intro txs h hn
    obtain ⟨ps, hb, hlast⟩ := CreateGameTransactions_last env view stepResult vGameTx txs h hn
    obtain ⟨_, _, hspk, _⟩ := bountyPairs_maps env view _ ps hb
    exact ⟨_, hlast, hspk⟩
  · rintro ⟨b, hbm, haddr, hinvalid⟩
    apply CreateGameTransactions_false_of_not_true
    intro txs htrue
    obtain ⟨_, h2⟩ := CreateGameTransactions_true_lookups env view stepResult vGameTx txs htrue
    have := (h2 b hbm).2 haddr
    rw [hinvalid] at this
    exact Bool.false_ne_true this

/-- C8 at `sampleStep` (one bounty paid to the name address, one to the
given address) and at `sampleStepBadAddress` (an address that is not
valid). -/
theorem C8_bounty_scriptPubKey_witness :
    (CreateGameTransactions sampleHost sampleView sampleStep [] = some (true, sampleGameTx) ∧
      ∃ txBounties, sampleGameTx.getLast? = some txBounties ∧
        txBounties.vout.map (fun txout => some txout.scriptPubKey) =
          [some [.data [1]], some [.data [5, 5]]]) ∧
    ((∃ b ∈ sampleStepBadAddress.bounties,
        b.address ≠ [] ∧ sampleHost.IsValid b.address = false) ∧
      ∃ txs, CreateGameTransactions sampleHost sampleView sampleStepBadAddress [] =
        some (false, txs)) :=
  ⟨⟨by decide,
    (C8_bounty_scriptPubKey sampleHost sampleView sampleStep []).1 sampleGameTx
      (by decide) (by decide)⟩,
   ⟨by decide,
    (C8_bounty_scriptPubKey sampleHost sampleView sampleStepBadAddress []).2 (by decide)⟩⟩

/-! ## The claims on `CollectedLootInfo` -/

/-- C10: `IsRefund ()` is true exactly when `nAmount > 0` and
`collectedFirstBlock == -1`; a default-constructed `CollectedLootInfo` has
amount 0 and the four block fields -1, and is not a refund. -/
theorem C10_IsRefund_iff :
    (∀ c : CollectedLootInfo,
      c.IsRefund = true ↔ (c.nAmount > 0 ∧ c.collectedFirstBlock = -1)) ∧
    CollectedLootInfo.new = ⟨⟨0, -1, -1⟩, -1, -1⟩ ∧
    CollectedLootInfo.new.IsRefund = false := by
  refine ⟨?_, rfl, by decide⟩
  intro c
  simp [CollectedLootInfo.IsRefund]


/-! ## Lemmas on serialisation -/

theorem Op.read_write {σ : Type} (op : Op σ) (s t : σ) (bytes rest : Stream)
    (hw : op.write s = .ok bytes) (ha : op.Agrees s t) :
    op.read t (bytes ++ rest) = .ok (op.copy s t, rest) := by
  induction op generalizing bytes with
  | readwrite get set c =>
    simp only [Op.write] at hw
    simp only [Op.read, Op.copy, ha (get t) bytes rest hw]
  | guard cond body ih =>
    obtain ⟨hc, hb⟩ := ha
    simp only [Op.write] at hw
    simp only [Op.read, Op.copy, hc]
    by_cases hcs : cond s = true
    · simp only [hcs, if_true] at hw ⊢
      exact ih bytes hw hb
    · simp only [hcs, Bool.false_eq_true, if_false, Except.ok.injEq] at hw ⊢
      rw [← hw]
      rfl
  | assert cond =>
    simp only [Op.write] at hw
    by_cases hcs : cond s = true
    · simp only [hcs, if_true, Except.ok.injEq] at hw
      simp only [Op.read, Op.copy, ha hcs, if_true, ← hw, List.nil_append]
    · simp [hcs] at hw

theorem readOps_writeOps {σ : Type} (ops : List (Op σ)) (s t : σ) (bytes rest : Stream)
    (hw : writeOps ops s = .ok bytes) (ha : AgreesAll ops s t) :
    readOps ops t (bytes ++ rest) = .ok (fill ops s t, rest) := by
  induction ops generalizing t bytes with
  | nil =>
    simp only [writeOps, Except.ok.injEq] at hw
    simp [readOps, fill, ← hw]
  | cons op ops ih =>
    obtain ⟨h1, h2⟩ := ha
    unfold writeOps at hw
    cases ha : op.write s with
    | error e => simp [ha] at hw
    | ok a =>
      cases hb : writeOps ops s with
      | error e => simp [ha, hb] at hw
      | ok b =>
        simp only [ha, hb, Except.ok.injEq] at hw
        rw [← hw, List.append_assoc]
        unfold readOps
        simp only [Op.read_write op s t a (b ++ rest) ha h1]
        exact ih _ _ hb h2

theorem AgreesAll_of_rw {σ : Type} (ops : List (Op σ)) (s : σ)
    (h : ∀ op ∈ ops, op.AgreesRW s) (t : σ) : AgreesAll ops s t := by
  induction ops generalizing t with
  | nil => trivial
  | cons op ops ih =>
    refine ⟨?_, ih (fun o ho => h o (List.mem_cons_of_mem _ ho)) _⟩
    have := h op (List.mem_cons_self _ _)
    cases op with
    | readwrite get set c => exact this
    | guard cond body => exact this.elim
    | assert cond => exact this.elim

theorem AgreesAll_append {σ : Type} (a b : List (Op σ)) (s t : σ) :
    AgreesAll (a ++ b) s t ↔ AgreesAll a s t ∧ AgreesAll b s (fill a s t) := by
  induction a generalizing t with
  | nil => simp [AgreesAll, fill]
  | cons op a ih =>
    show (op.Agrees s t ∧ AgreesAll (a ++ b) s (op.copy s t)) ↔ _
    rw [ih]
    simp only [AgreesAll, fill, and_assoc]

theorem Codec.ofOps_roundTrips {σ : Type} (dflt : σ) (ops : List (Op σ)) (s : σ)
    (ha : ∀ t, AgreesAll ops s t) (hf : ∀ t, fill ops s t = s) :
    (Codec.ofOps dflt ops).RoundTrips s := by
  intro w bytes rest hw
  have := readOps_writeOps ops s w bytes rest hw (ha w)
  rw [hf w] at this
  exact this

@[simp] theorem Codec.u8_roundTrips (v : Nat) : Codec.u8.RoundTrips v := by
  intro w bytes rest h; cases h; rfl
@[simp] theorem Codec.i32_roundTrips (v : Int) : Codec.i32.RoundTrips v := by
  intro w bytes rest h; cases h; rfl
@[simp] theorem Codec.u32_roundTrips (v : Nat) : Codec.u32.RoundTrips v := by
  intro w bytes rest h; cases h; rfl
@[simp] theorem Codec.i64_roundTrips (v : Int) : Codec.i64.RoundTrips v := by
  intro w bytes rest h; cases h; rfl
@[simp] theorem Codec.u64_roundTrips (v : Nat) : Codec.u64.RoundTrips v := by
  intro w bytes rest h; cases h; rfl
@[simp] theorem Codec.u256_roundTrips (v : Nat) : Codec.u256.RoundTrips v := by
  intro w bytes rest h; cases h; rfl
@[simp] theorem Codec.str_roundTrips (v : List Nat) : Codec.str.RoundTrips v := by
  intro w bytes rest h; cases h; rfl

theorem Codec.pair_roundTrips {κ ν : Type} (ck : Codec κ) (cv : Codec ν) (p : κ × ν)
    (hk : ck.RoundTrips p.1) (hv : cv.RoundTrips p.2) : (Codec.pair ck cv).RoundTrips p := by
  intro w bytes rest h
  simp only [Codec.pair] at h ⊢
  cases ha : ck.ser p.1 with
  | error e => simp [ha] at h
  | ok a =>
    cases hb : cv.ser p.2 with
    | error e => simp [ha, hb] at h
    | ok b =>
      simp only [ha, hb, Except.ok.injEq] at h
      rw [← h, List.append_assoc]
      simp only [hk w.1 a (b ++ rest) ha, hv w.2 b rest hb]

theorem unserElems_serElems {α : Type} (c : Codec α) (l : List α) (bytes rest : Stream)
    (hl : ∀ x ∈ l, c.RoundTrips x) (h : serElems c l = .ok bytes) :
    unserElems c l.length (bytes ++ rest) = .ok (l, rest) := by
  induction l generalizing bytes with
  | nil =>
    simp only [serElems, Except.ok.injEq] at h
    simp [unserElems, ← h]
  | cons x xs ih =>
    unfold serElems at h
    cases ha : c.ser x with
    | error e => simp [ha] at h
    | ok a =>
      cases hb : serElems c xs with
      | error e => simp [ha, hb] at h
      | ok b =>
        simp only [ha, hb, Except.ok.injEq] at h
        rw [← h, List.append_assoc]
        simp only [List.length_cons, unserElems,
          hl x (List.mem_cons_self _ _) c.dflt a (b ++ rest) ha,
          ih b (fun y hy => hl y (List.mem_cons_of_mem _ hy)) hb]

theorem unser_serContainer {α : Type} (c : Codec α) (l : List α) (bytes rest : Stream)
    (hl : ∀ x ∈ l, c.RoundTrips x) (h : serContainer c l = .ok bytes) :
    ∃ body, bytes = .size l.length :: body ∧
      unserElems c l.length (body ++ rest) = .ok (l, rest) := by
  unfold serContainer at h
  cases hb : serElems c l with
  | error e => simp [hb] at h
  | ok b =>
    simp only [hb, Except.ok.injEq] at h
    exact ⟨b, h.symm, unserElems_serElems c l b rest hl hb⟩

theorem Codec.vector_roundTrips {α : Type} (c : Codec α) (l : List α)
    (hl : ∀ x ∈ l, c.RoundTrips x) : (Codec.vector c).RoundTrips l := by
  intro w bytes rest h
  obtain ⟨body, rfl, hb⟩ := unser_serContainer c l bytes rest hl h
  simp only [Codec.vector, List.cons_append, hb]

theorem mapInsert_last {κ ν : Type} (less : κ → κ → Bool)
    (hasym : ∀ a b, less a b = true → less b a = false)
    (l : List (κ × ν)) (e : κ × ν) (hl : ∀ x ∈ l, less x.1 e.1 = true) :
    mapInsert less l e = l ++ [e] := by
  induction l with
  | nil => rfl
  | cons x xs ih =>
    have hx := hl x (List.mem_cons_self _ _)
    simp only [mapInsert, hasym _ _ hx, hx, Bool.false_eq_true, if_false, if_true,
      ih (fun y hy => hl y (List.mem_cons_of_mem _ hy)), List.cons_append]

theorem foldl_mapInsert {κ ν : Type} (less : κ → κ → Bool)
    (hasym : ∀ a b, less a b = true → less b a = false)
    (acc l : List (κ × ν)) (hs : sortedKeys less (acc ++ l)) :
    l.foldl (mapInsert less) acc = acc ++ l := by
  induction l generalizing acc with
  | nil => simp
  | cons e l ih =>
    have hacc : ∀ x ∈ acc, less x.1 e.1 = true := by
      intro x hx
      exact (List.pairwise_append.1 hs).2.2 x hx e (List.mem_cons_self _ _)
    rw [List.foldl_cons, mapInsert_last less hasym acc e hacc, ih]
    · simp
    · simpa [sortedKeys] using hs

theorem Codec.map_roundTrips {κ ν : Type} (less : κ → κ → Bool)
    (hasym : ∀ a b, less a b = true → less b a = false)
    (ck : Codec κ) (cv : Codec ν) (m : List (κ × ν))
    (hs : sortedKeys less m)
    (hm : ∀ e ∈ m, ck.RoundTrips e.1 ∧ cv.RoundTrips e.2) :
    (Codec.map less ck cv).RoundTrips m := by
  intro w bytes rest h
  obtain ⟨body, rfl, hb⟩ := unser_serContainer (Codec.pair ck cv) m bytes rest
    (fun e he => Codec.pair_roundTrips ck cv e (hm e he).1 (hm e he).2) h
  simp only [Codec.map, List.cons_append, hb]
  rw [foldl_mapInsert less hasym [] m (by simpa using hs)]
  rfl

theorem setInsert_last {κ : Type} (less : κ → κ → Bool)
    (hasym : ∀ a b, less a b = true → less b a = false)
    (l : List κ) (e : κ) (hl : ∀ x ∈ l, less x e = true) :
    setInsert less l e = l ++ [e] := by
  induction l with
  | nil => rfl
  | cons x xs ih =>
    have hx := hl x (List.mem_cons_self _ _)
    simp only [setInsert, hasym _ _ hx, hx, Bool.false_eq_true, if_false, if_true,
      ih (fun y hy => hl y (List.mem_cons_of_mem _ hy)), List.cons_append]

theorem foldl_setInsert {κ : Type} (less : κ → κ → Bool)
    (hasym : ∀ a b, less a b = true → less b a = false)
    (acc l : List κ) (hs : (acc ++ l).Pairwise (fun a b => less a b = true)) :
    l.foldl (setInsert less) acc = acc ++ l := by
  induction l generalizing acc with
  | nil => simp
  | cons e l ih =>
    have hacc : ∀ x ∈ acc, less x e = true := by
      intro x hx
      exact (List.pairwise_append.1 hs).2.2 x hx e (List.mem_cons_self _ _)
    rw [List.foldl_cons, setInsert_last less hasym acc e hacc, ih]
    · simp
    · simpa using hs

theorem Codec.set_roundTrips {κ : Type} (less : κ → κ → Bool)
    (hasym : ∀ a b, less a b = true → less b a = false)
    (ck : Codec κ) (m : List κ)
    (hs : m.Pairwise (fun a b => less a b = true))
    (hm : ∀ e ∈ m, ck.RoundTrips e) :
    (Codec.set less ck).RoundTrips m := by
  intro w bytes rest h
  obtain ⟨body, rfl, hb⟩ := unser_serContainer ck m bytes rest hm h
  simp only [Codec.set, List.cons_append, hb]
  rw [foldl_setInsert less hasym [] m (by simpa using hs)]
  rfl

theorem intLess_asymm (a b : Int) (h : intLess a b = true) : intLess b a = false := by
  simp only [intLess, decide_eq_true_eq, decide_eq_false_iff_not] at h ⊢
  omega

theorem stringLess_asymm (a b : List Nat) (h : stringLess a b = true) :
    stringLess b a = false := by
  simp only [stringLess, decide_eq_true_eq, decide_eq_false_iff_not] at h ⊢
  exact lt_asymm h

theorem Coord.less_asymm (a b : Coord) (h : Coord.less a b = true) : Coord.less b a = false := by
  simp only [Coord.less, Bool.or_eq_true, Bool.and_eq_true, decide_eq_true_eq,
    Bool.or_eq_false_iff, Bool.and_eq_false_iff, decide_eq_false_iff_not] at h ⊢
  omega

@[simp] theorem Coord_codec_roundTrips (v : Coord) : Coord.codec.RoundTrips v := by
  apply Codec.ofOps_roundTrips
  · intro t
    simp [Coord.SerializationOp, AgreesAll, Op.Agrees]
  · intro t
    rfl

@[simp] theorem LootInfo_codec_roundTrips (v : LootInfo) : LootInfo.codec.RoundTrips v := by
  apply Codec.ofOps_roundTrips
  · intro t
    simp [LootInfo.SerializationOp, AgreesAll, Op.Agrees]
  · intro t
    rfl

@[simp] theorem CollectedLootInfo_codec_roundTrips (v : CollectedLootInfo) :
    CollectedLootInfo.codec.RoundTrips v := by
  apply Codec.ofOps_roundTrips
  · intro t
    simp [CollectedLootInfo.SerializationOp, AgreesAll, Op.Agrees, Op.copy]
  · intro t
    rfl

theorem CharacterState_agreesAll (v t : CharacterState) :
    AgreesAll CharacterState.SerializationOp v t := by
  apply AgreesAll_of_rw
  simp [CharacterState.SerializationOp, Op.AgreesRW, Codec.vector_roundTrips]

theorem CharacterState_fill_eq (v t : CharacterState) :
    fill CharacterState.SerializationOp v t = v := by
  cases v
  cases t
  rfl

@[simp] theorem CharacterState_codec_roundTrips (v : CharacterState) :
    CharacterState.codec.RoundTrips v :=
  Codec.ofOps_roundTrips CharacterState.new CharacterState.SerializationOp v
    (CharacterState_agreesAll v) (CharacterState_fill_eq v)

theorem PlayerState_agreesAll (v t : PlayerState) (hwf : v.WellFormed) :
    AgreesAll PlayerState.SerializationOp v t := by
  have hch : (Codec.map intLess Codec.i32 CharacterState.codec).RoundTrips v.characters :=
    Codec.map_roundTrips intLess intLess_asymm _ _ _ hwf (by simp)
  apply AgreesAll_of_rw
  simp [PlayerState.SerializationOp, Op.AgreesRW, hch]

theorem PlayerState_fill_eq (v t : PlayerState) :
    fill PlayerState.SerializationOp v t = v := by
  cases v
  cases t
  rfl

theorem PlayerState_codec_roundTrips (v : PlayerState) (hwf : v.WellFormed) :
    PlayerState.codec.RoundTrips v :=
  Codec.ofOps_roundTrips PlayerState.new PlayerState.SerializationOp v
    (fun t => PlayerState_agreesAll v t hwf) (PlayerState_fill_eq v)

theorem GameState_agreesAll (nType : Nat) (s t : GameState) (hwf : s.WellFormed) :
    AgreesAll (GameState.SerializationOp nType) s t := by
  obtain ⟨h1, h2, h3, h4, h5, h6, h7⟩ := hwf
  have hplayers : (Codec.map stringLess Codec.str PlayerState.codec).RoundTrips s.players :=
    Codec.map_roundTrips stringLess stringLess_asymm _ _ _ h1
      (fun e he => ⟨by simp, PlayerState_codec_roundTrips e.2 (h2 e he)⟩)
  have hdead :
      (Codec.map stringLess Codec.str PlayerState.codec).RoundTrips s.dead_players_chat :=
    Codec.map_roundTrips stringLess stringLess_asymm _ _ _ h3
      (fun e he => ⟨by simp, PlayerState_codec_roundTrips e.2 (h4 e he)⟩)
  have hloot : (Codec.map Coord.less Coord.codec LootInfo.codec).RoundTrips s.loot :=
    Codec.map_roundTrips Coord.less Coord.less_asymm _ _ _ h5 (by simp)
  have hhearts : (Codec.set Coord.less Coord.codec).RoundTrips s.hearts :=
    Codec.set_roundTrips Coord.less Coord.less_asymm _ _ h6 (by simp)
  have hbanks : (Codec.map Coord.less Coord.codec Codec.u32).RoundTrips s.banks :=
    Codec.map_roundTrips Coord.less Coord.less_asymm _ _ _ h7 (by simp)
  rw [← List.take_append_drop 8 (GameState.SerializationOp nType), AgreesAll_append]
  constructor
  · simp [GameState.SerializationOp, AgreesAll, Op.Agrees, hplayers, hdead, hloot, hhearts,
      hbanks]
  · have hlen : 8 < (GameState.SerializationOp nType).length := by
      simp [GameState.SerializationOp]
    rw [List.drop_eq_getElem_cons hlen]
    refine ⟨?_, ?_⟩
    · simp [GameState.SerializationOp, Op.Agrees, fill, Op.copy]
    · apply AgreesAll_of_rw
      simp [GameState.SerializationOp, Op.AgreesRW]

theorem Op.write_ok {σ : Type} (op : Op σ) (s : σ) (h : op.Succeeds s) :
    ∃ bytes, op.write s = .ok bytes := by
  induction op with
  | readwrite get set c => exact h
  | guard cond body ih =>
    by_cases hc : cond s = true
    · simpa [Op.write, hc] using ih (h hc)
    · exact ⟨[], by simp [Op.write, hc]⟩
  | assert cond =>
    have hc : cond s = true := h
    exact ⟨[], by simp [Op.write, hc]⟩

theorem writeOps_ok {σ : Type} (ops : List (Op σ)) (s : σ) (h : ∀ op ∈ ops, op.Succeeds s) :
    ∃ bytes, writeOps ops s = .ok bytes := by
  induction ops with
  | nil => exact ⟨[], rfl⟩
  | cons op ops ih =>
    obtain ⟨a, ha⟩ := Op.write_ok op s (h op (List.mem_cons_self _ _))
    obtain ⟨b, hb⟩ := ih (fun o ho => h o (List.mem_cons_of_mem _ ho))
    exact ⟨a ++ b, by simp [writeOps, ha, hb]⟩

@[simp] theorem Codec.u8_writes (v : Nat) : Codec.u8.Writes v := ⟨_, rfl⟩
@[simp] theorem Codec.i32_writes (v : Int) : Codec.i32.Writes v := ⟨_, rfl⟩
@[simp] theorem Codec.u32_writes (v : Nat) : Codec.u32.Writes v := ⟨_, rfl⟩
@[simp] theorem Codec.i64_writes (v : Int) : Codec.i64.Writes v := ⟨_, rfl⟩
@[simp] theorem Codec.u64_writes (v : Nat) : Codec.u64.Writes v := ⟨_, rfl⟩
@[simp] theorem Codec.u256_writes (v : Nat) : Codec.u256.Writes v := ⟨_, rfl⟩
@[simp] theorem Codec.str_writes (v : List Nat) : Codec.str.Writes v := ⟨_, rfl⟩

theorem Codec.pair_writes {κ ν : Type} (ck : Codec κ) (cv : Codec ν) (p : κ × ν)
    (hk : ck.Writes p.1) (hv : cv.Writes p.2) : (Codec.pair ck cv).Writes p := by
  obtain ⟨a, ha⟩ := hk
  obtain ⟨b, hb⟩ := hv
  exact ⟨a ++ b, by simp [Codec.pair, ha, hb]⟩

theorem serContainer_ok {α : Type} (c : Codec α) (l : List α) (h : ∀ x ∈ l, c.Writes x) :
    ∃ bytes, serContainer c l = .ok bytes := by
  have hel : ∃ b, serElems c l = .ok b := by
    induction l with
    | nil => exact ⟨[], rfl⟩
    | cons x xs ih =>
      obtain ⟨a, ha⟩ := h x (List.mem_cons_self _ _)
      obtain ⟨b, hb⟩ := ih (fun y hy => h y (List.mem_cons_of_mem _ hy))
      exact ⟨a ++ b, by simp [serElems, ha, hb]⟩
  obtain ⟨b, hb⟩ := hel
  exact ⟨.size l.length :: b, by simp [serContainer, hb]⟩

theorem Codec.vector_writes {α : Type} (c : Codec α) (l : List α) (h : ∀ x ∈ l, c.Writes x) :
    (Codec.vector c).Writes l := serContainer_ok c l h

theorem Codec.set_writes {κ : Type} (less : κ → κ → Bool) (c : Codec κ) (l : List κ)
    (h : ∀ x ∈ l, c.Writes x) : (Codec.set less c).Writes l := serContainer_ok c l h

theorem Codec.map_writes {κ ν : Type} (less : κ → κ → Bool) (ck : Codec κ) (cv : Codec ν)
    (m : List (κ × ν)) (h : ∀ e ∈ m, ck.Writes e.1 ∧ cv.Writes e.2) :
    (Codec.map less ck cv).Writes m :=
  serContainer_ok (Codec.pair ck cv) m
    (fun e he => Codec.pair_writes ck cv e (h e he).1 (h e he).2)

@[simp] theorem Coord_codec_writes (v : Coord) : Coord.codec.Writes v :=
  writeOps_ok Coord.SerializationOp v (by simp [Coord.SerializationOp, Op.Succeeds])

@[simp] theorem LootInfo_codec_writes (v : LootInfo) : LootInfo.codec.Writes v :=
  writeOps_ok LootInfo.SerializationOp v (by simp [LootInfo.SerializationOp, Op.Succeeds])

theorem CollectedLootInfo_codec_writes (v : CollectedLootInfo) (h : v.IsRefund = false) :
    CollectedLootInfo.codec.Writes v :=
  writeOps_ok CollectedLootInfo.SerializationOp v
    (by simp [CollectedLootInfo.SerializationOp, Op.Succeeds, h])

theorem CharacterState_codec_writes (v : CharacterState) (h : v.loot.IsRefund = false) :
    CharacterState.codec.Writes v :=
  writeOps_ok CharacterState.SerializationOp v
    (by simp [CharacterState.SerializationOp, Op.Succeeds, Codec.vector_writes,
      CollectedLootInfo_codec_writes v.loot h])

theorem PlayerState_codec_writes (v : PlayerState) (h : v.NoRefund) :
    PlayerState.codec.Writes v := by
  have hch : (Codec.map intLess Codec.i32 CharacterState.codec).Writes v.characters :=
    Codec.map_writes _ _ _ _
      (fun e he => ⟨by simp, CharacterState_codec_writes e.2 (h e he)⟩)
  exact writeOps_ok PlayerState.SerializationOp v
    (by simp [PlayerState.SerializationOp, Op.Succeeds, hch])

theorem GameState.serialize_ok (nType : Nat) (s : GameState) (hdisk : nType &&& SER_DISK ≠ 0)
    (h : s.NoRefund) : ∃ bytes, GameState.Serialize nType s = .ok bytes := by
  have hplayers : (Codec.map stringLess Codec.str PlayerState.codec).Writes s.players :=
    Codec.map_writes _ _ _ _ (fun e he => ⟨by simp, PlayerState_codec_writes e.2 (h.1 e he)⟩)
  have hdead : (Codec.map stringLess Codec.str PlayerState.codec).Writes s.dead_players_chat :=
    Codec.map_writes _ _ _ _ (fun e he => ⟨by simp, PlayerState_codec_writes e.2 (h.2 e he)⟩)
  have hloot : (Codec.map Coord.less Coord.codec LootInfo.codec).Writes s.loot :=
    Codec.map_writes _ _ _ _ (by simp)
  have hhearts : (Codec.set Coord.less Coord.codec).Writes s.hearts :=
    Codec.set_writes _ _ _ (by simp)
  have hbanks : (Codec.map Coord.less Coord.codec Codec.u32).Writes s.banks :=
    Codec.map_writes _ _ _ _ (by simp)
  exact writeOps_ok (GameState.SerializationOp nType) s
    (by simp [GameState.SerializationOp, Op.Succeeds, hdisk, hplayers, hdead, hloot, hhearts,
      hbanks])

theorem GameState_fill_eq (nType : Nat) (s t : GameState) :
    fill (GameState.SerializationOp nType) s t = GameState.restored s t := by
  rcases s with ⟨_, _, _, _, _, _, ⟨player, index⟩⟩
  cases t
  cases player <;> rfl

/-- Reading the serialisation of a well-formed state `s` into an object
`t` gives `GameState.restored s t`. -/
theorem GameState.unserialize_serialize (nType : Nat) (s t : GameState) (bytes rest : Stream)
    (hwf : s.WellFormed) (henc : GameState.Serialize nType s = .ok bytes) :
    GameState.Unserialize nType t (bytes ++ rest) = .ok (GameState.restored s t, rest) := by
  have := readOps_writeOps (GameState.SerializationOp nType) s t bytes rest henc
    (GameState_agreesAll nType s t hwf)
  rw [GameState_fill_eq] at this
  exact this

/-! ## The claim on the snapshot of a `GameState` -/

theorem GameState.restored_eq (s t : GameState) (h : s.crownHolder.player ≠ []) :
    GameState.restored s t = s := by
  rcases s with ⟨_, _, _, _, _, _, ⟨player, index⟩⟩
  cases player with
  | nil => exact absurd rfl h
  | cons a l => rfl

theorem GameState.restored_crownless (s t : GameState) (h : s.crownHolder.player = []) :
    GameState.restored s t = { s with crownHolder := ⟨[], t.crownHolder.index⟩ } := by
  rcases s with ⟨_, _, _, _, _, _, ⟨player, index⟩⟩
  cases player with
  | nil => rfl
  | cons a l => exact absurd h (by simp)

theorem sampleState_wellFormed : sampleState.WellFormed := by
  simp [GameState.WellFormed, sortedKeys, sampleState, samplePlayer, PlayerState.WellFormed,
    Coord.less]

theorem sampleStateNoCrown_wellFormed : sampleStateNoCrown.WellFormed := by
  simp [GameState.WellFormed, sortedKeys, sampleStateNoCrown, sampleState, samplePlayer,
    PlayerState.WellFormed, Coord.less]

theorem sampleState_noRefund : sampleState.NoRefund := by
  simp [GameState.NoRefund, PlayerState.NoRefund, sampleState, samplePlayer,
    CollectedLootInfo.IsRefund]

theorem sampleStateNoCrown_noRefund : sampleStateNoCrown.NoRefund := by
  simp [GameState.NoRefund, PlayerState.NoRefund, sampleStateNoCrown, sampleState, samplePlayer,
    CollectedLootInfo.IsRefund]

set_option maxRecDepth 8192 in
/-- C9, as stated, fails: `sampleStateNoCrown` has an empty
`crownHolder.player` and `crownHolder.index = 7`; its serialisation with
`SER_DISK` succeeds, and reading it into `sampleTarget` gives a state equal
to it except for `crownHolder.index`, which is 0, the one `sampleTarget`
had; whatever object the bytes are read into keeps its own
`crownHolder.index`. -/
theorem C9_crown_index_not_restored :
    sampleStateNoCrown.WellFormed ∧ sampleStateNoCrown.crownHolder = ⟨[], 7⟩ ∧
    GameState.Serialize SER_DISK sampleStateNoCrown = .ok sampleStreamNoCrown ∧
    GameState.Unserialize SER_DISK sampleTarget sampleStreamNoCrown =
      .ok ({ sampleStateNoCrown with crownHolder := ⟨[], 0⟩ }, []) ∧
    (∀ t r rest, GameState.Unserialize SER_DISK t sampleStreamNoCrown = .ok (r, rest) →
      r.crownHolder.index = t.crownHolder.index) := by
  have hbytes : GameState.Serialize SER_DISK sampleStateNoCrown = .ok sampleStreamNoCrown := rfl
  have hread : GameState.Unserialize SER_DISK sampleTarget sampleStreamNoCrown =
      .ok ({ sampleStateNoCrown with crownHolder := ⟨[], 0⟩ }, []) := by
    rfl
  refine ⟨sampleStateNoCrown_wellFormed, rfl, hbytes, hread, ?_⟩
  intro t r rest h
  have hround := GameState.unserialize_serialize SER_DISK sampleStateNoCrown t
    sampleStreamNoCrown [] sampleStateNoCrown_wellFormed hbytes
  rw [List.append_nil, h] at hround
  simp only [Except.ok.injEq, Prod.mk.injEq] at hround
  rw [hround.1]
  rfl

/-- C9, amended: for every `GameState` `s` (its maps in key order) and every
serialisation type, if `GameState::SerializationOp` writes `s`, then reading
what it wrote into any object `t` succeeds, consumes exactly the bytes
written, and yields `s` in every serialised field except
`crownHolder.index` when `crownHolder.player` is empty: the index is then
not in the stream and the object keeps the index it had.  With a non-empty
`crownHolder.player` the state read is `s`.  Writing succeeds for every
state without a carried refund when the type has the bit `SER_DISK`. -/
theorem C9_snapshot_round_trip (nType : Nat) (s t : GameState) (bytes rest : Stream)
    (hwf : s.WellFormed) (henc : GameState.Serialize nType s = .ok bytes) :
    GameState.Unserialize nType t (bytes ++ rest) = .ok (GameState.restored s t, rest) ∧
    (s.crownHolder.player ≠ [] → GameState.restored s t = s) ∧
    (s.crownHolder.player = [] →
      GameState.restored s t = { s with crownHolder := ⟨[], t.crownHolder.index⟩ }) ∧
    (∀ (nType1 : Nat) (s1 : GameState), nType1 &&& SER_DISK ≠ 0 → s1.NoRefund →
      ∃ bytes1, GameState.Serialize nType1 s1 = .ok bytes1) :=
  ⟨GameState.unserialize_serialize nType s t bytes rest hwf henc,
   GameState.restored_eq s t, GameState.restored_crownless s t,
   fun nType1 s1 hdisk hloot => GameState.serialize_ok nType1 s1 hdisk hloot⟩

/-- C9 at `sampleState`, whose crown is held by `[97]`: reading the stream
written for it into `sampleTarget` gives `sampleState`. -/
theorem C9_snapshot_round_trip_witness :
    sampleState.WellFormed ∧
    GameState.Serialize SER_DISK sampleState = .ok sampleStream ∧
    GameState.Unserialize SER_DISK sampleTarget (sampleStream ++ []) =
      .ok (GameState.restored sampleState sampleTarget, []) ∧
    GameState.restored sampleState sampleTarget = sampleState :=
  ⟨sampleState_wellFormed, rfl,
   (C9_snapshot_round_trip SER_DISK sampleState sampleTarget sampleStream []
      sampleState_wellFormed rfl).1,
   (C9_snapshot_round_trip SER_DISK sampleState sampleTarget sampleStream []
      sampleState_wellFormed rfl).2.1 (by decide)⟩

/-! ## The claims on `SetRefund` and `Collect` -/

theorem toInt64_of_isInt64 (x : Int) (h : IsInt64 x) : toInt64 x = x := by
  simp only [IsInt64] at h
  simp only [toInt64]
  omega

theorem toInt32_of_isInt32 (x : Int) (h : IsInt32 x) : toInt32 x = x := by
  simp only [IsInt32] at h
  simp only [toInt32]
  omega

/-- The result of `Collect` for a loot with a positive amount. -/
theorem Collect_pos (c : CollectedLootInfo) (l : LootInfo) (h : Int)
    (hc : c.IsRefund = false) (hl : l.nAmount > 0) :
    c.Collect l h =
      some { nAmount := toInt64 (c.nAmount + l.nAmount)
             firstBlock :=
               if c.firstBlock < 0 ∨ l.firstBlock < c.firstBlock then l.firstBlock
               else c.firstBlock
             lastBlock := if l.lastBlock > c.lastBlock then l.lastBlock else c.lastBlock
             collectedFirstBlock :=
               if c.collectedFirstBlock < 0 then h else c.collectedFirstBlock
             collectedLastBlock := h } := by
  have hl' : ¬ l.nAmount ≤ 0 := not_le.2 hl
  simp only [CollectedLootInfo.Collect, hc, hl', if_false, Bool.false_eq_true]

/-- The result of `Collect` for a loot without a positive amount. -/
theorem Collect_nonpos (c : CollectedLootInfo) (l : LootInfo) (h : Int)
    (hc : c.IsRefund = false) (hl : l.nAmount ≤ 0) : c.Collect l h = some c := by
  simp [CollectedLootInfo.Collect, hc, hl]

/-- C11: on a default-constructed `CollectedLootInfo`, `SetRefund
(refundAmount, h)` passes its assertions, sets `nAmount = refundAmount` and
`collectedLastBlock = h` and leaves `firstBlock`, `lastBlock` and
`collectedFirstBlock` at -1; the result is a refund if and only if
`refundAmount > 0`, and then `GetRefundHeight ()` returns `h`. -/
theorem C11_SetRefund_default (refundAmount : CAmount) (h : Int) :
    ∃ r, CollectedLootInfo.new.SetRefund refundAmount h = some r ∧
      r.nAmount = refundAmount ∧ r.collectedLastBlock = h ∧
      r.firstBlock = -1 ∧ r.lastBlock = -1 ∧ r.collectedFirstBlock = -1 ∧
      (r.IsRefund = true ↔ refundAmount > 0) ∧
      (refundAmount > 0 → r.GetRefundHeight = some h) := by
  refine ⟨{ CollectedLootInfo.new with nAmount := refundAmount, collectedLastBlock := h },
    rfl, rfl, rfl, rfl, rfl, rfl, ?_, ?_⟩
  · simp [CollectedLootInfo.IsRefund, CollectedLootInfo.new]
  · intro hpos
    simp [CollectedLootInfo.GetRefundHeight, CollectedLootInfo.IsRefund, CollectedLootInfo.new,
      hpos]

/-- C12: for a `CollectedLootInfo` `c` that is not a refund, `Collect (l, h)`
changes nothing when `l.nAmount <= 0`; otherwise it adds `l.nAmount` to
`nAmount` (as an `int64_t` addition, which is the exact sum when the sum is
an `int64_t`), sets `firstBlock` to `l.firstBlock` when the old one is
negative and to the minimum of the two otherwise, `lastBlock` to the maximum
of the two, `collectedFirstBlock` to `h` only when it was negative, and
`collectedLastBlock` to `h`.  On a refund the assertion of `Collect`
fails. -/
theorem C12_Collect (c : CollectedLootInfo) (l : LootInfo) (h : Int)
    (hc : c.IsRefund = false) :
    (l.nAmount ≤ 0 → c.Collect l h = some c) ∧
    (l.nAmount > 0 → ∃ r, c.Collect l h = some r ∧
      r.nAmount = toInt64 (c.nAmount + l.nAmount) ∧
      (IsInt64 (c.nAmount + l.nAmount) → r.nAmount = c.nAmount + l.nAmount) ∧
      r.firstBlock = (if c.firstBlock < 0 then l.firstBlock else min c.firstBlock l.firstBlock) ∧
      r.lastBlock = max c.lastBlock l.lastBlock ∧
      r.collectedFirstBlock =
        (if c.collectedFirstBlock < 0 then h else c.collectedFirstBlock) ∧
      r.collectedLastBlock = h) ∧
    (∀ refund : CollectedLootInfo, refund.IsRefund = true → refund.Collect l h = none) := by
  refine ⟨?_, ?_, ?_⟩
  · exact Collect_nonpos c l h hc
  · intro hl
    refine ⟨_, Collect_pos c l h hc hl, rfl, ?_, ?_, ?_, rfl, rfl⟩
    · intro hr
      exact toInt64_of_isInt64 _ hr
    · simp only
      by_cases h1 : c.firstBlock < 0
      · simp [h1]
      · by_cases h2 : l.firstBlock < c.firstBlock
        · simp [h1, h2, min_eq_right (le_of_lt h2)]
        · simp [h1, h2, min_eq_left (not_lt.1 h2)]
    · simp only
      by_cases h2 : l.lastBlock > c.lastBlock
      · simp [h2, max_eq_right (le_of_lt h2)]
      · simp [h2, max_eq_left (not_lt.1 h2)]
  · intro refund hr
    simp [CollectedLootInfo.Collect, hr]

/-- C12 at `sampleCollected` and `sampleLoot`: 7 + 5 coins, blocks 1 to 4,
collected from block 3 to block 9. -/
theorem C12_Collect_witness :
    sampleCollected.IsRefund = false ∧
    sampleCollected.Collect sampleLoot 9 =
      some { nAmount := 12, firstBlock := 1, lastBlock := 4,
             collectedFirstBlock := 3, collectedLastBlock := 9 } ∧
    sampleCollected.Collect ⟨0, 3, 4⟩ 9 = some sampleCollected :=
  ⟨by decide, by decide,
   (C12_Collect sampleCollected ⟨0, 3, 4⟩ 9 (by decide)).1 (by decide)⟩

/-! ## The claim on `distLInf` -/

theorem distLInf_eq (c1 c2 : Coord)
    (hx : -2147483648 < c1.x - c2.x ∧ c1.x - c2.x ≤ 2147483647)
    (hy : -2147483648 < c1.y - c2.y ∧ c1.y - c2.y ≤ 2147483647) :
    distLInf c1 c2 = max (c1.x - c2.x).natAbs (c1.y - c2.y).natAbs := by
  have h1 : toInt32 (c1.x - c2.x) = c1.x - c2.x := toInt32_of_isInt32 _ ⟨by omega, hx.2⟩
  have h2 : toInt32 (c1.y - c2.y) = c1.y - c2.y := toInt32_of_isInt32 _ ⟨by omega, hy.2⟩
  have h3 : absInt32 (c1.x - c2.x) = ((c1.x - c2.x).natAbs : Int) := by
    unfold absInt32
    rw [toInt32_of_isInt32 _ (by unfold IsInt32; split <;> omega)]
    split <;> omega
  have h4 : absInt32 (c1.y - c2.y) = ((c1.y - c2.y).natAbs : Int) := by
    unfold absInt32
    rw [toInt32_of_isInt32 _ (by unfold IsInt32; split <;> omega)]
    split <;> omega
  unfold distLInf
  rw [h1, h2, h3, h4]
  unfold toUInt32
  omega

/-- C13, as stated, fails: for `c1 = (-2147483648, 0)` and `c2 = (0, 0)` the
coordinates are `int`s and so are both differences (the first one is
`INT_MIN`), but `std::abs` overflows on `INT_MIN`: `distLInf` gives 0, and
the maximum of the absolute differences is 2147483648. -/
theorem C13_abs_of_int_min :
    IsInt32 (-2147483648) ∧ IsInt32 ((-2147483648 : Int) - 0) ∧ IsInt32 ((0 : Int) - 0) ∧
    distLInf ⟨-2147483648, 0⟩ ⟨0, 0⟩ = 0 ∧
    max ((-2147483648 : Int) - 0).natAbs ((0 : Int) - 0).natAbs = 2147483648 := by
  refine ⟨by unfold IsInt32; omega, by unfold IsInt32; omega, by unfold IsInt32; omega, ?_, ?_⟩
  · decide
  · decide

/-- C13, amended: for all coordinates whose coordinate differences do not
overflow an `int` and are not `INT_MIN` (so that `std::abs` does not overflow
either), `distLInf (c1, c2)` is the maximum of the absolute values of the two
differences. -/
theorem C13_distLInf_is_max (c1 c2 : Coord)
    (hx : IsInt32 (c1.x - c2.x) ∧ c1.x - c2.x ≠ -2147483648)
    (hy : IsInt32 (c1.y - c2.y) ∧ c1.y - c2.y ≠ -2147483648) :
    distLInf c1 c2 = max (c1.x - c2.x).natAbs (c1.y - c2.y).natAbs ∧
    (distLInf c1 c2 : Int) = max |c1.x - c2.x| |c1.y - c2.y| := by
  have h := distLInf_eq c1 c2
    ⟨lt_of_le_of_ne hx.1.1 (Ne.symm hx.2), hx.1.2⟩
    ⟨lt_of_le_of_ne hy.1.1 (Ne.symm hy.2), hy.1.2⟩
  refine ⟨h, ?_⟩
  rw [h]
  simp [Int.natCast_natAbs]

/-- C13 at `(3, -4)` and `(-2, 1)`: the distance is 5. -/
theorem C13_distLInf_is_max_witness :
    (IsInt32 ((3 : Int) - (-2)) ∧ (3 : Int) - (-2) ≠ -2147483648) ∧
    (IsInt32 ((-4 : Int) - 1) ∧ (-4 : Int) - 1 ≠ -2147483648) ∧
    distLInf ⟨3, -4⟩ ⟨-2, 1⟩ = 5 ∧
    distLInf ⟨3, -4⟩ ⟨-2, 1⟩ =
      max ((⟨3, -4⟩ : Coord).x - (⟨-2, 1⟩ : Coord).x).natAbs
        ((⟨3, -4⟩ : Coord).y - (⟨-2, 1⟩ : Coord).y).natAbs :=
  ⟨by unfold IsInt32; omega, by unfold IsInt32; omega, by decide,
   (C13_distLInf_is_max ⟨3, -4⟩ ⟨-2, 1⟩ (by unfold IsInt32; simp) (by unfold IsInt32; simp)).1⟩

/-! ## The claim on the order of `KilledByInfo` -/

/-- C14: for `KilledByInfo` values with different reasons, `a < b` holds
exactly when the reason of `a` comes before the reason of `b` in
`KILLED_DESTRUCT` (1) `< KILLED_SPAWN` (2) `< KILLED_POISON` (3), whatever
the killers; when both reasons are `KILLED_DESTRUCT`, `a < b` is
`a.killer < b.killer`; when both are the same other reason, neither `a < b`
nor `b < a` holds. -/
theorem C14_KilledByInfo_lt (charLess : CharacterID → CharacterID → Bool)
    (a b : KilledByInfo) :
    (a.reason ≠ b.reason →
      (KilledByInfo.lt charLess a b = true ↔ a.reason.toInt < b.reason.toInt)) ∧
    (Reason.KILLED_DESTRUCT.toInt = 1 ∧ Reason.KILLED_SPAWN.toInt = 2 ∧
      Reason.KILLED_POISON.toInt = 3) ∧
    (a.reason = .KILLED_DESTRUCT → b.reason = .KILLED_DESTRUCT →
      KilledByInfo.lt charLess a b = charLess a.killer b.killer) ∧
    (a.reason = b.reason → a.reason ≠ .KILLED_DESTRUCT →
      KilledByInfo.lt charLess a b = false ∧ KilledByInfo.lt charLess b a = false) := by
  refine ⟨?_, ⟨rfl, rfl, rfl⟩, ?_, ?_⟩
  · intro hne
    simp [KilledByInfo.lt, hne]
  · intro ha hb
    simp [KilledByInfo.lt, ha, hb]
  · intro heq hnd
    have hnd' : b.reason ≠ .KILLED_DESTRUCT := heq ▸ hnd
    constructor
    · unfold KilledByInfo.lt
      rw [if_neg (not_not.2 heq)]
      split
      · rename_i h
        exact absurd h hnd
      · rfl
    · unfold KilledByInfo.lt
      rw [if_neg (not_not.2 heq.symm)]
      split
      · rename_i h
        exact absurd h hnd'
      · rfl

/-! ## Further claims on `CreateGameTransactions` -/

/-- C15: the result of `CreateGameTransactions` (the returned flag and the
final content of `vGameTx`) does not depend on the content of `vGameTx` at
the call, and a second run on the output of the first one gives the same
result again. -/
theorem C15_result_independent_of_vGameTx (env : Host) (view : CCoinsView)
    (stepResult : StepResult) :
    (∀ v1 v2 : List CTransaction,
      CreateGameTransactions env view stepResult v1 =
        CreateGameTransactions env view stepResult v2) ∧
    (∀ (v1 : List CTransaction) (ok : Bool) (txs : List CTransaction),
      CreateGameTransactions env view stepResult v1 = some (ok, txs) →
      CreateGameTransactions env view stepResult txs = some (ok, txs)) := by
  have h : ∀ v1 v2 : List CTransaction,
      CreateGameTransactions env view stepResult v1 =
        CreateGameTransactions env view stepResult v2 := by
    intro v1 v2
    rfl
  exact ⟨h, fun v1 ok txs hrun => (h txs v1).trans hrun⟩

/-! ## Further claims on serialisation -/

/-- C16: for a serialisation type without the bit `SER_DISK`, the first
statement of `GameState::SerializationOp`, the assertion, fails: writing
fails for every state, and reading fails for every object and every stream
(the empty one too: nothing is read before). -/
theorem C16_SER_DISK_only (nType : Nat) (h : nType &&& SER_DISK = 0) :
    (∃ cond rest, GameState.SerializationOp nType = Op.assert cond :: rest ∧
      ∀ s, cond s = false) ∧
    (∀ s, GameState.Serialize nType s = .error .assertFailed) ∧
    (∀ t st, GameState.Unserialize nType t st = .error .assertFailed) := by
  refine ⟨⟨_, _, rfl, fun s => by simp [h]⟩, ?_, ?_⟩
  · intro s
    unfold GameState.Serialize GameState.SerializationOp
    simp only [writeOps, Op.write, h, ne_eq, not_true_eq_false, decide_False,
      Bool.false_eq_true, if_false]
  · intro t st
    unfold GameState.Unserialize GameState.SerializationOp
    simp only [readOps, Op.read, h, ne_eq, not_true_eq_false, decide_False,
      Bool.false_eq_true, if_false]

/-- C16 at the type 1 (`SER_NETWORK`) and `sampleState`. -/
theorem C16_SER_DISK_only_witness :
    1 &&& SER_DISK = 0 ∧
    GameState.Serialize 1 sampleState = .error .assertFailed ∧
    GameState.Unserialize 1 sampleTarget [] = .error .assertFailed :=
  ⟨by decide, (C16_SER_DISK_only 1 (by decide)).2.1 sampleState,
   (C16_SER_DISK_only 1 (by decide)).2.2 sampleTarget []⟩

/-! ## The claims on the snapshot of characters and players -/

theorem writeOps_append {σ : Type} (a b : List (Op σ)) (s : σ) :
    writeOps (a ++ b) s =
      match writeOps a s with
      | .error e => .error e
      | .ok x =>
        match writeOps b s with
        | .error e => .error e
        | .ok y => .ok (x ++ y) := by
  induction a with
  | nil =>
    cases hb : writeOps b s <;> simp [writeOps, hb]
  | cons op a ih =>
    have h1 : writeOps (op :: (a ++ b)) s =
        match op.write s with
        | .error e => .error e
        | .ok x0 =>
          match writeOps (a ++ b) s with
          | .error e => .error e
          | .ok y => .ok (x0 ++ y) := rfl
    have h2 : writeOps (op :: a) s =
        match op.write s with
        | .error e => .error e
        | .ok x0 =>
          match writeOps a s with
          | .error e => .error e
          | .ok y => .ok (x0 ++ y) := rfl
    rw [List.cons_append, h1, h2, ih]
    cases op.write s with
    | error e => rfl
    | ok x0 =>
      cases writeOps a s with
      | error e => rfl
      | ok x =>
        cases writeOps b s with
        | error e => rfl
        | ok y => simp [List.append_assoc]

/-- The stream written by a body ends with what its statements from
statement `k` on write. -/
theorem writeOps_suffix {σ : Type} (ops : List (Op σ)) (k : Nat) (s : σ)
    (bytes suffix : Stream) (h : writeOps ops s = .ok bytes)
    (hs : writeOps (ops.drop k) s = .ok suffix) :
    ∃ pre, writeOps (ops.take k) s = .ok pre ∧ bytes = pre ++ suffix := by
  rw [← List.take_append_drop k ops, writeOps_append, hs] at h
  cases hpre : writeOps (ops.take k) s with
  | error e => simp [hpre] at h
  | ok pre =>
    simp only [hpre, Except.ok.injEq] at h
    exact ⟨pre, rfl, h.symm⟩

theorem CharacterState_reserved_written (c : CharacterState) :
    writeOps (CharacterState.SerializationOp.drop 43) c = .ok c.reservedItems := rfl

theorem PlayerState_reserved_written (p : PlayerState) :
    writeOps (PlayerState.SerializationOp.drop 29) p = .ok p.reservedItems := rfl

/-- C17: the constructors set every reserved field to 0 (the reserved
strings are empty); `CharacterState::SerializationOp` and
`PlayerState::SerializationOp` write each reserved field with the value it
has (the stream ends with the items of the reserved fields, in the order of
the body), and reading what was written restores the state, so each reserved
field has exactly the written value again. -/
theorem C17_reserved_fields (c : CharacterState) (p : PlayerState) (cbytes pbytes : Stream)
    (hc : CharacterState.codec.ser c = .ok cbytes)
    (hwf : p.WellFormed) (hp : PlayerState.codec.ser p = .ok pbytes) :
    (CharacterState.new.ch_reserve_uc1 = 0 ∧
    CharacterState.new.ch_reserve_uc2 = 0 ∧
    CharacterState.new.ch_reserve_uc3 = 0 ∧
    CharacterState.new.ch_reserve_uc4 = 0 ∧
    CharacterState.new.ch_reserve_uc5 = 0 ∧
    CharacterState.new.ch_reserve_ll1 = 0 ∧
    CharacterState.new.ch_reserve_ll2 = 0 ∧
    CharacterState.new.ch_reserve_ll3 = 0 ∧
    CharacterState.new.ch_reserve_ll4 = 0 ∧
    CharacterState.new.ch_reserve_ll5 = 0 ∧
    CharacterState.new.ch_reserve1 = 0 ∧
    CharacterState.new.ch_reserve2 = 0 ∧
    CharacterState.new.ch_reserve3 = 0 ∧
    CharacterState.new.ch_reserve4 = 0 ∧
    CharacterState.new.ch_reserve5 = 0) ∧
    (PlayerState.new.pl_reserve_s1 = [] ∧
    PlayerState.new.pl_reserve_s2 = [] ∧
    PlayerState.new.pl_reserve_s3 = [] ∧
    PlayerState.new.pl_reserve_s4 = [] ∧
    PlayerState.new.pl_reserve_s5 = [] ∧
    PlayerState.new.pl_reserve_s6 = [] ∧
    PlayerState.new.pl_reserve_s7 = [] ∧
    PlayerState.new.pl_reserve_s8 = [] ∧
    PlayerState.new.pl_reserve_s9 = [] ∧
    PlayerState.new.pl_reserve_ll1 = 0 ∧
    PlayerState.new.pl_reserve_ll2 = 0 ∧
    PlayerState.new.pl_reserve_ll3 = 0 ∧
    PlayerState.new.pl_reserve_ll4 = 0 ∧
    PlayerState.new.pl_reserve_ll5 = 0 ∧
    PlayerState.new.pl_reserve_ll6 = 0 ∧
    PlayerState.new.pl_reserve_ll7 = 0 ∧
    PlayerState.new.pl_reserve_ll8 = 0 ∧
    PlayerState.new.pl_reserve_ll9 = 0 ∧
    PlayerState.new.pl_reserve2 = 0 ∧
    PlayerState.new.pl_reserve3 = 0 ∧
    PlayerState.new.pl_reserve4 = 0 ∧
    PlayerState.new.pl_reserve5 = 0 ∧
    PlayerState.new.pl_reserve6 = 0 ∧
    PlayerState.new.pl_reserve7 = 0 ∧
    PlayerState.new.pl_reserve8 = 0 ∧
    PlayerState.new.pl_reserve9 = 0) ∧
    (∃ pre, cbytes = pre ++ c.reservedItems) ∧
    (∀ t rest, CharacterState.codec.unser t (cbytes ++ rest) = .ok (c, rest)) ∧
    (∃ pre, pbytes = pre ++ p.reservedItems) ∧
    (∀ t rest, PlayerState.codec.unser t (pbytes ++ rest) = .ok (p, rest)) := by
  refine ⟨by decide, by decide, ?_, ?_, ?_, ?_⟩
  · obtain ⟨pre, _, hpre⟩ := writeOps_suffix CharacterState.SerializationOp 43 c cbytes
      c.reservedItems hc (CharacterState_reserved_written c)
    exact ⟨pre, hpre⟩
  · intro t rest
    exact CharacterState_codec_roundTrips c t cbytes rest hc
  · obtain ⟨pre, _, hpre⟩ := writeOps_suffix PlayerState.SerializationOp 29 p pbytes
      p.reservedItems hp (PlayerState_reserved_written p)
    exact ⟨pre, hpre⟩
  · intro t rest
    exact PlayerState_codec_roundTrips p hwf t pbytes rest hp

theorem sampleReservedPlayer_wellFormed : sampleReservedPlayer.WellFormed := by
  simp [PlayerState.WellFormed, sortedKeys, sampleReservedPlayer, samplePlayer]

theorem sampleReservedPlayer_noRefund :
    ∀ c ∈ sampleReservedPlayer.characters, c.2.loot.IsRefund = false := by
  simp [sampleReservedPlayer, samplePlayer, CollectedLootInfo.IsRefund]

/-- C17 at `sampleReservedCharacter` and `sampleReservedPlayer`, read into
default-constructed objects. -/
theorem C17_reserved_fields_witness :
    CharacterState.codec.ser sampleReservedCharacter = .ok sampleCharacterStream ∧
    sampleReservedPlayer.WellFormed ∧
    PlayerState.codec.ser sampleReservedPlayer = .ok samplePlayerStream ∧
    (∃ pre, sampleCharacterStream = pre ++ sampleReservedCharacter.reservedItems) ∧
    CharacterState.codec.unser CharacterState.new (sampleCharacterStream ++ []) =
      .ok (sampleReservedCharacter, []) ∧
    (∃ pre, samplePlayerStream = pre ++ sampleReservedPlayer.reservedItems) ∧
    PlayerState.codec.unser PlayerState.new (samplePlayerStream ++ []) =
      .ok (sampleReservedPlayer, []) :=
  ⟨rfl, sampleReservedPlayer_wellFormed, rfl,
   (C17_reserved_fields sampleReservedCharacter sampleReservedPlayer sampleCharacterStream
      samplePlayerStream rfl sampleReservedPlayer_wellFormed rfl).2.2.1,
   (C17_reserved_fields sampleReservedCharacter sampleReservedPlayer sampleCharacterStream
      samplePlayerStream rfl sampleReservedPlayer_wellFormed rfl).2.2.2.1 CharacterState.new [],
   (C17_reserved_fields sampleReservedCharacter sampleReservedPlayer sampleCharacterStream
      samplePlayerStream rfl sampleReservedPlayer_wellFormed rfl).2.2.2.2.1,
   (C17_reserved_fields sampleReservedCharacter sampleReservedPlayer sampleCharacterStream
      samplePlayerStream rfl sampleReservedPlayer_wellFormed rfl).2.2.2.2.2 PlayerState.new []⟩

/-! ## The claim on the minimum fee of name updates -/

theorem nameUpdateFee_ge (value : valtype) : NAME_UPDATE_MIN_FEE ≤ nameUpdateFee value := by
  unfold nameUpdateFee
  have h : (0 : Int) ≤ NAME_UPDATE_LEN_FEE * ((value.length / 100 : Nat) : Int) :=
    Int.mul_nonneg (by decide) (Int.ofNat_nonneg _)
  exact le_add_of_nonneg_right h

theorem foldl_minFeeStep (names : NameScripts) (vout : List CTxOut) (res : CAmount) :
    vout.foldl (minFeeStep names) res =
      ((nameUpdateValues names ⟨false, [], vout⟩).map nameUpdateFee).foldl max res := by
  induction vout generalizing res with
  | nil => rfl
  | cons txout vout ih =>
    simp only [List.foldl_cons, ih, nameUpdateValues, List.filterMap_cons, minFeeStep]
    cases hop : names.nameOp txout.scriptPubKey with
    | none => rfl
    | some p =>
      obtain ⟨op, value⟩ := p
      by_cases hupd : op = names.OP_NAME_UPDATE
      · simp [hupd]
      · simp [hupd]

theorem foldl_max_bounds (fees : List Int) (res : Int) :
    res ≤ fees.foldl max res ∧ (∀ f ∈ fees, f ≤ fees.foldl max res) ∧
    (fees.foldl max res = res ∨ fees.foldl max res ∈ fees) := by
  induction fees generalizing res with
  | nil => simp
  | cons f fees ih =>
    obtain ⟨h1, h2, h3⟩ := ih (max res f)
    simp only [List.foldl_cons, List.mem_cons]
    refine ⟨le_trans (le_max_left _ _) h1, ?_, ?_⟩
    · intro g hg
      rcases hg with rfl | hg
      · exact le_trans (le_max_right _ _) h1
      · exact h2 g hg
    · rcases h3 with h3 | h3
      · rcases max_cases res f with ⟨hm, _⟩ | ⟨hm, _⟩
        · exact Or.inl (h3.trans hm)
        · exact Or.inr (Or.inl (h3.trans hm))
      · exact Or.inr (Or.inr h3)

/-- C18: `GetHuntercoinMinFee (tx)` is 0 when `tx` is not a Namecoin
transaction or has no name-update output; otherwise it is the maximum, over
the name-update outputs, of `COIN / 100 + (COIN / 500) * (L / 100)` with `L`
the length of the value of the name operation: it is the fee of one of the
outputs and no output has a larger fee.  The fee of a name update is at
least `COIN / 100` and grows by `COIN / 500` with each full 100 bytes. -/
theorem C18_GetHuntercoinMinFee (names : NameScripts) (tx : CTransaction) :
    (names.IsNamecoin tx = false → GetHuntercoinMinFee names tx = 0) ∧
    (nameUpdateValues names tx = [] → GetHuntercoinMinFee names tx = 0) ∧
    (names.IsNamecoin tx = true → nameUpdateValues names tx ≠ [] →
      (∃ value ∈ nameUpdateValues names tx,
        GetHuntercoinMinFee names tx =
          COIN / 100 + (COIN / 500) * ((value.length / 100 : Nat) : Int)) ∧
      (∀ value ∈ nameUpdateValues names tx,
        COIN / 100 + (COIN / 500) * ((value.length / 100 : Nat) : Int) ≤
          GetHuntercoinMinFee names tx)) ∧
    (∀ value : valtype,
      nameUpdateFee value = COIN / 100 + (COIN / 500) * ((value.length / 100 : Nat) : Int) ∧
      COIN / 100 ≤ nameUpdateFee value ∧
      (∀ more : valtype, more.length = value.length + 100 →
        nameUpdateFee more = nameUpdateFee value + COIN / 500)) ∧
    (COIN / 100 = 1000000 ∧ COIN / 500 = 200000) := by
  have hvals : nameUpdateValues names ⟨false, [], tx.vout⟩ = nameUpdateValues names tx := rfl
  have hfold := foldl_minFeeStep names tx.vout 0
  rw [hvals] at hfold
  refine ⟨?_, ?_, ?_, ?_, by decide⟩
  · intro h
    simp [GetHuntercoinMinFee, h]
  · intro h
    unfold GetHuntercoinMinFee
    split
    · rfl
    · rw [hfold, h]
      rfl
  · intro hn hne
    have hres : GetHuntercoinMinFee names tx =
        ((nameUpdateValues names tx).map nameUpdateFee).foldl max 0 := by
      simp [GetHuntercoinMinFee, hn, hfold]
    obtain ⟨_, h2, h3⟩ := foldl_max_bounds ((nameUpdateValues names tx).map nameUpdateFee) 0
    rw [← hres] at h2 h3
    constructor
    · rcases h3 with h3 | h3
      · obtain ⟨v, vs, hv⟩ := List.exists_cons_of_ne_nil hne
        have hmem : v ∈ nameUpdateValues names tx := by simp [hv]
        have hle := h2 (nameUpdateFee v) (List.mem_map_of_mem _ hmem)
        have hge := nameUpdateFee_ge v
        have hpos : (0 : Int) < NAME_UPDATE_MIN_FEE := by decide
        rw [h3] at hle
        exact absurd (lt_of_lt_of_le hpos (le_trans hge hle)) (lt_irrefl _)
      · obtain ⟨value, hvalue, hfee⟩ := List.mem_map.1 h3
        exact ⟨value, hvalue, hfee.symm⟩
    · intro value hvalue
      exact h2 (nameUpdateFee value) (List.mem_map_of_mem _ hvalue)
  · intro value
    refine ⟨rfl, nameUpdateFee_ge value, ?_⟩
    intro more hmore
    unfold nameUpdateFee
    rw [hmore]
    have : (value.length + 100) / 100 = value.length / 100 + 1 := by omega
    rw [this]
    unfold NAME_UPDATE_LEN_FEE
    push_cast
    ring

set_option maxRecDepth 8192 in
/-- C18 at `sampleNameTx`: updates with value lengths 3 and 250 have the
fees 1000000 and 1400000, and the minimum fee is 1400000, not their sum. -/
theorem C18_GetHuntercoinMinFee_witness :
    sampleNames.IsNamecoin sampleNameTx = true ∧
    (nameUpdateValues sampleNames sampleNameTx).map List.length = [3, 250] ∧
    GetHuntercoinMinFee sampleNames sampleNameTx = 1400000 ∧
    (∀ value ∈ nameUpdateValues sampleNames sampleNameTx,
      COIN / 100 + (COIN / 500) * ((value.length / 100 : Nat) : Int) ≤
        GetHuntercoinMinFee sampleNames sampleNameTx) :=
  ⟨by decide, by decide, by decide,
   ((C18_GetHuntercoinMinFee sampleNames sampleNameTx).2.2.1 (by decide) (by decide)).2⟩

/-! ## The claim on the selection of the chain parameters -/

/-- C19: with three different chain names, `Params (chain)` returns
`mainParams` for the main name, `testNetParams` for the testnet name and
`regTestParams` for the regtest name, and throws `std::runtime_error` for
every other string; after `SelectParams (network)` with one of the three
names (for which `SelectBaseParams` returns), `Params ()` returns the object
that `Params (network)` returns; and `Params ()` fails its assertion while
`pCurrentParams` is null, as it is until the first `SelectParams`. -/
theorem C19_Params (base : CBaseChainParams)
    (hnames : base.MAIN ≠ base.TESTNET ∧ base.MAIN ≠ base.REGTEST ∧
      base.TESTNET ≠ base.REGTEST)
    (hbase : base.SelectBaseParams base.MAIN = true ∧
      base.SelectBaseParams base.TESTNET = true ∧ base.SelectBaseParams base.REGTEST = true) :
    (ParamsChain base base.MAIN = .ok .mainParams ∧
      ParamsChain base base.TESTNET = .ok .testNetParams ∧
      ParamsChain base base.REGTEST = .ok .regTestParams) ∧
    (∀ chain, chain ≠ base.MAIN → chain ≠ base.TESTNET → chain ≠ base.REGTEST →
      ParamsChain base chain = .error .runtime_error) ∧
    (∀ network, network = base.MAIN ∨ network = base.TESTNET ∨ network = base.REGTEST →
      ∃ p, SelectParams base network = .ok (some p) ∧ Params (some p) = .ok p ∧
        ParamsChain base network = .ok p) ∧
    Params none = .error .assertFailed := by
  obtain ⟨h1, h2, h3⟩ := hnames
  obtain ⟨b1, b2, b3⟩ := hbase
  have hmain : ParamsChain base base.MAIN = .ok .mainParams := by simp [ParamsChain]
  have htest : ParamsChain base base.TESTNET = .ok .testNetParams := by
    simp [ParamsChain, Ne.symm h1]
  have hreg : ParamsChain base base.REGTEST = .ok .regTestParams := by
    simp [ParamsChain, Ne.symm h2, Ne.symm h3]
  refine ⟨⟨hmain, htest, hreg⟩, ?_, ?_, rfl⟩
  · intro chain c1 c2 c3
    simp [ParamsChain, c1, c2, c3]
  · intro network hn
    rcases hn with rfl | rfl | rfl
    · exact ⟨.mainParams, by simp [SelectParams, b1, hmain], rfl, hmain⟩
    · exact ⟨.testNetParams, by simp [SelectParams, b2, htest], rfl, htest⟩
    · exact ⟨.regTestParams, by simp [SelectParams, b3, hreg], rfl, hreg⟩

/-- C19 at the names `main`, `test` and `regtest`: selecting `test` makes
`Params ()` return `testNetParams`, whose `strNetworkID` is `test`. -/
theorem C19_Params_witness :
    (sampleBase.MAIN ≠ sampleBase.TESTNET ∧ sampleBase.MAIN ≠ sampleBase.REGTEST ∧
      sampleBase.TESTNET ≠ sampleBase.REGTEST) ∧
    (sampleBase.SelectBaseParams sampleBase.MAIN = true ∧
      sampleBase.SelectBaseParams sampleBase.TESTNET = true ∧
      sampleBase.SelectBaseParams sampleBase.REGTEST = true) ∧
    SelectParams sampleBase [116, 101, 115, 116] = .ok (some .testNetParams) ∧
    ChainParamsObject.testNetParams.strNetworkID = sampleBase.TESTNET ∧
    (ParamsChain sampleBase sampleBase.MAIN = .ok .mainParams ∧
      ParamsChain sampleBase sampleBase.TESTNET = .ok .testNetParams ∧
      ParamsChain sampleBase sampleBase.REGTEST = .ok .regTestParams) :=
  ⟨by decide, by decide, rfl, rfl,
   (C19_Params sampleBase (by decide) (by decide)).1⟩

/-! ## Claims on the failures of `CreateGameTransactions` -/

theorem killInput_reason_iff (env : Host) (view : CCoinsView) (killedBy : KilledByMap)
    (victim : PlayerID) (txin : CTxIn)
    (h : killInput env view killedBy victim = .value txin) :
    ∃ first rest, killedBy.equal_range victim = first :: rest ∧
      (first.2.reason = .KILLED_DESTRUCT ↔
        ∃ killers, txin.scriptSig =
          .data (ValtypeFromString victim) :: .num GAMEOP_KILLED_BY ::
            .data (ValtypeFromString (env.ToString first.2.killer)) :: killers) ∧
      (first.2.reason = .KILLED_SPAWN ↔
        txin.scriptSig = [.data (ValtypeFromString victim), .num GAMEOP_KILLED_BY]) ∧
      (first.2.reason = .KILLED_POISON ↔
        txin.scriptSig = [.data (ValtypeFromString victim), .num GAMEOP_KILLED_POISON]) := by
  obtain ⟨first, rest, hrange, hsig⟩ := killInput_scriptSig env view killedBy victim txin h
  refine ⟨first, rest, hrange, ?_⟩
  cases hreason : first.2.reason with
  | KILLED_DESTRUCT =>
    rw [hreason] at hsig
    simp only [List.takeWhile_cons, hreason, decide_True, if_true, List.map_cons,
      List.cons_append, List.nil_append] at hsig
    rw [hsig]
    simp [GAMEOP_KILLED_BY, GAMEOP_KILLED_POISON]
  | KILLED_SPAWN =>
    rw [hreason] at hsig
    simp only at hsig
    rw [hsig]
    simp [GAMEOP_KILLED_BY, GAMEOP_KILLED_POISON]
  | KILLED_POISON =>
    rw [hreason] at hsig
    simp only at hsig
    rw [hsig]
    simp [GAMEOP_KILLED_BY, GAMEOP_KILLED_POISON]

/-- C23: when `CreateGameTransactions` returns true, the scriptSig of each
kill input tells the reason it was built for (the reason of the victim's
first killed-by entry): it was built for `KILLED_DESTRUCT` exactly when at
least one killer follows `GAMEOP_KILLED_BY`, for `KILLED_SPAWN` exactly when
it is the victim and `GAMEOP_KILLED_BY` with no killer, and for
`KILLED_POISON` exactly when it is the victim and `GAMEOP_KILLED_POISON`. -/
theorem C23_scriptSig_tells_reason (env : Host) (view : CCoinsView) (stepResult : StepResult)
    (vGameTx txs : List CTransaction)
    (h : CreateGameTransactions env view stepResult vGameTx = some (true, txs)) :
    ∃ vin, (stepResult.GetKilledPlayers ≠ [] → ∃ txKills, txs.head? = some txKills ∧
        txKills.vin = vin) ∧
      List.Forall₂ (fun victim txin =>
        ∃ first rest, stepResult.GetKilledBy.equal_range victim = first :: rest ∧
          (first.2.reason = .KILLED_DESTRUCT ↔
            ∃ killers, txin.scriptSig =
              .data (ValtypeFromString victim) :: .num 1 ::
                .data (ValtypeFromString (env.ToString first.2.killer)) :: killers) ∧
          (first.2.reason = .KILLED_SPAWN ↔
            txin.scriptSig = [.data (ValtypeFromString victim), .num 1]) ∧
          (first.2.reason = .KILLED_POISON ↔
            txin.scriptSig = [.data (ValtypeFromString victim), .num 3]))
        stepResult.GetKilledPlayers vin := by
  obtain ⟨vin, ps, hk, _, htxs⟩ :=
    (CreateGameTransactions_true_iff env view stepResult vGameTx txs).1 h
  obtain ⟨_, hknil⟩ := killInputs_value_nil_iff env view _ _ vin hk
  refine ⟨vin, ?_, ?_⟩
  · intro hne
    have hv : vin ≠ [] := fun hv => hne (hknil.1 hv)
    exact ⟨⟨true, vin, []⟩, by rw [htxs]; simp [hv], rfl⟩
  · refine List.Forall₂.imp ?_ ((killInputs_value_iff env view _ _ vin).1 hk)
    intro victim txin hvalue
    exact killInput_reason_iff env view _ victim txin hvalue

/-- C23 at `sampleStep`: `[97]` was destructed (two killers listed), `[98]`
was killed for staying in the spawn area (no killer). -/
theorem C23_scriptSig_tells_reason_witness :
    CreateGameTransactions sampleHost sampleView sampleStep [] = some (true, sampleGameTx) ∧
    ∃ vin, (sampleStep.GetKilledPlayers ≠ [] → ∃ txKills, sampleGameTx.head? = some txKills ∧
        txKills.vin = vin) ∧
      List.Forall₂ (fun victim txin =>
        ∃ first rest, sampleStep.GetKilledBy.equal_range victim = first :: rest ∧
          (first.2.reason = .KILLED_DESTRUCT ↔
            ∃ killers, txin.scriptSig =
              .data (ValtypeFromString victim) :: .num 1 ::
                .data (ValtypeFromString (sampleHost.ToString first.2.killer)) :: killers) ∧
          (first.2.reason = .KILLED_SPAWN ↔
            txin.scriptSig = [.data (ValtypeFromString victim), .num 1]) ∧
          (first.2.reason = .KILLED_POISON ↔
            txin.scriptSig = [.data (ValtypeFromString victim), .num 3]))
        sampleStep.GetKilledPlayers vin :=
  ⟨by decide, C23_scriptSig_tells_reason sampleHost sampleView sampleStep [] sampleGameTx
    (by decide)⟩

/-- The conditions under which the loop body for a killed player reaches
`push_back`: the name is in the view, the player has a killed-by entry, and
the first two entries do not share a reason that is not destruct. -/
theorem killInput_value_iff (env : Host) (view : CCoinsView) (killedBy : KilledByMap)
    (victim : PlayerID) :
    (∃ txin, killInput env view killedBy victim = .value txin) ↔
      (view.GetName (ValtypeFromString victim) ≠ none ∧
        killedBy.equal_range victim ≠ [] ∧
        ¬ ∃ first second rest, killedBy.equal_range victim = first :: second :: rest ∧
          first.2.reason ≠ .KILLED_DESTRUCT ∧ first.2.reason = second.2.reason) := by
  have hna := killInput_ne_assertFailed env view killedBy victim
  unfold killInput at hna ⊢
  simp only at hna ⊢
  cases hname : view.GetName (ValtypeFromString victim) with
  | none => simp
  | some data =>
    cases hrange : killedBy.equal_range victim with
    | nil => simp
    | cons first rest =>
      simp only [hname, hrange] at hna
      cases rest with
      | nil =>
        simp only [Bool.false_eq_true, and_false, if_false] at hna ⊢
        cases hreason : first.2.reason with
        | KILLED_DESTRUCT =>
          simp only [hreason] at hna ⊢
          cases hd : destructKillers env true [first] with
          | none => simp [hd] at hna
          | some killers => simp
        | KILLED_SPAWN => simp
        | KILLED_POISON => simp
      | cons second rest =>
        simp only at hna ⊢
        by_cases hsame : first.2.reason ≠ .KILLED_DESTRUCT ∧ first.2.reason = second.2.reason
        · have hcond : (first.2.reason ≠ .KILLED_DESTRUCT ∧
              decide (first.2.reason = second.2.reason) = true) :=
            ⟨hsame.1, by simp [hsame.2]⟩
          rw [if_pos hcond]
          constructor
          · rintro ⟨txin, h⟩
            cases h
          · rintro ⟨_, _, hno⟩
            exact absurd ⟨first, second, rest, rfl, hsame.1, hsame.2⟩ hno
        · have hcond : ¬ (first.2.reason ≠ .KILLED_DESTRUCT ∧
              decide (first.2.reason = second.2.reason) = true) := by
            simpa using hsame
          simp only [hcond, if_false] at hna ⊢
          have hrhs : (some data ≠ none ∧ first :: second :: rest ≠ [] ∧
              ¬ ∃ f s r, first :: second :: rest = f :: s :: r ∧
                f.2.reason ≠ .KILLED_DESTRUCT ∧ f.2.reason = s.2.reason) := by
            refine ⟨by simp, by simp, ?_⟩
            rintro ⟨f, s, r, heq, h1, h2⟩
            simp only [List.cons.injEq] at heq
            obtain ⟨rfl, rfl, _⟩ := heq
            exact hsame ⟨h1, h2⟩
          simp only [hrhs, iff_true]
          cases hreason : first.2.reason with
          | KILLED_DESTRUCT =>
            simp only [hreason] at hna ⊢
            cases hd : destructKillers env true (first :: second :: rest) with
            | none => simp [hd] at hna
            | some killers => simp
          | KILLED_SPAWN => simp
          | KILLED_POISON => simp

/-- The conditions under which the loop body for a bounty reaches its
end. -/
theorem bountyPair_value_iff (env : Host) (view : CCoinsView) (bounty : CollectedBounty) :
    (∃ p, bountyPair env view bounty = .value p) ↔
      (view.GetName (ValtypeFromString bounty.character.player) ≠ none ∧
        (bounty.address ≠ [] → env.IsValid bounty.address = true)) := by
  constructor
  · rintro ⟨p, hp⟩
    obtain ⟨data, hdata, hvalid, _, _⟩ := bountyPair_value env view bounty p hp
    exact ⟨by simp [hdata], hvalid⟩
  · rintro ⟨hname, hvalid⟩
    have hna := bountyPair_ne_assertFailed env view bounty
    cases hb : bountyPair env view bounty with
    | assertFailed => exact absurd hb hna
    | value p => exact ⟨p, rfl⟩
    | returnedFalse =>
      exfalso
      unfold bountyPair at hb
      simp only at hb
      cases hdata : view.GetName (ValtypeFromString bounty.character.player) with
      | none => exact hname hdata
      | some data =>
        simp only [hdata] at hb
        by_cases haddr : bounty.address = []
        · by_cases href : bounty.loot.IsRefund = true
          · simp [haddr, href, CollectedLootInfo.GetRefundHeight] at hb
          · simp [haddr, href] at hb
        · by_cases href : bounty.loot.IsRefund = true
          · simp [haddr, href, hvalid haddr, CollectedLootInfo.GetRefundHeight] at hb
          · simp [haddr, href, hvalid haddr] at hb

theorem forall₂_of_forall_exists {α β : Type} (R : α → β → Prop) (l1 : List α)
    (h : ∀ a ∈ l1, ∃ b, R a b) : ∃ l2, List.Forall₂ R l1 l2 := by
  induction l1 with
  | nil => exact ⟨[], List.Forall₂.nil⟩
  | cons a l ih =>
    obtain ⟨b, hb⟩ := h a (List.mem_cons_self _ _)
    obtain ⟨l2, hl2⟩ := ih (fun x hx => h x (List.mem_cons_of_mem _ hx))
    exact ⟨b :: l2, List.Forall₂.cons hb hl2⟩

theorem killInputs_exists_iff (env : Host) (view : CCoinsView) (killedBy : KilledByMap)
    (victims : List PlayerID) :
    (∃ vin, killInputs env view killedBy victims = .value vin) ↔
      ∀ v ∈ victims, ∃ txin, killInput env view killedBy v = .value txin := by
  constructor
  · rintro ⟨vin, h⟩
    exact forall₂_left_exists _ _ _ ((killInputs_value_iff env view killedBy victims vin).1 h)
  · intro h
    obtain ⟨vin, hvin⟩ := forall₂_of_forall_exists _ victims h
    exact ⟨vin, (killInputs_value_iff env view killedBy victims vin).2 hvin⟩

theorem bountyPairs_exists_iff (env : Host) (view : CCoinsView)
    (bounties : List CollectedBounty) :
    (∃ ps, bountyPairs env view bounties = .value ps) ↔
      ∀ b ∈ bounties, ∃ p, bountyPair env view b = .value p := by
  constructor
  · rintro ⟨ps, h⟩
    exact forall₂_left_exists _ _ _ ((bountyPairs_value_iff env view bounties ps).1 h)
  · intro h
    obtain ⟨ps, hps⟩ := forall₂_of_forall_exists _ bounties h
    exact ⟨ps, (bountyPairs_value_iff env view bounties ps).2 hps⟩

/-- C24: `CreateGameTransactions` returns true if and only if every killed
player has an entry in the name view and at least one killed-by entry, no
killed player's first two killed-by entries share a reason other than
destruct, every bounty's player has an entry in the name view, and every
non-empty bounty address is valid. -/
theorem C24_returns_true_iff (env : Host) (view : CCoinsView) (stepResult : StepResult)
    (vGameTx : List CTransaction) :
    (∃ txs, CreateGameTransactions env view stepResult vGameTx = some (true, txs)) ↔
      ((∀ victim ∈ stepResult.GetKilledPlayers,
          view.GetName (ValtypeFromString victim) ≠ none ∧
          stepResult.GetKilledBy.equal_range victim ≠ [] ∧
          ¬ ∃ first second rest,
            stepResult.GetKilledBy.equal_range victim = first :: second :: rest ∧
            first.2.reason ≠ .KILLED_DESTRUCT ∧ first.2.reason = second.2.reason) ∧
       (∀ bounty ∈ stepResult.bounties,
          view.GetName (ValtypeFromString bounty.character.player) ≠ none ∧
          (bounty.address ≠ [] → env.IsValid bounty.address = true))) := by
  constructor
  · rintro ⟨txs, h⟩
    obtain ⟨vin, ps, hk, hb, _⟩ :=
      (CreateGameTransactions_true_iff env view stepResult vGameTx txs).1 h
    constructor
    · intro victim hv
      exact (killInput_value_iff env view _ victim).1
        ((killInputs_exists_iff env view _ _).1 ⟨vin, hk⟩ victim hv)
    · intro bounty hbm
      exact (bountyPair_value_iff env view bounty).1
        ((bountyPairs_exists_iff env view _).1 ⟨ps, hb⟩ bounty hbm)
  · rintro ⟨hkills, hbounties⟩
    obtain ⟨vin, hk⟩ := (killInputs_exists_iff env view stepResult.GetKilledBy
      stepResult.GetKilledPlayers).2
      (fun v hv => (killInput_value_iff env view _ v).2 (hkills v hv))
    obtain ⟨ps, hb⟩ := (bountyPairs_exists_iff env view stepResult.bounties).2
      (fun b hbm => (bountyPair_value_iff env view b).2 (hbounties b hbm))
    exact ⟨_, (CreateGameTransactions_true_iff env view stepResult vGameTx _).2
      ⟨vin, ps, hk, hb, rfl⟩⟩

/-- C25: when `CreateGameTransactions` returns false, either the loop over
the killed players returned and `vGameTx` is empty, or that loop ran to its
end, the loop over the bounties returned, and `vGameTx` holds exactly the
kill transaction if a player was killed and nothing otherwise.  No
transaction of a failed result has an output: the bounty transaction is
never in it. -/
theorem C25_vGameTx_after_failure (env : Host) (view : CCoinsView) (stepResult : StepResult)
    (vGameTx txs : List CTransaction)
    (h : CreateGameTransactions env view stepResult vGameTx = some (false, txs)) :
    ((killInputs env view stepResult.GetKilledBy stepResult.GetKilledPlayers = .returnedFalse ∧
        txs = []) ∨
      (∃ vin, killInputs env view stepResult.GetKilledBy stepResult.GetKilledPlayers =
          .value vin ∧
        bountyPairs env view stepResult.bounties = .returnedFalse ∧
        txs = (if stepResult.GetKilledPlayers = [] then [] else [⟨true, vin, []⟩]))) ∧
    (∀ tx ∈ txs, tx.vout = []) ∧ txs.length ≤ 1 := by
  unfold CreateGameTransactions at h
  cases hk : killInputs env view stepResult.GetKilledBy stepResult.GetKilledPlayers with
  | assertFailed => simp [hk] at h
  | returnedFalse =>
    simp only [hk, vectorClear, Option.some.injEq, Prod.mk.injEq, true_and] at h
    subst h
    exact ⟨Or.inl ⟨rfl, rfl⟩, by simp, by simp⟩
  | value vin =>
    obtain ⟨_, hknil⟩ := killInputs_value_nil_iff env view _ _ vin hk
    cases hb : bountyPairs env view stepResult.bounties with
    | assertFailed => simp [hk, hb] at h
    | value ps => simp [hk, hb] at h
    | returnedFalse =>
      simp only [hk, hb, vectorClear, Option.some.injEq, Prod.mk.injEq, true_and,
        List.nil_append] at h
      subst h
      by_cases hv : vin = []
      · have hkp : stepResult.GetKilledPlayers = [] := hknil.1 hv
        refine ⟨Or.inr ⟨vin, rfl, rfl, by simp [hv, hkp]⟩, by simp [hv], by simp [hv]⟩
      · have hkp : stepResult.GetKilledPlayers ≠ [] := fun hkp => hv (hknil.2 hkp)
        refine ⟨Or.inr ⟨vin, rfl, rfl, by simp [hv, hkp]⟩, by simp [hv], by simp [hv]⟩

/-- C25 at `sampleStepUnknownBounty`: the two victims of `sampleStep` are in
the view and the third bounty is for an unknown player; the result is false
with the kill transaction of `sampleStep` alone. -/
theorem C25_vGameTx_after_failure_witness :
    CreateGameTransactions sampleHost sampleView sampleStepUnknownBounty [] =
      some (false, sampleGameTx.take 1) ∧
    CreateGameTransactions sampleHost sampleView sampleStepUnknownVictim [] =
      some (false, []) ∧
    (∀ tx ∈ sampleGameTx.take 1, tx.vout = []) ∧ (sampleGameTx.take 1).length ≤ 1 :=
  ⟨by decide, by decide,
   (C25_vGameTx_after_failure sampleHost sampleView sampleStepUnknownBounty []
      (sampleGameTx.take 1) (by decide)).2⟩

/-- C26: no assertion of `CreateGameTransactions` can fail.  The reason of
an entry is one of the three enumerators, so the `default` case of the
`switch` is not reached; in the destruct case the first entry has the reason
`KILLED_DESTRUCT`, so the loop passes `assert (it != iters.first)`; and
`GetRefundHeight` is called only in the branch `IsRefund ()`, where its
assertion holds. -/
theorem C26_no_assertion_fails (env : Host) (view : CCoinsView) (stepResult : StepResult)
    (vGameTx : List CTransaction) :
    CreateGameTransactions env view stepResult vGameTx ≠ none ∧
    (∀ reason : Reason, reason = .KILLED_DESTRUCT ∨ reason = .KILLED_SPAWN ∨
      reason = .KILLED_POISON) ∧
    (∀ first rest, first.2.reason = .KILLED_DESTRUCT →
      destructKillers env true (first :: rest) ≠ none) ∧
    (∀ victim, killInput env view stepResult.GetKilledBy victim ≠ .assertFailed) ∧
    (∀ loot : CollectedLootInfo, loot.IsRefund = true → loot.GetRefundHeight ≠ none) ∧
    (∀ bounty, bountyPair env view bounty ≠ .assertFailed) := by
  refine ⟨CreateGameTransactions_ne_none env view stepResult vGameTx, ?_,
    fun first rest h => destructKillers_true_ne_none env first rest h,
    fun victim => killInput_ne_assertFailed env view _ victim, ?_,
    fun bounty => bountyPair_ne_assertFailed env view bounty⟩
  · intro reason
    cases reason <;> simp
  · intro loot hloot
    simp [CollectedLootInfo.GetRefundHeight, hloot]

/-! ## The claim on step results built by `KillPlayer` -/

theorem KilledByMap.mem_keys_insert (m : KilledByMap) (e : PlayerID × KilledByInfo)
    (k : PlayerID) :
    k ∈ (KilledByMap.insert m e).map Prod.fst ↔ k = e.1 ∨ k ∈ m.map Prod.fst := by
  induction m with
  | nil => simp [KilledByMap.insert]
  | cons x xs ih =>
    unfold KilledByMap.insert
    cases h : KilledByMap.less e x with
    | true => simp
    | false =>
      simp only [Bool.false_eq_true, if_false, List.map_cons, List.mem_cons, ih]
      tauto

theorem KilledByMap.length_insert (m : KilledByMap) (e : PlayerID × KilledByInfo) :
    (KilledByMap.insert m e).length = m.length + 1 := by
  induction m with
  | nil => rfl
  | cons x xs ih =>
    unfold KilledByMap.insert
    cases h : KilledByMap.less e x with
    | true => simp
    | false => simp [ih]

theorem KilledByMap.less_key {a b : PlayerID × KilledByInfo}
    (h : KilledByMap.less a b = true) : a.1 ≤ b.1 := by
  simp only [KilledByMap.less, Bool.or_eq_true, Bool.and_eq_true, decide_eq_true_eq] at h
  rcases h with h | h
  · exact le_of_lt h
  · exact le_of_eq h.1

theorem KilledByMap.not_less_key {a b : PlayerID × KilledByInfo}
    (h : KilledByMap.less a b = false) : b.1 ≤ a.1 := by
  simp only [KilledByMap.less, Bool.or_eq_false_iff, decide_eq_false_iff_not] at h
  exact not_lt.1 h.1

theorem KilledByMap.insert_keys_sorted (m : KilledByMap) (e : PlayerID × KilledByInfo)
    (hm : m.Pairwise (fun a b => a.1 ≤ b.1)) :
    (KilledByMap.insert m e).Pairwise (fun a b => a.1 ≤ b.1) := by
  induction m with
  | nil => simp [KilledByMap.insert]
  | cons x xs ih =>
    rw [List.pairwise_cons] at hm
    unfold KilledByMap.insert
    cases h : KilledByMap.less e x with
    | true =>
      simp only [if_true, List.pairwise_cons, List.mem_cons]
      refine ⟨?_, hm.1, hm.2⟩
      rintro a (rfl | ha)
      · exact KilledByMap.less_key h
      · exact le_trans (KilledByMap.less_key h) (hm.1 a ha)
    | false =>
      simp only [Bool.false_eq_true, if_false, List.pairwise_cons]
      refine ⟨?_, ih hm.2⟩
      intro a ha
      have hkey : a.1 ∈ (KilledByMap.insert xs e).map Prod.fst := List.mem_map_of_mem _ ha
      rcases (KilledByMap.mem_keys_insert xs e a.1).1 hkey with hk | hk
      · rw [hk]
        exact KilledByMap.not_less_key h
      · obtain ⟨b, hb, hba⟩ := List.mem_map.1 hk
        rw [← hba]
        exact hm.1 b hb

/-- In a map in key order, `equal_range` finds an entry for every key of
the map. -/
theorem KilledByMap.equal_range_ne_nil (m : KilledByMap) (victim : PlayerID)
    (hm : m.Pairwise (fun a b => a.1 ≤ b.1)) (hv : victim ∈ m.map Prod.fst) :
    m.equal_range victim ≠ [] := by
  induction m with
  | nil => simp at hv
  | cons x xs ih =>
    rw [List.pairwise_cons] at hm
    unfold KilledByMap.equal_range
    by_cases hlt : x.1 < victim
    · have hvx : victim ∈ xs.map Prod.fst := by
        simp only [List.map_cons, List.mem_cons] at hv
        rcases hv with hv | hv
        · exact absurd hlt (by rw [hv]; exact lt_irrefl _)
        · exact hv
      simp only [List.dropWhile_cons, hlt, decide_True, if_true]
      exact ih hm.2 hvx
    · have hle : ¬ victim < x.1 := by
        simp only [List.map_cons, List.mem_cons] at hv
        rcases hv with hv | hv
        · rw [hv]
          exact lt_irrefl _
        · obtain ⟨b, hb, hbv⟩ := List.mem_map.1 hv
          rw [← hbv]
          exact not_lt.2 (hm.1 b hb)
      simp [List.dropWhile_cons, hlt, List.takeWhile_cons, hle]

theorem PlayerSet.insert_of_mem (s : PlayerSet) (p : PlayerID)
    (hs : s.Pairwise (fun a b => a < b)) (hp : p ∈ s) : PlayerSet.insert s p = s := by
  induction s with
  | nil => simp at hp
  | cons x xs ih =>
    rw [List.pairwise_cons] at hs
    unfold PlayerSet.insert
    rcases List.mem_cons.1 hp with rfl | hpx
    · simp
    · have hxp : x < p := hs.1 p hpx
      simp [not_lt.2 (le_of_lt hxp), hxp, ih hs.2 hpx]

/-- What every sequence of `KillPlayer` calls keeps: the set and the map in
key order, and the members of the set being the keys of the map. -/
theorem StepResult.killAll_invariant (r : StepResult) (calls : List (PlayerID × KilledByInfo))
    (h1 : r.killedPlayers.Pairwise (fun a b => a < b))
    (h2 : r.killedBy.Pairwise (fun a b => a.1 ≤ b.1))
    (h3 : ∀ v, v ∈ r.killedPlayers ↔ v ∈ r.killedBy.map Prod.fst) :
    (r.killAll calls).killedPlayers.Pairwise (fun a b => a < b) ∧
    (r.killAll calls).killedBy.Pairwise (fun a b => a.1 ≤ b.1) ∧
    (∀ v, v ∈ (r.killAll calls).killedPlayers ↔ v ∈ (r.killAll calls).killedBy.map Prod.fst) ∧
    (r.killAll calls).bounties = r.bounties ∧
    (r.killAll calls).nTaxAmount = r.nTaxAmount ∧
    (r.killAll calls).killedBy.length = r.killedBy.length + calls.length := by
  induction calls generalizing r with
  | nil => exact ⟨h1, h2, h3, rfl, rfl, rfl⟩
  | cons c cs ih =>
    have hfold : r.killAll (c :: cs) = (r.KillPlayer c.1 c.2).killAll cs := rfl
    rw [hfold]
    have g1 : (r.KillPlayer c.1 c.2).killedPlayers.Pairwise (fun a b => a < b) :=
      PlayerSet.insert_sorted r.killedPlayers c.1 h1
    have g2 : (r.KillPlayer c.1 c.2).killedBy.Pairwise (fun a b => a.1 ≤ b.1) :=
      KilledByMap.insert_keys_sorted r.killedBy (c.1, c.2) h2
    have g3 : ∀ v, v ∈ (r.KillPlayer c.1 c.2).killedPlayers ↔
        v ∈ (r.KillPlayer c.1 c.2).killedBy.map Prod.fst := by
      intro v
      simp only [StepResult.KillPlayer, PlayerSet.mem_insert, KilledByMap.mem_keys_insert, h3 v]
    obtain ⟨i1, i2, i3, i4, i5, i6⟩ := ih (r.KillPlayer c.1 c.2) g1 g2 g3
    refine ⟨i1, i2, i3, i4, i5, ?_⟩
    rw [i6]
    simp only [StepResult.KillPlayer, KilledByMap.length_insert, List.length_cons]
    omega

/-- C27: for a step result built from a fresh one by `KillPlayer` calls, the
members of the killed-player set are the keys of the killed-by map; a call
for a player who is already in the set adds an entry to the map and leaves
the set as it is; `KillPlayer` does not change `bounties` and `nTaxAmount`;
and every killed player has an entry in `equal_range`, so
`CreateGameTransactions` does not return for lack of a reason. -/
theorem C27_killed_set_is_key_set (calls : List (PlayerID × KilledByInfo)) :
    (∀ v, v ∈ (StepResult.new.killAll calls).GetKilledPlayers ↔
      v ∈ (StepResult.new.killAll calls).GetKilledBy.map Prod.fst) ∧
    (StepResult.new.killAll calls).GetKilledPlayers.Nodup ∧
    (∀ victim killer, victim ∈ (StepResult.new.killAll calls).GetKilledPlayers →
      ((StepResult.new.killAll calls).KillPlayer victim killer).GetKilledPlayers =
        (StepResult.new.killAll calls).GetKilledPlayers ∧
      ((StepResult.new.killAll calls).KillPlayer victim killer).GetKilledBy.length =
        (StepResult.new.killAll calls).GetKilledBy.length + 1) ∧
    (∀ (r : StepResult) victim killer,
      (r.KillPlayer victim killer).bounties = r.bounties ∧
      (r.KillPlayer victim killer).nTaxAmount = r.nTaxAmount) ∧
    ((StepResult.new.killAll calls).bounties = [] ∧
      (StepResult.new.killAll calls).nTaxAmount = 0 ∧
      (StepResult.new.killAll calls).GetKilledBy.length = calls.length) ∧
    (∀ victim ∈ (StepResult.new.killAll calls).GetKilledPlayers,
      (StepResult.new.killAll calls).GetKilledBy.equal_range victim ≠ []) := by
  obtain ⟨i1, i2, i3, i4, i5, i6⟩ := StepResult.killAll_invariant StepResult.new calls
    (by simp [StepResult.new]) (by simp [StepResult.new]) (by simp [StepResult.new])
  refine ⟨i3, i1.imp (fun hab => ne_of_lt hab), ?_, fun r victim killer => ⟨rfl, rfl⟩,
    ⟨i4, i5, by simpa [StepResult.new] using i6⟩, ?_⟩
  · intro victim killer hv
    exact ⟨PlayerSet.insert_of_mem _ victim i1 hv, KilledByMap.length_insert _ _⟩
  · intro victim hv
    exact KilledByMap.equal_range_ne_nil _ victim i2 ((i3 victim).1 hv)


/-! ## Lemmas on the order of the killed-by map -/

theorem Reason.toInt_injective (a b : Reason) (h : a.toInt = b.toInt) : a = b := by
  cases a <;> cases b <;> simp [Reason.toInt] at h ⊢

theorem Reason.toInt_ge (a : Reason) : Reason.KILLED_DESTRUCT.toInt ≤ a.toInt := by
  cases a <;> decide

theorem KilledByMap.ordered_keys (m : KilledByMap) (hm : m.Ordered) :
    m.Pairwise (fun a b => a.1 ≤ b.1) :=
  List.Pairwise.imp (fun hab => hab.elim le_of_lt (fun h => le_of_eq h.1)) hm

theorem KilledByMap.insert_perm (m : KilledByMap) (e : PlayerID × KilledByInfo) :
    (KilledByMap.insert m e).Perm (e :: m) := by
  induction m with
  | nil => exact List.Perm.refl _
  | cons x xs ih =>
    unfold KilledByMap.insert
    cases h : KilledByMap.less e x with
    | true => exact List.Perm.refl _
    | false =>
      simp only [Bool.false_eq_true, if_false]
      exact (List.Perm.cons x ih).trans (List.Perm.swap e x xs)

theorem KilledByMap.insert_ordered (m : KilledByMap) (e : PlayerID × KilledByInfo)
    (hm : m.Ordered) : (KilledByMap.insert m e).Ordered := by
  induction m with
  | nil => simp [KilledByMap.insert, KilledByMap.Ordered]
  | cons x xs ih =>
    unfold KilledByMap.Ordered at hm ih ⊢
    rw [List.pairwise_cons] at hm
    unfold KilledByMap.insert
    cases h : KilledByMap.less e x with
    | true =>
      simp only [KilledByMap.less, Bool.or_eq_true, Bool.and_eq_true, decide_eq_true_eq] at h
      simp only [if_true, List.pairwise_cons, List.mem_cons]
      refine ⟨?_, hm.1, hm.2⟩
      rintro a (rfl | ha)
      · rcases h with h | h
        · exact Or.inl h
        · exact Or.inr ⟨h.1, le_of_lt h.2⟩
      · rcases hm.1 a ha with hxa | hxa
        · rcases h with h | h
          · exact Or.inl (lt_trans h hxa)
          · exact Or.inl (h.1 ▸ hxa)
        · rcases h with h | h
          · exact Or.inl (hxa.1 ▸ h)
          · exact Or.inr ⟨h.1.trans hxa.1, le_trans (le_of_lt h.2) hxa.2⟩
    | false =>
      simp only [KilledByMap.less, Bool.or_eq_false_iff, Bool.and_eq_false_imp,
        decide_eq_false_iff_not, decide_eq_true_eq] at h
      simp only [Bool.false_eq_true, if_false, List.pairwise_cons]
      refine ⟨?_, ih hm.2⟩
      intro a ha
      rcases List.mem_cons.1 ((KilledByMap.insert_perm xs e).mem_iff.1 ha) with rfl | hxs
      · rcases lt_or_eq_of_le (not_lt.1 h.1) with hlt | heq
        · exact Or.inl hlt
        · exact Or.inr ⟨heq, not_lt.1 (h.2 heq.symm)⟩
      · exact hm.1 a hxs

/-- What every sequence of `KillPlayer` calls keeps of the killed-by map: its
order; and its entries are the entries it had and the ones of the calls. -/
theorem StepResult.killAll_ordered (r : StepResult) (calls : List (PlayerID × KilledByInfo))
    (hr : r.killedBy.Ordered) :
    (r.killAll calls).killedBy.Ordered ∧ (r.killAll calls).killedBy.Perm (r.killedBy ++ calls) := by
  induction calls generalizing r with
  | nil => exact ⟨hr, by simp [StepResult.killAll]⟩
  | cons c cs ih =>
    have hfold : r.killAll (c :: cs) = (r.KillPlayer c.1 c.2).killAll cs := rfl
    rw [hfold]
    have hins : (r.KillPlayer c.1 c.2).killedBy = KilledByMap.insert r.killedBy c := rfl
    obtain ⟨h1, h2⟩ := ih (r.KillPlayer c.1 c.2)
      (by rw [hins]; exact KilledByMap.insert_ordered _ _ hr)
    refine ⟨h1, h2.trans ?_⟩
    rw [hins]
    exact ((KilledByMap.insert_perm r.killedBy c).append_right cs).trans
      (by simpa using (@List.perm_middle _ c r.killedBy cs).symm)

theorem takeWhile_key_eq_filter (xs : List (PlayerID × KilledByInfo)) (v : PlayerID)
    (hs : xs.Pairwise (fun a b => a.1 ≤ b.1)) (hge : ∀ a ∈ xs, v ≤ a.1) :
    xs.takeWhile (fun e => !decide (v < e.1)) = xs.filter (fun e => decide (e.1 = v)) := by
  induction xs with
  | nil => rfl
  | cons y ys ih =>
    rw [List.pairwise_cons] at hs
    have hy := hge y (List.mem_cons_self _ _)
    rcases lt_or_eq_of_le hy with hlt | heq
    · have hne : y.1 ≠ v := ne_of_gt hlt
      have hnil : ys.filter (fun e => decide (e.1 = v)) = [] := by
        rw [List.filter_eq_nil_iff]
        intro a ha
        have := lt_of_lt_of_le hlt (hs.1 a ha)
        simp [ne_of_gt this]
      simp [List.takeWhile_cons, List.filter_cons, hlt, hne, hnil]
    · subst heq
      simp only [List.takeWhile_cons, List.filter_cons, lt_irrefl, decide_False, Bool.not_false,
        if_true, decide_True]
      rw [ih hs.2 (fun a ha => hge a (List.mem_cons_of_mem _ ha))]

/-- In a map in key order, `equal_range (victim)` is the entries of the
victim, in the order of the map. -/
theorem KilledByMap.equal_range_eq_filter (m : KilledByMap) (v : PlayerID)
    (hm : m.Pairwise (fun a b => a.1 ≤ b.1)) :
    m.equal_range v = m.filter (fun e => decide (e.1 = v)) := by
  induction m with
  | nil => rfl
  | cons x xs ih =>
    have hm0 := hm
    rw [List.pairwise_cons] at hm
    by_cases hlt : x.1 < v
    · have hne : x.1 ≠ v := ne_of_lt hlt
      have := ih hm.2
      unfold KilledByMap.equal_range at this ⊢
      simp only [List.dropWhile_cons, hlt, decide_True, if_true, List.filter_cons, hne,
        decide_False, Bool.false_eq_true, if_false]
      exact this
    · unfold KilledByMap.equal_range
      simp only [List.dropWhile_cons, hlt, decide_False, Bool.false_eq_true, if_false]
      exact takeWhile_key_eq_filter (x :: xs) v hm0
        (by
          intro a ha
          rcases List.mem_cons.1 ha with rfl | ha
          · exact not_lt.1 hlt
          · exact le_trans (not_lt.1 hlt) (hm.1 a ha))

theorem KilledByMap.equal_range_sorted (m : KilledByMap) (v : PlayerID) (hm : m.Ordered) :
    (m.equal_range v).Pairwise (fun a b => a.2.reason.toInt ≤ b.2.reason.toInt) := by
  rw [KilledByMap.equal_range_eq_filter m v (KilledByMap.ordered_keys m hm)]
  have hf : (m.filter (fun e => decide (e.1 = v))).Pairwise
      (fun a b => a.1 < b.1 ∨ (a.1 = b.1 ∧ a.2.reason.toInt ≤ b.2.reason.toInt)) :=
    List.Pairwise.filter _ hm
  refine List.Pairwise.imp_of_mem ?_ hf
  intro a b ha hb hab
  have hak : a.1 = v := by simpa using (List.mem_filter.1 ha).2
  have hbk : b.1 = v := by simpa using (List.mem_filter.1 hb).2
  rcases hab with hlt | hle
  · rw [hak, hbk] at hlt
    exact absurd hlt (lt_irrefl _)
  · exact hle.2

/-- The first entry of a victim in an ordered map has the least reason among
the entries of the victim. -/
theorem KilledByMap.equal_range_head_least (m : KilledByMap) (v : PlayerID) (hm : m.Ordered)
    (first : PlayerID × KilledByInfo) (rest : List (PlayerID × KilledByInfo))
    (h : m.equal_range v = first :: rest) :
    first ∈ m ∧ first.1 = v ∧
    ∀ e ∈ m, e.1 = v → first.2.reason.toInt ≤ e.2.reason.toInt := by
  have hs := KilledByMap.equal_range_sorted m v hm
  have hf := KilledByMap.equal_range_eq_filter m v (KilledByMap.ordered_keys m hm)
  have hmem : first ∈ m.filter (fun e => decide (e.1 = v)) := by
    rw [← hf, h]
    exact List.mem_cons_self _ _
  refine ⟨(List.mem_filter.1 hmem).1, by simpa using (List.mem_filter.1 hmem).2, ?_⟩
  intro e he hev
  have hin : e ∈ m.equal_range v := by
    rw [hf]
    exact List.mem_filter.2 ⟨he, by simpa using hev⟩
  rw [h] at hin hs
  rcases List.mem_cons.1 hin with rfl | hrest
  · exact le_refl _
  · exact (List.pairwise_cons.1 hs).1 e hrest

theorem takeWhile_destruct_eq_filter (l : List (PlayerID × KilledByInfo))
    (hl : l.Pairwise (fun a b => a.2.reason.toInt ≤ b.2.reason.toInt)) :
    l.takeWhile (fun e => decide (e.2.reason = .KILLED_DESTRUCT)) =
      l.filter (fun e => decide (e.2.reason = .KILLED_DESTRUCT)) := by
  induction l with
  | nil => rfl
  | cons x xs ih =>
    rw [List.pairwise_cons] at hl
    by_cases hx : x.2.reason = .KILLED_DESTRUCT
    · simp only [List.takeWhile_cons, List.filter_cons, hx, decide_True, if_true]
      rw [ih hl.2]
    · have hnil : xs.filter (fun e => decide (e.2.reason = .KILLED_DESTRUCT)) = [] := by
        rw [List.filter_eq_nil_iff]
        intro a ha
        have hle := hl.1 a ha
        have hne : a.2.reason ≠ .KILLED_DESTRUCT := by
          intro hd
          rw [hd] at hle
          exact hx (Reason.toInt_injective _ _ (le_antisymm hle (Reason.toInt_ge _)))
        simp [hne]
      simp [List.takeWhile_cons, List.filter_cons, hx, hnil]

/-- With the map in order, the kill input of the destruct case lists the
killers of all destruct entries of the victim. -/
theorem killInput_scriptSig_ordered (env : Host) (view : CCoinsView) (killedBy : KilledByMap)
    (hord : killedBy.Ordered) (victim : PlayerID) (txin : CTxIn)
    (h : killInput env view killedBy victim = .value txin) :
    ∃ first rest, killedBy.equal_range victim = first :: rest ∧
      txin.scriptSig =
        match first.2.reason with
        | .KILLED_DESTRUCT =>
          [.data (ValtypeFromString victim), .num GAMEOP_KILLED_BY] ++
            (killedBy.filter (fun e =>
              decide (e.2.reason = .KILLED_DESTRUCT) && decide (e.1 = victim))).map
              (fun e => ScriptElem.data (ValtypeFromString (env.ToString e.2.killer)))
        | .KILLED_SPAWN => [.data (ValtypeFromString victim), .num GAMEOP_KILLED_BY]
        | .KILLED_POISON => [.data (ValtypeFromString victim), .num GAMEOP_KILLED_POISON] := by
  obtain ⟨first, rest, hrange, hsig⟩ := killInput_scriptSig env view killedBy victim txin h
  refine ⟨first, rest, hrange, ?_⟩
  have hs := KilledByMap.equal_range_sorted killedBy victim hord
  have hf := KilledByMap.equal_range_eq_filter killedBy victim
    (KilledByMap.ordered_keys killedBy hord)
  rw [hrange] at hs hf
  rw [hsig, takeWhile_destruct_eq_filter _ hs, hf, List.filter_filter]


/-! ## The claims on the order of the killed-by map -/

/-- C5: when `CreateGameTransactions` returns true, the scriptSig of the
kill input of each victim is, by the reason of the victim's first killed-by
entry: for `KILLED_DESTRUCT` the victim name, `GAMEOP_KILLED_BY` (1) and the
killer id string of every destruct entry of the victim in the killed-by map,
in the order of the map; for `KILLED_SPAWN` the victim name and 1; for
`KILLED_POISON` the victim name and `GAMEOP_KILLED_POISON` (3).  No kill
input carries the opcode 2 or 4. -/
theorem C5_kill_scriptSig (env : Host) (view : CCoinsView) (stepResult : StepResult)
    (vGameTx txs : List CTransaction) (hord : stepResult.GetKilledBy.Ordered)
    (h : CreateGameTransactions env view stepResult vGameTx = some (true, txs)) :
    (GAMEOP_KILLED_BY = 1 ∧ GAMEOP_COLLECTED_BOUNTY = 2 ∧ GAMEOP_KILLED_POISON = 3 ∧
      GAMEOP_REFUND = 4) ∧
    ∃ vin, (stepResult.GetKilledPlayers ≠ [] → ∃ txKills, txs.head? = some txKills ∧
        txKills.vin = vin) ∧
      List.Forall₂ (fun victim txin =>
        ∃ first rest, stepResult.GetKilledBy.equal_range victim = first :: rest ∧
          txin.scriptSig =
            (match first.2.reason with
            | .KILLED_DESTRUCT =>
              [.data (ValtypeFromString victim), .num 1] ++
                (stepResult.GetKilledBy.filter (fun e =>
                  decide (e.2.reason = .KILLED_DESTRUCT) && decide (e.1 = victim))).map
                  (fun e => ScriptElem.data (ValtypeFromString (env.ToString e.2.killer)))
            | .KILLED_SPAWN => [.data (ValtypeFromString victim), .num 1]
            | .KILLED_POISON => [.data (ValtypeFromString victim), .num 3]) ∧
          ScriptElem.num 2 ∉ txin.scriptSig ∧ ScriptElem.num 4 ∉ txin.scriptSig)
        stepResult.GetKilledPlayers vin := by
  refine ⟨⟨rfl, rfl, rfl, rfl⟩, ?_⟩
  obtain ⟨vin, ps, hk, _, htxs⟩ :=
    (CreateGameTransactions_true_iff env view stepResult vGameTx txs).1 h
  obtain ⟨_, hknil⟩ := killInputs_value_nil_iff env view _ _ vin hk
  refine ⟨vin, ?_, ?_⟩
  · intro hne
    have hv : vin ≠ [] := fun hv => hne (hknil.1 hv)
    exact ⟨⟨true, vin, []⟩, by rw [htxs]; simp [hv], rfl⟩
  · refine List.Forall₂.imp ?_ ((killInputs_value_iff env view _ _ vin).1 hk)
    intro victim txin hvalue
    obtain ⟨first, rest, hrange, hsig⟩ :=
      killInput_scriptSig_ordered env view _ hord victim txin hvalue
    have hno : ∀ n : Int, n ≠ 1 → n ≠ 3 → ScriptElem.num n ∉ txin.scriptSig := by
      intro n h1 h3
      rw [hsig]
      cases first.2.reason <;> simp [GAMEOP_KILLED_BY, GAMEOP_KILLED_POISON, h1, h3]
    exact ⟨first, rest, hrange, hsig, hno 2 (by decide) (by decide),
      hno 4 (by decide) (by decide)⟩

/-- C5 at `sampleStepInterleaved`: `[97]` is killed by `[98]`, then for
staying in the spawn area, then by character 1 of `[99]`; the map has the two
destruct entries first, and the kill input lists both killers. -/
theorem C5_kill_scriptSig_witness :
    sampleStepInterleaved.GetKilledBy =
      [([97], ⟨.KILLED_DESTRUCT, ⟨[98], 0⟩⟩), ([97], ⟨.KILLED_DESTRUCT, ⟨[99], 1⟩⟩),
       ([97], ⟨.KILLED_SPAWN, ⟨[], 0⟩⟩)] ∧
    sampleStepInterleaved.GetKilledBy.Ordered ∧
    CreateGameTransactions sampleHost sampleView sampleStepInterleaved [] =
      some (true,
        [⟨true, [⟨⟨11, 0⟩, [.data [97], .num 1, .data [98], .data [99, 46, 1]]⟩], []⟩]) ∧
    ∃ vin, (sampleStepInterleaved.GetKilledPlayers ≠ [] → ∃ txKills,
        [(⟨true, [⟨⟨11, 0⟩, [.data [97], .num 1, .data [98], .data [99, 46, 1]]⟩], []⟩ :
          CTransaction)].head? = some txKills ∧ txKills.vin = vin) ∧
      List.Forall₂ (fun victim txin =>
        ∃ first rest, sampleStepInterleaved.GetKilledBy.equal_range victim = first :: rest ∧
          txin.scriptSig =
            (match first.2.reason with
            | .KILLED_DESTRUCT =>
              [.data (ValtypeFromString victim), .num 1] ++
                (sampleStepInterleaved.GetKilledBy.filter (fun e =>
                  decide (e.2.reason = .KILLED_DESTRUCT) && decide (e.1 = victim))).map
                  (fun e => ScriptElem.data (ValtypeFromString (sampleHost.ToString e.2.killer)))
            | .KILLED_SPAWN => [.data (ValtypeFromString victim), .num 1]
            | .KILLED_POISON => [.data (ValtypeFromString victim), .num 3]) ∧
          ScriptElem.num 2 ∉ txin.scriptSig ∧ ScriptElem.num 4 ∉ txin.scriptSig)
        sampleStepInterleaved.GetKilledPlayers vin :=
  ⟨by decide,
   (StepResult.killAll_ordered StepResult.new _ (by simp [StepResult.new, KilledByMap.Ordered])).1,
   by decide,
   (C5_kill_scriptSig sampleHost sampleView sampleStepInterleaved [] _
     (StepResult.killAll_ordered StepResult.new _
       (by simp [StepResult.new, KilledByMap.Ordered])).1 (by decide)).2⟩

theorem KilledByMap.head_reason_perm (m1 m2 : KilledByMap) (h1 : m1.Ordered) (h2 : m2.Ordered)
    (hp : m1.Perm m2) (v : PlayerID) :
    (m1.equal_range v).head?.map (fun e => e.2.reason) =
      (m2.equal_range v).head?.map (fun e => e.2.reason) := by
  have hf1 := KilledByMap.equal_range_eq_filter m1 v (KilledByMap.ordered_keys m1 h1)
  have hf2 := KilledByMap.equal_range_eq_filter m2 v (KilledByMap.ordered_keys m2 h2)
  cases hr1 : m1.equal_range v with
  | nil =>
    cases hr2 : m2.equal_range v with
    | nil => rfl
    | cons f2 r2 =>
      exfalso
      obtain ⟨hm, hk, _⟩ := KilledByMap.equal_range_head_least m2 v h2 f2 r2 hr2
      have : f2 ∈ m1.equal_range v := by
        rw [hf1]
        exact List.mem_filter.2 ⟨hp.mem_iff.2 hm, by simpa using hk⟩
      rw [hr1] at this
      simp at this
  | cons f1 r1 =>
    obtain ⟨hm1, hk1, hl1⟩ := KilledByMap.equal_range_head_least m1 v h1 f1 r1 hr1
    cases hr2 : m2.equal_range v with
    | nil =>
      exfalso
      have : f1 ∈ m2.equal_range v := by
        rw [hf2]
        exact List.mem_filter.2 ⟨hp.mem_iff.1 hm1, by simpa using hk1⟩
      rw [hr2] at this
      simp at this
    | cons f2 r2 =>
      obtain ⟨hm2, hk2, hl2⟩ := KilledByMap.equal_range_head_least m2 v h2 f2 r2 hr2
      have ha := hl1 f2 (hp.mem_iff.2 hm2) hk2
      have hb := hl2 f1 (hp.mem_iff.1 hm1) hk1
      simp only [List.head?_cons, Option.map_some', Option.some.injEq]
      exact Reason.toInt_injective _ _ (le_antisymm ha hb)

/-- C6: for a step result built from a fresh one by `KillPlayer` calls, the
killed-by map is in its order whatever the order of the calls, the first
entry of each killed player is an entry of the calls with the least reason
among the calls for that player (in `KILLED_DESTRUCT < KILLED_SPAWN <
KILLED_POISON`), and when `CreateGameTransactions` returns true the kill
input of each victim is built for that least reason.  The reason of the first
entry of a victim is the same for every order of the same calls. -/
theorem C6_least_reason_first (env : Host) (view : CCoinsView)
    (calls : List (PlayerID × KilledByInfo)) :
    (Reason.KILLED_DESTRUCT.toInt < Reason.KILLED_SPAWN.toInt ∧
      Reason.KILLED_SPAWN.toInt < Reason.KILLED_POISON.toInt) ∧
    (StepResult.new.killAll calls).GetKilledBy.Ordered ∧
    (∀ victim ∈ (StepResult.new.killAll calls).GetKilledPlayers,
      ∃ first rest,
        (StepResult.new.killAll calls).GetKilledBy.equal_range victim = first :: rest ∧
        first ∈ calls ∧ first.1 = victim ∧
        ∀ c ∈ calls, c.1 = victim → first.2.reason.toInt ≤ c.2.reason.toInt) ∧
    (∀ vGameTx txs,
      CreateGameTransactions env view (StepResult.new.killAll calls) vGameTx = some (true, txs) →
      ∃ vin, ((StepResult.new.killAll calls).GetKilledPlayers ≠ [] →
          ∃ txKills, txs.head? = some txKills ∧ txKills.vin = vin) ∧
        List.Forall₂ (fun victim txin =>
          ∃ first rest,
            (StepResult.new.killAll calls).GetKilledBy.equal_range victim = first :: rest ∧
            (∀ c ∈ calls, c.1 = victim → first.2.reason.toInt ≤ c.2.reason.toInt) ∧
            (first.2.reason = .KILLED_DESTRUCT ↔
              ∃ killers, txin.scriptSig =
                .data (ValtypeFromString victim) :: .num 1 ::
                  .data (ValtypeFromString (env.ToString first.2.killer)) :: killers) ∧
            (first.2.reason = .KILLED_SPAWN ↔
              txin.scriptSig = [.data (ValtypeFromString victim), .num 1]) ∧
            (first.2.reason = .KILLED_POISON ↔
              txin.scriptSig = [.data (ValtypeFromString victim), .num 3]))
          (StepResult.new.killAll calls).GetKilledPlayers vin) ∧
    (∀ calls2 : List (PlayerID × KilledByInfo), calls.Perm calls2 → ∀ victim,
      ((StepResult.new.killAll calls2).GetKilledBy.equal_range victim).head?.map
          (fun e => e.2.reason) =
        ((StepResult.new.killAll calls).GetKilledBy.equal_range victim).head?.map
          (fun e => e.2.reason)) := by
  have hnew : StepResult.new.killedBy.Ordered := by simp [StepResult.new, KilledByMap.Ordered]
  obtain ⟨hord, hperm⟩ := StepResult.killAll_ordered StepResult.new calls hnew
  have hperm1 : (StepResult.new.killAll calls).killedBy.Perm calls := by
    simpa [StepResult.new] using hperm
  obtain ⟨_, hsorted, hkeys, _, _, _⟩ := StepResult.killAll_invariant StepResult.new calls
    (by simp [StepResult.new]) (by simp [StepResult.new]) (by simp [StepResult.new])
  have hleast : ∀ victim first rest,
      (StepResult.new.killAll calls).GetKilledBy.equal_range victim = first :: rest →
      first ∈ calls ∧ first.1 = victim ∧
        ∀ c ∈ calls, c.1 = victim → first.2.reason.toInt ≤ c.2.reason.toInt := by
    intro victim first rest hrange
    obtain ⟨hm, hk, hl⟩ := KilledByMap.equal_range_head_least _ victim hord first rest hrange
    exact ⟨hperm1.mem_iff.1 hm, hk, fun c hc hcv => hl c (hperm1.mem_iff.2 hc) hcv⟩
  refine ⟨⟨by decide, by decide⟩, hord, ?_, ?_, ?_⟩
  · intro victim hv
    have hne := KilledByMap.equal_range_ne_nil _ victim hsorted ((hkeys victim).1 hv)
    cases hrange : (StepResult.new.killAll calls).GetKilledBy.equal_range victim with
    | nil => exact absurd hrange hne
    | cons first rest => exact ⟨first, rest, rfl, hleast victim first rest hrange⟩
  · intro vGameTx txs h
    obtain ⟨vin, ps, hk, _, htxs⟩ :=
      (CreateGameTransactions_true_iff env view _ vGameTx txs).1 h
    obtain ⟨_, hknil⟩ := killInputs_value_nil_iff env view _ _ vin hk
    refine ⟨vin, ?_, ?_⟩
    · intro hne
      have hv : vin ≠ [] := fun hv => hne (hknil.1 hv)
      exact ⟨⟨true, vin, []⟩, by rw [htxs]; simp [hv], rfl⟩
    · refine List.Forall₂.imp ?_ ((killInputs_value_iff env view _ _ vin).1 hk)
      intro victim txin hvalue
      obtain ⟨first, rest, hrange, h1, h2, h3⟩ :=
        killInput_reason_iff env view _ victim txin hvalue
      exact ⟨first, rest, hrange, (hleast victim first rest hrange).2.2, h1, h2, h3⟩
  · intro calls2 hp victim
    obtain ⟨hord2, hperm2⟩ := StepResult.killAll_ordered StepResult.new calls2 hnew
    have hperm2a : (StepResult.new.killAll calls2).killedBy.Perm calls2 := by
      simpa [StepResult.new] using hperm2
    exact KilledByMap.head_reason_perm _ _ hord2 hord
      ((hperm2a.trans hp.symm).trans hperm1.symm) victim

/-- C6 at the calls of `sampleStepPoisonSpawn`: `[97]` is killed by poison
and then for staying in the spawn area; the spawn entry is the first one in
the map, and the kill input is built for `KILLED_SPAWN` (opcode 1). -/
theorem C6_least_reason_first_witness :
    sampleStepPoisonSpawn.GetKilledBy =
      [([97], ⟨.KILLED_SPAWN, ⟨[], 0⟩⟩), ([97], ⟨.KILLED_POISON, ⟨[], 0⟩⟩)] ∧
    CreateGameTransactions sampleHost sampleView sampleStepPoisonSpawn [] =
      some (true, [⟨true, [⟨⟨11, 0⟩, [.data [97], .num 1]⟩], []⟩]) ∧
    (StepResult.new.killAll
      [([97], ⟨.KILLED_POISON, ⟨[], 0⟩⟩), ([97], ⟨.KILLED_SPAWN, ⟨[], 0⟩⟩)]).GetKilledBy.Ordered :=
  ⟨by decide, by decide,
   (C6_least_reason_first sampleHost sampleView
      [([97], ⟨.KILLED_POISON, ⟨[], 0⟩⟩), ([97], ⟨.KILLED_SPAWN, ⟨[], 0⟩⟩)]).2.1⟩

/-- C22: for a step result with the killed-by map in its order, if the
first killed-by entry of a killed player has a reason other than
`KILLED_DESTRUCT` and the player has another entry with the same reason,
`CreateGameTransactions` returns false (in the loop over the killed players,
so `vGameTx` is empty). -/
theorem C22_duplicate_reason_fails (env : Host) (view : CCoinsView) (stepResult : StepResult)
    (vGameTx : List CTransaction) (hord : stepResult.GetKilledBy.Ordered)
    (victim : PlayerID) (hv : victim ∈ stepResult.GetKilledPlayers)
    (first : PlayerID × KilledByInfo) (rest : List (PlayerID × KilledByInfo))
    (hrange : stepResult.GetKilledBy.equal_range victim = first :: rest)
    (hreason : first.2.reason = .KILLED_SPAWN ∨ first.2.reason = .KILLED_POISON)
    (hdup : ∃ e ∈ rest, e.2.reason = first.2.reason) :
    CreateGameTransactions env view stepResult vGameTx = some (false, []) ∧
    ∃ second rest2, rest = second :: rest2 ∧ second.2.reason = first.2.reason := by
  have hs := KilledByMap.equal_range_sorted _ victim hord
  rw [hrange] at hs
  have hsecond : ∃ second rest2, rest = second :: rest2 ∧
      second.2.reason = first.2.reason := by
    obtain ⟨e, he, her⟩ := hdup
    cases rest with
    | nil => simp at he
    | cons second rest2 =>
      refine ⟨second, rest2, rfl, ?_⟩
      rw [List.pairwise_cons, List.pairwise_cons] at hs
      have h1 := hs.1 second (List.mem_cons_self _ _)
      rcases List.mem_cons.1 he with rfl | he2
      · exact her
      · have h2 := hs.2.1 e he2
        rw [her] at h2
        exact Reason.toInt_injective _ _ (le_antisymm h2 h1)
  refine ⟨?_, hsecond⟩
  obtain ⟨second, rest2, hrest, hsame⟩ := hsecond
  have hnd : first.2.reason ≠ .KILLED_DESTRUCT := by
    rcases hreason with h | h <;> rw [h] <;> decide
  have hnot : ¬ ∃ txin, killInput env view stepResult.GetKilledBy victim = .value txin := by
    intro hex
    have := ((killInput_value_iff env view _ victim).1 hex).2.2
    exact this ⟨first, second, rest2, by rw [hrange, hrest], hnd, hsame.symm⟩
  have hk : killInputs env view stepResult.GetKilledBy stepResult.GetKilledPlayers =
      .returnedFalse := by
    cases hki : killInputs env view stepResult.GetKilledBy stepResult.GetKilledPlayers with
    | assertFailed => exact absurd hki (killInputs_ne_assertFailed env view _ _)
    | returnedFalse => rfl
    | value vin =>
      exact absurd ((killInputs_exists_iff env view _ _).1 ⟨vin, hki⟩ victim hv) hnot
  unfold CreateGameTransactions
  simp only [hk, vectorClear]

/-- C22 at `sampleStepSpawnTwice`: `[97]` is killed for staying in the spawn
area, then by poison, then for staying in the spawn area again; the two
spawn entries are the first two of the map, and the result is false. -/
theorem C22_duplicate_reason_fails_witness :
    sampleStepSpawnTwice.GetKilledBy =
      [([97], ⟨.KILLED_SPAWN, ⟨[], 0⟩⟩), ([97], ⟨.KILLED_SPAWN, ⟨[], 0⟩⟩),
       ([97], ⟨.KILLED_POISON, ⟨[], 0⟩⟩)] ∧
    sampleStepSpawnTwice.GetKilledBy.Ordered ∧
    [97] ∈ sampleStepSpawnTwice.GetKilledPlayers ∧
    CreateGameTransactions sampleHost sampleView sampleStepSpawnTwice [] = some (false, []) :=
  ⟨by decide,
   (StepResult.killAll_ordered StepResult.new _ (by simp [StepResult.new, KilledByMap.Ordered])).1,
   by decide,
   (C22_duplicate_reason_fails sampleHost sampleView sampleStepSpawnTwice []
     (StepResult.killAll_ordered StepResult.new _
       (by simp [StepResult.new, KilledByMap.Ordered])).1
     [97] (by decide) ([97], ⟨.KILLED_SPAWN, ⟨[], 0⟩⟩)
     [([97], ⟨.KILLED_SPAWN, ⟨[], 0⟩⟩), ([97], ⟨.KILLED_POISON, ⟨[], 0⟩⟩)] (by decide)
     (Or.inl rfl) ⟨([97], ⟨.KILLED_SPAWN, ⟨[], 0⟩⟩), by decide, rfl⟩).1⟩


/-! ## Further claims on `Collect` -/

theorem Collect_not_refund (c : CollectedLootInfo) (l : LootInfo) (h : Int)
    (hc : c.IsRefund = false) (hh : 0 ≤ h) :
    ∃ r, c.Collect l h = some r ∧ r.IsRefund = false := by
  by_cases hl : l.nAmount ≤ 0
  · exact ⟨c, Collect_nonpos c l h hc hl, hc⟩
  · refine ⟨_, Collect_pos c l h hc (not_le.1 hl), ?_⟩
    simp only [CollectedLootInfo.IsRefund, Bool.and_eq_false_imp, decide_eq_true_eq,
      decide_eq_false_iff_not]
    intro _
    by_cases hcf : c.collectedFirstBlock < 0
    · simp only [hcf, if_true]
      omega
    · simp only [hcf, if_false]
      omega

theorem collectAll_not_refund (c : CollectedLootInfo) (calls : List (LootInfo × Int))
    (hc : c.IsRefund = false) (hcalls : ∀ call ∈ calls, 0 ≤ call.2) :
    ∃ r, c.collectAll calls = some r ∧ r.IsRefund = false := by
  induction calls generalizing c with
  | nil => exact ⟨c, rfl, hc⟩
  | cons call calls ih =>
    obtain ⟨loot, nHeight⟩ := call
    obtain ⟨c1, hc1, hr1⟩ := Collect_not_refund c loot nHeight hc
      (hcalls (loot, nHeight) (List.mem_cons_self _ _))
    obtain ⟨r, hr, hrr⟩ := ih c1 hr1 (fun x hx => hcalls x (List.mem_cons_of_mem _ hx))
    exact ⟨r, by simp [CollectedLootInfo.collectAll, hc1, hr], hrr⟩

/-- C28: `Collect` at a height `h >= 0` on an object that is not a refund
passes its assertion and gives an object that is not a refund; so from a
default-constructed object every sequence of `Collect` calls at non-negative
heights succeeds and gives no refund.  The bound on the height is needed:
a loot of 5 collected at height -1 into a default-constructed object gives a
refund. -/
theorem C28_Collect_keeps_non_refund (c : CollectedLootInfo) (l : LootInfo) (h : Int)
    (hc : c.IsRefund = false) (hh : 0 ≤ h) :
    (∃ r, c.Collect l h = some r ∧ r.IsRefund = false) ∧
    (∀ calls : List (LootInfo × Int), (∀ call ∈ calls, 0 ≤ call.2) →
      ∃ r, CollectedLootInfo.new.collectAll calls = some r ∧ r.IsRefund = false) ∧
    (∃ r, CollectedLootInfo.new.Collect ⟨5, 3, 4⟩ (-1) = some r ∧ r.IsRefund = true) :=
  ⟨Collect_not_refund c l h hc hh,
   fun calls hcalls => collectAll_not_refund CollectedLootInfo.new calls (by decide) hcalls,
   ⟨{ nAmount := 5, firstBlock := 3, lastBlock := 4, collectedFirstBlock := -1,
      collectedLastBlock := -1 }, by decide, by decide⟩⟩

/-- C28 at `sampleCollected` and `sampleLoot`, height 9. -/
theorem C28_Collect_keeps_non_refund_witness :
    sampleCollected.IsRefund = false ∧ (0 : Int) ≤ 9 ∧
    ∃ r, sampleCollected.Collect sampleLoot 9 = some r ∧ r.IsRefund = false :=
  ⟨by decide, by decide,
   (C28_Collect_keeps_non_refund sampleCollected sampleLoot 9 (by decide) (by decide)).1⟩

theorem toInt64_add_comm (x a b : Int) :
    toInt64 (toInt64 (x + a) + b) = toInt64 (toInt64 (x + b) + a) := by
  simp only [toInt64]
  omega

/-- C29: for an object that is not a refund, a height `h >= 0` and two loots
with non-negative `firstBlock`, collecting the first and then the second at
height `h` succeeds and gives the same object as collecting the second and
then the first. -/
theorem C29_Collect_commutes (c : CollectedLootInfo) (a b : LootInfo) (h : Int)
    (hc : c.IsRefund = false) (hh : 0 ≤ h) (ha : 0 ≤ a.firstBlock) (hb : 0 ≤ b.firstBlock) :
    ∃ r, (c.Collect a h).bind (fun c1 => c1.Collect b h) = some r ∧
      (c.Collect b h).bind (fun c1 => c1.Collect a h) = some r := by
  by_cases hla : a.nAmount ≤ 0
  · obtain ⟨r, hr, hrr⟩ := Collect_not_refund c b h hc hh
    refine ⟨r, ?_, ?_⟩
    · simp [Collect_nonpos c a h hc hla, hr]
    · simp [hr, Collect_nonpos r a h hrr hla]
  · by_cases hlb : b.nAmount ≤ 0
    · obtain ⟨r, hr, hrr⟩ := Collect_not_refund c a h hc hh
      refine ⟨r, ?_, ?_⟩
      · simp [hr, Collect_nonpos r b h hrr hlb]
      · simp [Collect_nonpos c b h hc hlb, hr]
    · have hpa := not_le.1 hla
      have hpb := not_le.1 hlb
      obtain ⟨ra, hra, hrra⟩ := Collect_not_refund c a h hc hh
      obtain ⟨rb, hrb, hrrb⟩ := Collect_not_refund c b h hc hh
      have ea := Collect_pos c a h hc hpa
      have eb := Collect_pos c b h hc hpb
      rw [hra] at ea
      rw [hrb] at eb
      simp only [Option.some.injEq] at ea eb
      have eab := Collect_pos ra b h hrra hpb
      have eba := Collect_pos rb a h hrrb hpa
      rw [hra, hrb]
      refine ⟨_, eab, ?_⟩
      show rb.Collect a h = _
      rw [eba]
      subst ea eb
      simp only [Option.some.injEq, CollectedLootInfo.mk.injEq, LootInfo.mk.injEq]
      refine ⟨⟨(toInt64_add_comm _ _ _).symm, ?_, ?_⟩, trivial, trivial⟩
      · split_ifs <;> omega
      · split_ifs <;> omega

/-- C29 at `sampleCollected` with loots of 5 and 2. -/
theorem C29_Collect_commutes_witness :
    sampleCollected.IsRefund = false ∧
    (sampleCollected.Collect sampleLoot 9).bind (fun c1 => c1.Collect ⟨2, 0, 8⟩ 9) =
      some { nAmount := 14, firstBlock := 0, lastBlock := 8,
             collectedFirstBlock := 3, collectedLastBlock := 9 } ∧
    ∃ r, (sampleCollected.Collect sampleLoot 9).bind (fun c1 => c1.Collect ⟨2, 0, 8⟩ 9) = some r ∧
      (sampleCollected.Collect ⟨2, 0, 8⟩ 9).bind (fun c1 => c1.Collect sampleLoot 9) = some r :=
  ⟨by decide, by decide,
   C29_Collect_commutes sampleCollected sampleLoot ⟨2, 0, 8⟩ 9 (by decide) (by decide)
     (by decide) (by decide)⟩

theorem PlayerState_tail_written (p : PlayerState) :
    writeOps (PlayerState.SerializationOp.drop 56) p = .ok [.i64 p.lockedCoins, .i64 p.value] :=
  rfl

/-- C30: for every `PlayerState` whose characters all carry a loot that is
not a refund, `PlayerState::SerializationOp` writes a stream, the stream ends
with `lockedCoins` and `value`, and reading it (into any object) gives a
`PlayerState` equal to the one written and leaves what follows the stream:
every field of the player, of its characters and of their loot is written
and read at the same place. -/
theorem C30_PlayerState_round_trip (p : PlayerState) (hwf : p.WellFormed)
    (hloot : ∀ c ∈ p.characters, c.2.loot.IsRefund = false) :
    ∃ bytes, PlayerState.codec.ser p = .ok bytes ∧
      (∃ pre, bytes = pre ++ [.i64 p.lockedCoins, .i64 p.value]) ∧
      (∀ t rest, PlayerState.codec.unser t (bytes ++ rest) = .ok (p, rest)) ∧
      PlayerState.SerializationOp.length = 58 ∧ CharacterState.SerializationOp.length = 58 ∧
      CollectedLootInfo.SerializationOp.length = 4 ∧ LootInfo.SerializationOp.length = 3 := by
  obtain ⟨bytes, hbytes⟩ := PlayerState_codec_writes p hloot
  refine ⟨bytes, hbytes, ?_, ?_, rfl, rfl, rfl, rfl⟩
  · obtain ⟨pre, _, hpre⟩ := writeOps_suffix PlayerState.SerializationOp 56 p bytes
      [.i64 p.lockedCoins, .i64 p.value] hbytes (PlayerState_tail_written p)
    exact ⟨pre, hpre⟩
  · intro t rest
    exact PlayerState_codec_roundTrips p hwf t bytes rest hbytes

/-- C30 at `sampleReservedPlayer`, read into a default-constructed
object. -/
theorem C30_PlayerState_round_trip_witness :
    sampleReservedPlayer.WellFormed ∧
    (∀ c ∈ sampleReservedPlayer.characters, c.2.loot.IsRefund = false) ∧
    PlayerState.codec.ser sampleReservedPlayer = .ok samplePlayerStream ∧
    PlayerState.codec.unser PlayerState.new samplePlayerStream =
      .ok (sampleReservedPlayer, []) ∧
    ∃ bytes, PlayerState.codec.ser sampleReservedPlayer = .ok bytes ∧
      (∃ pre, bytes = pre ++
        [.i64 sampleReservedPlayer.lockedCoins, .i64 sampleReservedPlayer.value]) ∧
      (∀ t rest, PlayerState.codec.unser t (bytes ++ rest) = .ok (sampleReservedPlayer, rest)) ∧
      PlayerState.SerializationOp.length = 58 ∧ CharacterState.SerializationOp.length = 58 ∧
      CollectedLootInfo.SerializationOp.length = 4 ∧ LootInfo.SerializationOp.length = 3 :=
  ⟨sampleReservedPlayer_wellFormed, sampleReservedPlayer_noRefund, rfl, rfl,
   C30_PlayerState_round_trip sampleReservedPlayer sampleReservedPlayer_wellFormed
     sampleReservedPlayer_noRefund⟩

/-! ## Lemmas on snapshots that fail -/

theorem readOps_append {σ : Type} (a b : List (Op σ)) (t : σ) (st : Stream) :
    readOps (a ++ b) t st =
      match readOps a t st with
      | .error e => .error e
      | .ok (t1, st1) => readOps b t1 st1 := by
  induction a generalizing t st with
  | nil => rfl
  | cons op a ih =>
    have h1 : readOps (op :: (a ++ b)) t st =
        match op.read t st with
        | .error e => .error e
        | .ok (t1, st1) => readOps (a ++ b) t1 st1 := rfl
    have h2 : readOps (op :: a) t st =
        match op.read t st with
        | .error e => .error e
        | .ok (t1, st1) => readOps a t1 st1 := rfl
    rw [List.cons_append, h1, h2]
    cases op.read t st with
    | error e => rfl
    | ok p =>
      obtain ⟨t1, st1⟩ := p
      exact ih t1 st1

theorem Op.read_keeps {σ β : Type} (proj : σ → β) (op : Op σ) (h : op.Keeps proj)
    (t t1 : σ) (st rest : Stream) (hr : op.read t st = .ok (t1, rest)) : proj t1 = proj t := by
  induction op generalizing st with
  | readwrite get set c =>
    simp only [Op.read] at hr
    cases hc : c.unser (get t) st with
    | error e => simp [hc] at hr
    | ok p =>
      obtain ⟨v, r⟩ := p
      simp only [hc, Except.ok.injEq, Prod.mk.injEq] at hr
      rw [← hr.1]
      exact h t v
  | guard cond body ih =>
    simp only [Op.read] at hr
    by_cases hc : cond t = true
    · simp only [hc, if_true] at hr
      exact ih h st hr
    · simp only [hc, Bool.false_eq_true, if_false, Except.ok.injEq, Prod.mk.injEq] at hr
      rw [← hr.1]
  | assert cond =>
    simp only [Op.read] at hr
    by_cases hc : cond t = true
    · simp only [hc, if_true, Except.ok.injEq, Prod.mk.injEq] at hr
      rw [← hr.1]
    · simp [hc] at hr

theorem readOps_keeps {σ β : Type} (proj : σ → β) (ops : List (Op σ))
    (h : ∀ op ∈ ops, op.Keeps proj) (t t1 : σ) (st rest : Stream)
    (hr : readOps ops t st = .ok (t1, rest)) : proj t1 = proj t := by
  induction ops generalizing t st with
  | nil =>
    simp only [readOps, Except.ok.injEq, Prod.mk.injEq] at hr
    rw [← hr.1]
  | cons op ops ih =>
    unfold readOps at hr
    cases ho : op.read t st with
    | error e => simp [ho] at hr
    | ok p =>
      obtain ⟨t2, st2⟩ := p
      simp only [ho] at hr
      rw [ih (fun o hmem => h o (List.mem_cons_of_mem _ hmem)) t2 st2 hr]
      exact Op.read_keeps proj op (h op (List.mem_cons_self _ _)) t t2 st st2 ho

/-- What a body leaves in a field that one of its statements reads and no
later statement touches: a value that the codec of the field returned. -/
theorem readOps_field {σ α : Type} (pre post : List (Op σ)) (get : σ → α) (set : σ → α → σ)
    (c : Codec α) (P : α → Prop) (hc : c.Yields P) (hgs : ∀ s v, get (set s v) = v)
    (hpost : ∀ op ∈ post, op.Keeps get) (t v : σ) (st rest : Stream)
    (h : readOps (pre ++ .readwrite get set c :: post) t st = .ok (v, rest)) : P (get v) := by
  rw [readOps_append] at h
  cases hpre : readOps pre t st with
  | error e => simp [hpre] at h
  | ok p =>
    obtain ⟨t1, st1⟩ := p
    simp only [hpre] at h
    unfold readOps at h
    simp only [Op.read] at h
    cases hu : c.unser (get t1) st1 with
    | error e => simp [hu] at h
    | ok q =>
      obtain ⟨x, st2⟩ := q
      simp only [hu] at h
      rw [readOps_keeps get post hpost _ _ _ _ h, hgs]
      exact hc _ _ _ _ hu

/-- A body that ends with an `assert`, when it returns, leaves an object on
which the condition holds. -/
theorem readOps_assert_last {σ : Type} (pre : List (Op σ)) (cond : σ → Bool) (t v : σ)
    (st rest : Stream) (h : readOps (pre ++ [.assert cond]) t st = .ok (v, rest)) :
    cond v = true := by
  rw [readOps_append] at h
  cases hpre : readOps pre t st with
  | error e => simp [hpre] at h
  | ok p =>
    obtain ⟨t1, st1⟩ := p
    simp only [hpre, readOps, Op.read] at h
    by_cases hc : cond t1 = true
    · simp only [hc, if_true, Except.ok.injEq, Prod.mk.injEq] at h
      rw [← h.1]
      exact hc
    · simp [hc] at h

theorem Codec.pair_yields {κ ν : Type} (ck : Codec κ) (cv : Codec ν) (P : ν → Prop)
    (h : cv.Yields P) : (Codec.pair ck cv).Yields (fun p => P p.2) := by
  intro t st v rest hr
  simp only [Codec.pair] at hr
  cases hk : ck.unser t.1 st with
  | error e => simp [hk] at hr
  | ok p =>
    obtain ⟨k, st1⟩ := p
    simp only [hk] at hr
    cases hv : cv.unser t.2 st1 with
    | error e => simp [hv] at hr
    | ok q =>
      obtain ⟨x, st2⟩ := q
      simp only [hv, Except.ok.injEq, Prod.mk.injEq] at hr
      rw [← hr.1]
      exact h _ _ _ _ hv

theorem unserElems_yields {α : Type} (c : Codec α) (P : α → Prop) (h : c.Yields P)
    (n : Nat) (st : Stream) (l : List α) (rest : Stream)
    (hr : unserElems c n st = .ok (l, rest)) : ∀ x ∈ l, P x := by
  induction n generalizing st l rest with
  | zero =>
    simp only [unserElems, Except.ok.injEq, Prod.mk.injEq] at hr
    rw [← hr.1]
    simp
  | succ n ih =>
    unfold unserElems at hr
    cases hx : c.unser c.dflt st with
    | error e => simp [hx] at hr
    | ok p =>
      obtain ⟨x, st1⟩ := p
      simp only [hx] at hr
      cases hxs : unserElems c n st1 with
      | error e => simp [hxs] at hr
      | ok q =>
        obtain ⟨xs, st2⟩ := q
        simp only [hxs, Except.ok.injEq, Prod.mk.injEq] at hr
        rw [← hr.1]
        intro y hy
        rcases List.mem_cons.1 hy with rfl | hy
        · exact h _ _ _ _ hx
        · exact ih st1 xs st2 hxs y hy

theorem mem_mapInsert {κ ν : Type} (less : κ → κ → Bool) (l : List (κ × ν)) (e x : κ × ν)
    (hx : x ∈ mapInsert less l e) : x ∈ l ∨ x = e := by
  induction l with
  | nil =>
    simp only [mapInsert, List.mem_singleton] at hx
    exact Or.inr hx
  | cons y ys ih =>
    unfold mapInsert at hx
    split at hx
    · rcases List.mem_cons.1 hx with rfl | hx
      · exact Or.inr rfl
      · exact Or.inl hx
    · split at hx
      · rcases List.mem_cons.1 hx with rfl | hx
        · exact Or.inl (List.mem_cons_self _ _)
        · rcases ih hx with h | h
          · exact Or.inl (List.mem_cons_of_mem _ h)
          · exact Or.inr h
      · exact Or.inl hx

theorem mem_foldl_mapInsert {κ ν : Type} (less : κ → κ → Bool) (l acc : List (κ × ν))
    (x : κ × ν) (hx : x ∈ l.foldl (mapInsert less) acc) : x ∈ acc ∨ x ∈ l := by
  induction l generalizing acc with
  | nil => exact Or.inl hx
  | cons e l ih =>
    rcases ih (mapInsert less acc e) hx with h | h
    · rcases mem_mapInsert less acc e x h with h | h
      · exact Or.inl h
      · exact Or.inr (h ▸ List.mem_cons_self _ _)
    · exact Or.inr (List.mem_cons_of_mem _ h)

theorem Codec.map_yields {κ ν : Type} (less : κ → κ → Bool) (ck : Codec κ) (cv : Codec ν)
    (P : ν → Prop) (h : cv.Yields P) :
    (Codec.map less ck cv).Yields (fun m => ∀ e ∈ m, P e.2) := by
  intro t st v rest hr
  simp only [Codec.map] at hr
  cases st with
  | nil => simp at hr
  | cons i st =>
    cases i <;> try simp at hr
    rename_i n
    cases hl : unserElems (Codec.pair ck cv) n st with
    | error e => simp [hl] at hr
    | ok p =>
      obtain ⟨l, st1⟩ := p
      simp only [hl, Except.ok.injEq, Prod.mk.injEq] at hr
      rw [← hr.1]
      intro e he
      rcases mem_foldl_mapInsert less l [] e he with hm | hm
      · simp at hm
      · exact unserElems_yields (Codec.pair ck cv) (fun p => P p.2)
          (Codec.pair_yields ck cv P h) n st l st1 hl e hm

theorem CollectedLootInfo_codec_yields :
    CollectedLootInfo.codec.Yields (fun c => c.IsRefund = false) := by
  intro t st v rest hr
  have hsplit : CollectedLootInfo.SerializationOp =
      List.take 3 CollectedLootInfo.SerializationOp ++ [.assert (fun s => !s.IsRefund)] := rfl
  simp only [CollectedLootInfo.codec, Codec.ofOps] at hr
  rw [hsplit] at hr
  have := readOps_assert_last _ _ t v st rest hr
  simpa using this

theorem CharacterState_codec_yields :
    CharacterState.codec.Yields (fun c => c.loot.IsRefund = false) := by
  intro t st v rest hr
  have hsplit : CharacterState.SerializationOp =
      List.take 4 CharacterState.SerializationOp ++
        .readwrite (fun s => s.loot) (fun s v => { s with loot := v }) CollectedLootInfo.codec ::
          List.drop 5 CharacterState.SerializationOp := rfl
  simp only [CharacterState.codec, Codec.ofOps] at hr
  rw [hsplit] at hr
  exact readOps_field _ _ _ _ _ (fun c => c.IsRefund = false) CollectedLootInfo_codec_yields
    (fun _ _ => rfl) (by simp [CharacterState.SerializationOp, Op.Keeps]) t v st rest hr

theorem PlayerState_codec_yields : PlayerState.codec.Yields PlayerState.NoRefund := by
  intro t st v rest hr
  have hsplit : PlayerState.SerializationOp =
      List.take 1 PlayerState.SerializationOp ++
        .readwrite (fun s => s.characters) (fun s v => { s with characters := v })
          (Codec.map intLess Codec.i32 CharacterState.codec) ::
          List.drop 2 PlayerState.SerializationOp := rfl
  simp only [PlayerState.codec, Codec.ofOps] at hr
  rw [hsplit] at hr
  exact readOps_field _ _ _ _ _ (fun m => ∀ e ∈ m, e.2.loot.IsRefund = false)
    (Codec.map_yields _ _ _ _ CharacterState_codec_yields)
    (fun _ _ => rfl) (by simp [PlayerState.SerializationOp, Op.Keeps]) t v st rest hr

/-- No read of a `GameState` returns a state in which a character carries a
refund. -/
theorem GameState.unserialize_noRefund (nType : Nat) (t s : GameState) (st rest : Stream)
    (hr : GameState.Unserialize nType t st = .ok (s, rest)) : s.NoRefund := by
  have hmap := Codec.map_yields stringLess Codec.str PlayerState.codec _ PlayerState_codec_yields
  have hsplit1 : GameState.SerializationOp nType =
      List.take 1 (GameState.SerializationOp nType) ++
        .readwrite (fun s => s.players) (fun s v => { s with players := v })
          (Codec.map stringLess Codec.str PlayerState.codec) ::
          List.drop 2 (GameState.SerializationOp nType) := rfl
  have hsplit2 : GameState.SerializationOp nType =
      List.take 2 (GameState.SerializationOp nType) ++
        .readwrite (fun s => s.dead_players_chat) (fun s v => { s with dead_players_chat := v })
          (Codec.map stringLess Codec.str PlayerState.codec) ::
          List.drop 3 (GameState.SerializationOp nType) := rfl
  have h1 := hr
  have h2 := hr
  unfold GameState.Unserialize at h1 h2
  rw [hsplit1] at h1
  rw [hsplit2] at h2
  exact ⟨readOps_field _ _ _ _ _ _ hmap (fun _ _ => rfl)
      (by simp [GameState.SerializationOp, Op.Keeps]) t s st rest h1,
    readOps_field _ _ _ _ _ _ hmap (fun _ _ => rfl)
      (by simp [GameState.SerializationOp, Op.Keeps]) t s st rest h2⟩

theorem Op.write_assertsOnly {σ : Type} (op : Op σ) (h : op.AssertsOnly) (s : σ) (e : SerError)
    (hw : op.write s = .error e) : e = .assertFailed := by
  induction op with
  | readwrite get set c => exact h (get s) e hw
  | guard cond body ih =>
    simp only [Op.write] at hw
    by_cases hc : cond s = true
    · simp only [hc, if_true] at hw
      exact ih h hw
    · simp [hc] at hw
  | assert cond =>
    simp only [Op.write] at hw
    by_cases hc : cond s = true
    · simp [hc] at hw
    · simp only [hc, Bool.false_eq_true, if_false, Except.error.injEq] at hw
      exact hw.symm

theorem writeOps_assertsOnly {σ : Type} (ops : List (Op σ)) (h : ∀ op ∈ ops, op.AssertsOnly)
    (s : σ) (e : SerError) (hw : writeOps ops s = .error e) : e = .assertFailed := by
  induction ops with
  | nil => simp [writeOps] at hw
  | cons op ops ih =>
    unfold writeOps at hw
    cases ha : op.write s with
    | error e1 =>
      simp only [ha, Except.error.injEq] at hw
      rw [← hw]
      exact Op.write_assertsOnly op (h op (List.mem_cons_self _ _)) s e1 ha
    | ok a =>
      cases hb : writeOps ops s with
      | error e1 =>
        simp only [ha, hb, Except.error.injEq] at hw
        subst hw
        exact ih (fun o ho => h o (List.mem_cons_of_mem _ ho)) hb
      | ok b => simp [ha, hb] at hw

theorem Codec.ofOps_assertsOnly {σ : Type} (dflt : σ) (ops : List (Op σ))
    (h : ∀ op ∈ ops, op.AssertsOnly) : (Codec.ofOps dflt ops).AssertsOnly :=
  fun v e hw => writeOps_assertsOnly ops h v e hw

@[simp] theorem Codec.u8_assertsOnly : Codec.u8.AssertsOnly := fun _ _ h => by cases h
@[simp] theorem Codec.i32_assertsOnly : Codec.i32.AssertsOnly := fun _ _ h => by cases h
@[simp] theorem Codec.u32_assertsOnly : Codec.u32.AssertsOnly := fun _ _ h => by cases h
@[simp] theorem Codec.i64_assertsOnly : Codec.i64.AssertsOnly := fun _ _ h => by cases h
@[simp] theorem Codec.u64_assertsOnly : Codec.u64.AssertsOnly := fun _ _ h => by cases h
@[simp] theorem Codec.u256_assertsOnly : Codec.u256.AssertsOnly := fun _ _ h => by cases h
@[simp] theorem Codec.str_assertsOnly : Codec.str.AssertsOnly := fun _ _ h => by cases h

theorem Codec.pair_assertsOnly {κ ν : Type} (ck : Codec κ) (cv : Codec ν)
    (hk : ck.AssertsOnly) (hv : cv.AssertsOnly) : (Codec.pair ck cv).AssertsOnly := by
  intro p e hw
  simp only [Codec.pair] at hw
  cases ha : ck.ser p.1 with
  | error e1 =>
    simp only [ha, Except.error.injEq] at hw
    rw [← hw]
    exact hk _ _ ha
  | ok a =>
    cases hb : cv.ser p.2 with
    | error e1 =>
      simp only [ha, hb, Except.error.injEq] at hw
      rw [← hw]
      exact hv _ _ hb
    | ok b => simp [ha, hb] at hw

theorem serElems_assertsOnly {α : Type} (c : Codec α) (hc : c.AssertsOnly) (l : List α)
    (e : SerError) (hw : serElems c l = .error e) : e = .assertFailed := by
  induction l with
  | nil => simp [serElems] at hw
  | cons x xs ih =>
    unfold serElems at hw
    cases ha : c.ser x with
    | error e1 =>
      simp only [ha, Except.error.injEq] at hw
      rw [← hw]
      exact hc _ _ ha
    | ok a =>
      cases hb : serElems c xs with
      | error e1 =>
        simp only [ha, hb, Except.error.injEq] at hw
        subst hw
        exact ih hb
      | ok b => simp [ha, hb] at hw

theorem serContainer_assertsOnly {α : Type} (c : Codec α) (hc : c.AssertsOnly) (l : List α)
    (e : SerError) (hw : serContainer c l = .error e) : e = .assertFailed := by
  unfold serContainer at hw
  cases hb : serElems c l with
  | error e1 =>
    simp only [hb, Except.error.injEq] at hw
    rw [← hw]
    exact serElems_assertsOnly c hc l e1 hb
  | ok b => simp [hb] at hw

theorem Codec.vector_assertsOnly {α : Type} (c : Codec α) (hc : c.AssertsOnly) :
    (Codec.vector c).AssertsOnly :=
  fun l e hw => serContainer_assertsOnly c hc l e hw

theorem Codec.set_assertsOnly {κ : Type} (less : κ → κ → Bool) (ck : Codec κ)
    (hk : ck.AssertsOnly) : (Codec.set less ck).AssertsOnly :=
  fun l e hw => serContainer_assertsOnly ck hk l e hw

theorem Codec.map_assertsOnly {κ ν : Type} (less : κ → κ → Bool) (ck : Codec κ) (cv : Codec ν)
    (hk : ck.AssertsOnly) (hv : cv.AssertsOnly) : (Codec.map less ck cv).AssertsOnly :=
  fun l e hw => serContainer_assertsOnly _ (Codec.pair_assertsOnly ck cv hk hv) l e hw

@[simp] theorem Coord_codec_assertsOnly : Coord.codec.AssertsOnly :=
  Codec.ofOps_assertsOnly _ _ (by simp [Coord.SerializationOp, Op.AssertsOnly])

@[simp] theorem LootInfo_codec_assertsOnly : LootInfo.codec.AssertsOnly :=
  Codec.ofOps_assertsOnly _ _ (by simp [LootInfo.SerializationOp, Op.AssertsOnly])

@[simp] theorem CollectedLootInfo_codec_assertsOnly : CollectedLootInfo.codec.AssertsOnly :=
  Codec.ofOps_assertsOnly _ _ (by simp [CollectedLootInfo.SerializationOp, Op.AssertsOnly])

@[simp] theorem CharacterState_codec_assertsOnly : CharacterState.codec.AssertsOnly :=
  Codec.ofOps_assertsOnly _ _
    (by simp [CharacterState.SerializationOp, Op.AssertsOnly, Codec.vector_assertsOnly])

@[simp] theorem PlayerState_codec_assertsOnly : PlayerState.codec.AssertsOnly :=
  Codec.ofOps_assertsOnly _ _
    (by simp [PlayerState.SerializationOp, Op.AssertsOnly, Codec.map_assertsOnly])

/-- Writing a `GameState` fails by a failing `assert` only. -/
theorem GameState.serialize_assertsOnly (nType : Nat) (s : GameState) (e : SerError)
    (hw : GameState.Serialize nType s = .error e) : e = .assertFailed :=
  writeOps_assertsOnly (GameState.SerializationOp nType)
    (by simp [GameState.SerializationOp, Op.AssertsOnly, Codec.map_assertsOnly,
      Codec.set_assertsOnly]) s e hw

theorem writeOps_ok_mem {σ : Type} (ops : List (Op σ)) (s : σ) (bytes : Stream)
    (h : writeOps ops s = .ok bytes) : ∀ op ∈ ops, ∃ b, op.write s = .ok b := by
  induction ops generalizing bytes with
  | nil => simp
  | cons op ops ih =>
    unfold writeOps at h
    cases ha : op.write s with
    | error e => simp [ha] at h
    | ok a =>
      cases hb : writeOps ops s with
      | error e => simp [ha, hb] at h
      | ok b =>
        intro o ho
        rcases List.mem_cons.1 ho with rfl | ho
        · exact ⟨a, ha⟩
        · exact ih b hb o ho

theorem serElems_ok_mem {α : Type} (c : Codec α) (l : List α) (bytes : Stream)
    (h : serElems c l = .ok bytes) : ∀ x ∈ l, c.Writes x := by
  induction l generalizing bytes with
  | nil => simp
  | cons x xs ih =>
    unfold serElems at h
    cases ha : c.ser x with
    | error e => simp [ha] at h
    | ok a =>
      cases hb : serElems c xs with
      | error e => simp [ha, hb] at h
      | ok b =>
        intro y hy
        rcases List.mem_cons.1 hy with rfl | hy
        · exact ⟨a, ha⟩
        · exact ih b hb y hy

theorem serContainer_ok_mem {α : Type} (c : Codec α) (l : List α) (bytes : Stream)
    (h : serContainer c l = .ok bytes) : ∀ x ∈ l, c.Writes x := by
  unfold serContainer at h
  cases hb : serElems c l with
  | error e => simp [hb] at h
  | ok b => exact serElems_ok_mem c l b hb

theorem Codec.pair_writes_snd {κ ν : Type} (ck : Codec κ) (cv : Codec ν) (p : κ × ν)
    (h : (Codec.pair ck cv).Writes p) : cv.Writes p.2 := by
  obtain ⟨bytes, hb⟩ := h
  simp only [Codec.pair] at hb
  cases ha : ck.ser p.1 with
  | error e => simp [ha] at hb
  | ok a =>
    cases hv : cv.ser p.2 with
    | error e => simp [ha, hv] at hb
    | ok b => exact ⟨b, hv⟩

theorem Codec.map_writes_mem {κ ν : Type} (less : κ → κ → Bool) (ck : Codec κ) (cv : Codec ν)
    (m : List (κ × ν)) (h : (Codec.map less ck cv).Writes m) : ∀ e ∈ m, cv.Writes e.2 := by
  obtain ⟨bytes, hb⟩ := h
  intro e he
  exact Codec.pair_writes_snd ck cv e (serContainer_ok_mem _ m bytes hb e he)

theorem CollectedLootInfo_refund_not_written (c : CollectedLootInfo) (h : c.IsRefund = true) :
    CollectedLootInfo.codec.ser c = .error .assertFailed := by
  simp [CollectedLootInfo.codec, Codec.ofOps, CollectedLootInfo.SerializationOp, writeOps,
    Op.write, LootInfo.codec, LootInfo.SerializationOp, Codec.i64, Codec.i32, h]

theorem CollectedLootInfo_written_not_refund (c : CollectedLootInfo)
    (h : CollectedLootInfo.codec.Writes c) : c.IsRefund = false := by
  obtain ⟨bytes, hb⟩ := h
  cases hr : c.IsRefund with
  | false => rfl
  | true =>
    rw [CollectedLootInfo_refund_not_written c hr] at hb
    cases hb

theorem CharacterState_written_not_refund (v : CharacterState)
    (h : CharacterState.codec.Writes v) : v.loot.IsRefund = false := by
  obtain ⟨bytes, hb⟩ := h
  have := writeOps_ok_mem CharacterState.SerializationOp v bytes hb
    (.readwrite (fun s => s.loot) (fun s v => { s with loot := v }) CollectedLootInfo.codec)
    (by simp [CharacterState.SerializationOp])
  exact CollectedLootInfo_written_not_refund v.loot this

theorem PlayerState_written_noRefund (v : PlayerState) (h : PlayerState.codec.Writes v) :
    v.NoRefund := by
  obtain ⟨bytes, hb⟩ := h
  have := writeOps_ok_mem PlayerState.SerializationOp v bytes hb
    (.readwrite (fun s => s.characters) (fun s v => { s with characters := v })
      (Codec.map intLess Codec.i32 CharacterState.codec))
    (by simp [PlayerState.SerializationOp])
  intro e he
  exact CharacterState_written_not_refund e.2 (Codec.map_writes_mem _ _ _ _ this e he)

/-- A `GameState` that is written has no character that carries a refund. -/
theorem GameState.serialize_noRefund (nType : Nat) (s : GameState) (bytes : Stream)
    (h : GameState.Serialize nType s = .ok bytes) : s.NoRefund := by
  have h1 := writeOps_ok_mem (GameState.SerializationOp nType) s bytes h
    (.readwrite (fun s => s.players) (fun s v => { s with players := v })
      (Codec.map stringLess Codec.str PlayerState.codec))
    (by simp [GameState.SerializationOp])
  have h2 := writeOps_ok_mem (GameState.SerializationOp nType) s bytes h
    (.readwrite (fun s => s.dead_players_chat) (fun s v => { s with dead_players_chat := v })
      (Codec.map stringLess Codec.str PlayerState.codec))
    (by simp [GameState.SerializationOp])
  exact ⟨fun e he => PlayerState_written_noRefund e.2 (Codec.map_writes_mem _ _ _ _ h1 e he),
    fun e he => PlayerState_written_noRefund e.2 (Codec.map_writes_mem _ _ _ _ h2 e he)⟩

/-! ## The claim on refunds in snapshots -/

theorem CollectedLootInfo_written (v : CollectedLootInfo) (h : v.IsRefund = false) :
    CollectedLootInfo.codec.ser v =
      .ok [.i64 v.nAmount, .i32 v.firstBlock, .i32 v.lastBlock, .i32 v.collectedFirstBlock,
           .i32 v.collectedLastBlock] := by
  simp [CollectedLootInfo.codec, Codec.ofOps, CollectedLootInfo.SerializationOp, writeOps,
    Op.write, LootInfo.codec, LootInfo.SerializationOp, Codec.i64, Codec.i32, h]

theorem CollectedLootInfo_refund_not_read (c t : CollectedLootInfo) (rest : Stream)
    (h : c.IsRefund = true) :
    CollectedLootInfo.codec.unser t
      (.i64 c.nAmount :: .i32 c.firstBlock :: .i32 c.lastBlock :: .i32 c.collectedFirstBlock ::
        .i32 c.collectedLastBlock :: rest) = .error .assertFailed := by
  simp only [CollectedLootInfo.IsRefund, Bool.and_eq_true, decide_eq_true_eq] at h
  have hpos : ¬ c.nAmount ≤ 0 := not_le.2 h.1
  simp [CollectedLootInfo.codec, Codec.ofOps, CollectedLootInfo.SerializationOp, readOps,
    Op.read, LootInfo.codec, LootInfo.SerializationOp, Codec.i64, Codec.i32,
    CollectedLootInfo.IsRefund, h, hpos]

/-- C31: writing a `CollectedLootInfo` that is a refund fails the assertion
of `SerializationOp`, and so does reading one (all five fields are read, then
the assertion fails); a `CollectedLootInfo` that is not a refund is written
and read back.  Hence a `CharacterState` that carries the refund is not
written (the assertion fails) and no read returns it, and a `GameState` in
which a character of a player carries the refund is not written (an
assertion fails, for every serialisation type) and no read returns it. -/
theorem C31_refund_not_in_snapshot (c : CollectedLootInfo) (hc : c.IsRefund = true) :
    CollectedLootInfo.codec.ser c = .error .assertFailed ∧
    (∀ t rest, CollectedLootInfo.codec.unser t
      (.i64 c.nAmount :: .i32 c.firstBlock :: .i32 c.lastBlock :: .i32 c.collectedFirstBlock ::
        .i32 c.collectedLastBlock :: rest) = .error .assertFailed) ∧
    (∀ v : CollectedLootInfo, v.IsRefund = false →
      CollectedLootInfo.codec.ser v =
        .ok [.i64 v.nAmount, .i32 v.firstBlock, .i32 v.lastBlock, .i32 v.collectedFirstBlock,
             .i32 v.collectedLastBlock] ∧
      ∀ t rest, CollectedLootInfo.codec.unser t
        ([.i64 v.nAmount, .i32 v.firstBlock, .i32 v.lastBlock, .i32 v.collectedFirstBlock,
          .i32 v.collectedLastBlock] ++ rest) = .ok (v, rest)) ∧
    (∀ ch : CharacterState, ch.loot = c →
      CharacterState.codec.ser ch = .error .assertFailed ∧
      ∀ t st rest, CharacterState.codec.unser t st ≠ .ok (ch, rest)) ∧
    (∀ (nType : Nat) (s : GameState),
      (∃ e ∈ s.players ++ s.dead_players_chat, ∃ ch ∈ e.2.characters, ch.2.loot = c) →
      GameState.Serialize nType s = .error .assertFailed ∧
      ∀ t st rest, GameState.Unserialize nType t st ≠ .ok (s, rest)) := by
  refine ⟨CollectedLootInfo_refund_not_written c hc,
    fun t rest => CollectedLootInfo_refund_not_read c t rest hc, ?_, ?_, ?_⟩
  · intro v hv
    have hw := CollectedLootInfo_written v hv
    exact ⟨hw, fun t rest => CollectedLootInfo_codec_roundTrips v t _ rest hw⟩
  · intro ch hch
    have hloot : ch.loot.IsRefund = true := by rw [hch]; exact hc
    constructor
    · cases hw : CharacterState.codec.ser ch with
      | error e => rw [CharacterState_codec_assertsOnly ch e hw]
      | ok bytes =>
        have := CharacterState_written_not_refund ch ⟨bytes, hw⟩
        rw [hloot] at this
        cases this
    · intro t st rest hr
      have := CharacterState_codec_yields t st ch rest hr
      simp only at this
      rw [hloot] at this
      cases this
  · intro nType s hs
    have hno : ¬ s.NoRefund := by
      intro hn
      obtain ⟨e, he, ch, hch, hl⟩ := hs
      have hloot : ch.2.loot.IsRefund = true := by rw [hl]; exact hc
      rcases List.mem_append.1 he with he | he
      · have := hn.1 e he ch hch
        rw [hloot] at this
        cases this
      · have := hn.2 e he ch hch
        rw [hloot] at this
        cases this
    constructor
    · cases hw : GameState.Serialize nType s with
      | error e => rw [GameState.serialize_assertsOnly nType s e hw]
      | ok bytes => exact absurd (GameState.serialize_noRefund nType s bytes hw) hno
    · intro t st rest hr
      exact hno (GameState.unserialize_noRefund nType t s st rest hr)

/-- C31 at the refund of `sampleRefund` (20 coins, refunded at height 9), a
character that carries it, and `sampleRefundState`. -/
theorem C31_refund_not_in_snapshot_witness :
    sampleRefund.loot.IsRefund = true ∧
    CollectedLootInfo.codec.ser sampleRefund.loot = .error .assertFailed ∧
    CollectedLootInfo.codec.unser CollectedLootInfo.new
      [.i64 20, .i32 (-1), .i32 (-1), .i32 (-1), .i32 9] = .error .assertFailed ∧
    CharacterState.codec.ser sampleRefundCharacter = .error .assertFailed ∧
    GameState.Serialize SER_DISK sampleRefundState = .error .assertFailed ∧
    GameState.Serialize SER_DISK sampleState = .ok sampleStream :=
  ⟨by decide, (C31_refund_not_in_snapshot sampleRefund.loot (by decide)).1,
   (C31_refund_not_in_snapshot sampleRefund.loot (by decide)).2.1 CollectedLootInfo.new [],
   ((C31_refund_not_in_snapshot sampleRefund.loot (by decide)).2.2.2.1
      sampleRefundCharacter rfl).1,
   ((C31_refund_not_in_snapshot sampleRefund.loot (by decide)).2.2.2.2 SER_DISK
      sampleRefundState
      ⟨([98], { samplePlayer with characters := [(0, sampleRefundCharacter)] }),
       by simp [sampleRefundState], (0, sampleRefundCharacter), by simp, rfl⟩).1,
   rfl⟩

/-! ## The claim on `crownHolder.index` in the snapshot -/

theorem writeOps_congr {σ : Type} (ops : List (Op σ)) (s1 s2 : σ)
    (h : ∀ op ∈ ops, op.write s1 = op.write s2) : writeOps ops s1 = writeOps ops s2 := by
  induction ops with
  | nil => rfl
  | cons op ops ih =>
    unfold writeOps
    rw [h op (List.mem_cons_self _ _), ih (fun o ho => h o (List.mem_cons_of_mem _ ho))]

/-- The statements of `GameState::SerializationOp` other than the
conditional one write the same for two states that differ in
`crownHolder.index` only. -/
theorem GameState.write_index_irrelevant (nType : Nat) (s : GameState) (i : Int) :
    (∀ op ∈ List.take 7 (GameState.SerializationOp nType),
      op.write { s with crownHolder := { s.crownHolder with index := i } } = op.write s) ∧
    (∀ op ∈ List.take 8 (GameState.SerializationOp nType),
      op.write { s with crownHolder := { s.crownHolder with index := i } } = op.write s) ∧
    (∀ op ∈ List.drop 9 (GameState.SerializationOp nType),
      op.write { s with crownHolder := { s.crownHolder with index := i } } = op.write s) := by
  refine ⟨?_, ?_, ?_⟩
  · simp [GameState.SerializationOp, Op.write]
  · simp [GameState.SerializationOp, Op.write]
  · simp [GameState.SerializationOp, Op.write]

/-- The stream of a `GameState`: what the statements before
`READWRITE (crownHolder.player)` write, the player name, the index if the
name is not empty, and what the statements from `READWRITE (gameFund)` on
write. -/
theorem GameState.serialize_parts (nType : Nat) (s : GameState) (bytes : Stream)
    (henc : GameState.Serialize nType s = .ok bytes) :
    ∃ pre post, writeOps (List.take 7 (GameState.SerializationOp nType)) s = .ok pre ∧
      writeOps (List.drop 9 (GameState.SerializationOp nType)) s = .ok post ∧
      bytes = pre ++ .str s.crownHolder.player ::
        ((if s.crownHolder.player = [] then [] else [.i32 s.crownHolder.index]) ++ post) := by
  have hsplit : GameState.SerializationOp nType =
      List.take 7 (GameState.SerializationOp nType) ++
        ([ .readwrite (fun s => s.crownHolder.player)
            (fun s v => { s with crownHolder := { s.crownHolder with player := v } }) Codec.str,
           .guard (fun s => !s.crownHolder.player.isEmpty)
            (.readwrite (fun s => s.crownHolder.index)
              (fun s v => { s with crownHolder := { s.crownHolder with index := v } })
              Codec.i32) ] ++
          List.drop 9 (GameState.SerializationOp nType)) := rfl
  have hmid : ∀ s : GameState, writeOps
      [ .readwrite (fun s => s.crownHolder.player)
          (fun s v => { s with crownHolder := { s.crownHolder with player := v } }) Codec.str,
        .guard (fun s => !s.crownHolder.player.isEmpty)
          (.readwrite (fun s => s.crownHolder.index)
            (fun s v => { s with crownHolder := { s.crownHolder with index := v } })
            Codec.i32) ] s =
      .ok (.str s.crownHolder.player ::
        (if s.crownHolder.player = [] then [] else [.i32 s.crownHolder.index])) := by
    intro s
    by_cases hp : s.crownHolder.player = []
    · simp [writeOps, Op.write, Codec.str, Codec.i32, hp]
    · simp [writeOps, Op.write, Codec.str, Codec.i32, hp]
  unfold GameState.Serialize at henc
  rw [hsplit, writeOps_append, writeOps_append, hmid] at henc
  cases hpre : writeOps (List.take 7 (GameState.SerializationOp nType)) s with
  | error e => simp [hpre] at henc
  | ok pre =>
    cases hpost : writeOps (List.drop 9 (GameState.SerializationOp nType)) s with
    | error e => simp [hpre, hpost] at henc
    | ok post =>
      simp only [hpre, hpost, Except.ok.injEq] at henc
      exact ⟨pre, post, rfl, rfl, by rw [← henc]; simp⟩

/-- What a read of a `GameState` does with `crownHolder.index`: the
statements before the conditional one leave it as it is in the object; the
conditional statement reads it from the next item if the player name that
was just read is not empty, and does nothing otherwise; the later statements
leave `crownHolder` as it is. -/
theorem GameState.unserialize_index (nType : Nat) (t s : GameState) (st rest : Stream)
    (hr : GameState.Unserialize nType t st = .ok (s, rest)) :
    ∃ t1 st1, readOps (List.take 8 (GameState.SerializationOp nType)) t st = .ok (t1, st1) ∧
      t1.crownHolder.index = t.crownHolder.index ∧
      s.crownHolder.player = t1.crownHolder.player ∧
      (s.crownHolder.player = [] →
        s.crownHolder.index = t.crownHolder.index ∧
        readOps (List.drop 9 (GameState.SerializationOp nType)) t1 st1 = .ok (s, rest)) ∧
      (s.crownHolder.player ≠ [] →
        ∃ st2, st1 = .i32 s.crownHolder.index :: st2 ∧
          readOps (List.drop 9 (GameState.SerializationOp nType))
            { t1 with crownHolder := { t1.crownHolder with index := s.crownHolder.index } } st2 =
            .ok (s, rest)) := by
  have hsplit : GameState.SerializationOp nType =
      List.take 8 (GameState.SerializationOp nType) ++
        (.guard (fun s => !s.crownHolder.player.isEmpty)
            (.readwrite (fun s => s.crownHolder.index)
              (fun s v => { s with crownHolder := { s.crownHolder with index := v } })
              Codec.i32) ::
          List.drop 9 (GameState.SerializationOp nType)) := rfl
  have hkeep1 : ∀ op ∈ List.take 8 (GameState.SerializationOp nType),
      op.Keeps (fun s : GameState => s.crownHolder.index) := by
    simp [GameState.SerializationOp, Op.Keeps]
  have hkeep2 : ∀ op ∈ List.drop 9 (GameState.SerializationOp nType),
      op.Keeps (fun s : GameState => s.crownHolder) := by
    simp [GameState.SerializationOp, Op.Keeps]
  unfold GameState.Unserialize at hr
  rw [hsplit, readOps_append] at hr
  cases hpre : readOps (List.take 8 (GameState.SerializationOp nType)) t st with
  | error e => simp [hpre] at hr
  | ok p =>
    obtain ⟨t1, st1⟩ := p
    simp only [hpre] at hr
    have h1 : t1.crownHolder.index = t.crownHolder.index :=
      readOps_keeps _ _ hkeep1 t t1 st st1 hpre
    unfold readOps at hr
    simp only [Op.read] at hr
    by_cases hp : t1.crownHolder.player = []
    · simp only [hp, List.isEmpty_nil, Bool.not_true, Bool.false_eq_true, if_false] at hr
      have h2 : s.crownHolder = t1.crownHolder := readOps_keeps _ _ hkeep2 t1 s st1 rest hr
      refine ⟨t1, st1, rfl, h1, by rw [h2], ?_, ?_⟩
      · intro _
        exact ⟨by rw [h2, h1], hr⟩
      · intro hne
        rw [h2] at hne
        exact absurd hp hne
    · have hcond : (!t1.crownHolder.player.isEmpty) = true := by
        cases hpl : t1.crownHolder.player with
        | nil => exact absurd hpl hp
        | cons a l => rfl
      simp only [hcond, if_true] at hr
      cases st1 with
      | nil => simp [Codec.i32] at hr
      | cons item st2 =>
        cases item with
        | i32 v =>
          simp only [Codec.i32] at hr
          have h2 := readOps_keeps _ _ hkeep2 _ s st2 rest hr
          simp only at h2
          have hidx : s.crownHolder.index = v := by rw [h2]
          have hpl : s.crownHolder.player = t1.crownHolder.player := by rw [h2]
          refine ⟨t1, .i32 v :: st2, rfl, h1, hpl, ?_, ?_⟩
          · intro he
            rw [hpl] at he
            exact absurd he hp
          · intro _
            rw [hidx]
            exact ⟨st2, rfl, hr⟩
        | _ => simp [Codec.i32] at hr


/-- Two states that differ in `crownHolder.index` only, with an empty
`crownHolder.player`, are written the same. -/
theorem GameState.serialize_crownless (nType : Nat) (s : GameState) (i : Int)
    (hp : s.crownHolder.player = []) :
    GameState.Serialize nType { s with crownHolder := { s.crownHolder with index := i } } =
      GameState.Serialize nType s := by
  have hsplit : GameState.SerializationOp nType =
      List.take 8 (GameState.SerializationOp nType) ++
        (.guard (fun s => !s.crownHolder.player.isEmpty)
            (.readwrite (fun s => s.crownHolder.index)
              (fun s v => { s with crownHolder := { s.crownHolder with index := v } })
              Codec.i32) ::
          List.drop 9 (GameState.SerializationOp nType)) := rfl
  obtain ⟨_, h8, h9⟩ := GameState.write_index_irrelevant nType s i
  unfold GameState.Serialize
  apply writeOps_congr
  intro op hop
  rw [hsplit] at hop
  rcases List.mem_append.1 hop with hop | hop
  · exact h8 op hop
  · rcases List.mem_cons.1 hop with rfl | hop
    · simp [Op.write, hp]
    · exact h9 op hop

/-- C32: the stream of a `GameState` holds `crownHolder.index` (as the item
after the player name) exactly when `crownHolder.player` is not empty: with
an empty name, a state that differs in the index only has the same stream;
with a non-empty name, a state that has the same stream has the same index.
A read takes `crownHolder.index` from the item after the player name exactly
when the name it has read is not empty, and otherwise leaves the index of
the object it reads into. -/
theorem C32_crown_index_in_stream (nType : Nat) (s : GameState) (bytes : Stream)
    (henc : GameState.Serialize nType s = .ok bytes) :
    (∃ pre post, writeOps (List.take 7 (GameState.SerializationOp nType)) s = .ok pre ∧
      writeOps (List.drop 9 (GameState.SerializationOp nType)) s = .ok post ∧
      bytes = pre ++ .str s.crownHolder.player ::
        ((if s.crownHolder.player = [] then [] else [.i32 s.crownHolder.index]) ++ post)) ∧
    (s.crownHolder.player = [] → ∀ i,
      GameState.Serialize nType { s with crownHolder := { s.crownHolder with index := i } } =
        .ok bytes) ∧
    (s.crownHolder.player ≠ [] → ∀ i,
      GameState.Serialize nType { s with crownHolder := { s.crownHolder with index := i } } =
        .ok bytes → i = s.crownHolder.index) ∧
    (∀ t st s1 rest, GameState.Unserialize nType t st = .ok (s1, rest) →
      (s1.crownHolder.player = [] → s1.crownHolder.index = t.crownHolder.index) ∧
      (s1.crownHolder.player ≠ [] → ∃ t1 st2,
        readOps (List.take 8 (GameState.SerializationOp nType)) t st =
          .ok (t1, .i32 s1.crownHolder.index :: st2) ∧
        t1.crownHolder.player = s1.crownHolder.player)) := by
  refine ⟨GameState.serialize_parts nType s bytes henc, ?_, ?_, ?_⟩
  · intro hp i
    rw [GameState.serialize_crownless nType s i hp]
    exact henc
  · intro hp i henc2
    obtain ⟨pre, post, h1, h2, h3⟩ := GameState.serialize_parts nType s bytes henc
    obtain ⟨pre2, post2, k1, k2, k3⟩ := GameState.serialize_parts nType _ bytes henc2
    obtain ⟨g7, _, _⟩ := GameState.write_index_irrelevant nType s i
    rw [writeOps_congr _ _ _ g7, h1] at k1
    simp only [Except.ok.injEq] at k1
    subst k1
    simp only [hp, if_false] at h3 k3
    rw [h3] at k3
    have := List.append_cancel_left k3
    simp only [List.cons.injEq, true_and, List.cons_append, List.nil_append,
      Item.i32.injEq] at this
    exact this.1.symm
  · intro t st s1 rest hr
    obtain ⟨t1, st1, h1, _, h3, h4, h5⟩ := GameState.unserialize_index nType t s1 st rest hr
    refine ⟨fun he => (h4 he).1, fun hne => ?_⟩
    obtain ⟨st2, hst, _⟩ := h5 hne
    exact ⟨t1, st2, by rw [h1, hst], h3.symm⟩

set_option maxRecDepth 8192 in
/-- C32 at `sampleStateNoCrown` (nobody holds the crown, index 7): with the
index 0 the stream is the same; and at `sampleState` (`[97]` holds the
crown): the stream has the index. -/
theorem C32_crown_index_in_stream_witness :
    GameState.Serialize SER_DISK sampleStateNoCrown = .ok sampleStreamNoCrown ∧
    sampleStateNoCrown.crownHolder = ⟨[], 7⟩ ∧
    GameState.Serialize SER_DISK
      { sampleStateNoCrown with
        crownHolder := { sampleStateNoCrown.crownHolder with index := 0 } } =
      .ok sampleStreamNoCrown ∧
    sampleStream.length = sampleStreamNoCrown.length + 1 ∧
    (∃ pre post,
      writeOps (List.take 7 (GameState.SerializationOp SER_DISK)) sampleState = .ok pre ∧
      writeOps (List.drop 9 (GameState.SerializationOp SER_DISK)) sampleState = .ok post ∧
      sampleStream = pre ++ .str sampleState.crownHolder.player ::
        ((if sampleState.crownHolder.player = [] then []
          else [.i32 sampleState.crownHolder.index]) ++ post)) :=
  ⟨rfl, rfl, (C32_crown_index_in_stream SER_DISK sampleStateNoCrown sampleStreamNoCrown rfl).2.1
    rfl 0, rfl, (C32_crown_index_in_stream SER_DISK sampleState sampleStream rfl).1⟩

/-! ## The claim that `distLInf` is a metric -/

/-- C33: on coordinates whose differences do not overflow an `int` (each
difference in both directions, since `distLInf (a, b)` computes `a - b` and
`distLInf (b, a)` computes `b - a`), `distLInf` is a metric: it is 0 exactly
for equal coordinates, it is symmetric, and it satisfies the triangle
inequality. -/
theorem C33_distLInf_metric (a b c : Coord) (hab : a.DiffsFit b) (hbc : b.DiffsFit c)
    (hac : a.DiffsFit c) :
    (distLInf a b = 0 ↔ a = b) ∧ distLInf a b = distLInf b a ∧
    distLInf a c ≤ distLInf a b + distLInf b c := by
  simp only [Coord.DiffsFit, IsInt32] at hab hbc hac
  have e1 := distLInf_eq a b ⟨by omega, by omega⟩ ⟨by omega, by omega⟩
  have e2 := distLInf_eq b a ⟨by omega, by omega⟩ ⟨by omega, by omega⟩
  have e3 := distLInf_eq b c ⟨by omega, by omega⟩ ⟨by omega, by omega⟩
  have e4 := distLInf_eq a c ⟨by omega, by omega⟩ ⟨by omega, by omega⟩
  refine ⟨?_, ?_, ?_⟩
  · rw [e1]
    clear e1 e2 e3 e4
    constructor
    · intro h
      have hx : a.x = b.x := by omega
      have hy : a.y = b.y := by omega
      cases a
      cases b
      simp only at hx hy
      rw [hx, hy]
    · intro h
      subst h
      simp
  · rw [e1, e2]
    clear e1 e2 e3 e4
    omega
  · rw [e1, e3, e4]
    clear e1 e2 e3 e4
    omega

/-- C33 at `(3, -4)`, `(-2, 1)` and `(0, 0)`: the distances are 5, 2 and
4. -/
theorem C33_distLInf_metric_witness :
    Coord.DiffsFit ⟨3, -4⟩ ⟨-2, 1⟩ ∧ Coord.DiffsFit ⟨-2, 1⟩ ⟨0, 0⟩ ∧
    Coord.DiffsFit ⟨3, -4⟩ ⟨0, 0⟩ ∧
    distLInf ⟨3, -4⟩ ⟨-2, 1⟩ = 5 ∧ distLInf ⟨-2, 1⟩ ⟨0, 0⟩ = 2 ∧ distLInf ⟨3, -4⟩ ⟨0, 0⟩ = 4 ∧
    distLInf ⟨3, -4⟩ ⟨0, 0⟩ ≤ distLInf ⟨3, -4⟩ ⟨-2, 1⟩ + distLInf ⟨-2, 1⟩ ⟨0, 0⟩ :=
  ⟨by simp [Coord.DiffsFit, IsInt32], by simp [Coord.DiffsFit, IsInt32],
   by simp [Coord.DiffsFit, IsInt32], by decide, by decide, by decide,
   (C33_distLInf_metric ⟨3, -4⟩ ⟨-2, 1⟩ ⟨0, 0⟩ (by simp [Coord.DiffsFit, IsInt32])
      (by simp [Coord.DiffsFit, IsInt32]) (by simp [Coord.DiffsFit, IsInt32])).2.2⟩

/-! ## The claim on the default-constructed `PlayerState` -/

/-- C34: a default-constructed `PlayerState` has `remainingLife = -1` (it is
not poisoned, and `remainingLife` is not the forbidden value 0), no
characters, `next_character_index = 0`, `lockedCoins = 0`, `value = -1`,
`color = 0xFF` and `message_block = 0`. -/
theorem C34_default_PlayerState :
    PlayerState.new.remainingLife = -1 ∧ PlayerState.new.remainingLife ≠ 0 ∧
    PlayerState.new.characters = [] ∧ PlayerState.new.next_character_index = 0 ∧
    PlayerState.new.lockedCoins = 0 ∧ PlayerState.new.value = -1 ∧
    PlayerState.new.color = 0xFF ∧ PlayerState.new.message_block = 0 := by
  refine ⟨rfl, by decide, rfl, rfl, rfl, rfl, rfl, rfl⟩

end AlifeCore
